import Mathlib

/-! Car-Simulation: a shallow embedding of `CArproject/main.cpp`.

The C++ program keeps all of its state in one `DrivingSimulation` object and
computes with `float`.  The embedding below

* is generic in an ordered field `α` (the `float` values are read as exact
  numbers; at `α = ℚ` every definition can be evaluated, at `α = ℝ` the
  library functions can be the real ones);
* takes the two `<cmath>` functions the program calls, `exp` and `pow`, as the
  parameters `expf` and `powf`;
* takes the value returned by each call of `rand()` as a natural number;
* models the divisions of lines 158-159 (`rpm / baseEfficiencyRPM` and
  `1.0f / efficiencyDrop`, which is a division by zero when `rpm` is `0`) with
  their IEEE-754 results `+inf`, `-inf` and NaN, through the small type `Ext`;
* models `exit(1)` as an error result and the dereference of `end()` in
  `printReport` as `none`;
* has a second reading of the loop of `simulate` in which every arithmetic
  result is rounded to binary32 (`f32`, round to nearest, ties to even): the
  definitions whose names end in `32`.  It is used where the rounding decides
  the property: the test of line 122 and the throttle of line 146.
-/

namespace CarSim

/-! ## Constants (main.cpp, lines 14-17) -/

section Defs

variable {α : Type} [LinearOrderedField α]

/-- The constant `MAX_TORQUE = 145.0f`. -/
def MAX_TORQUE : α := 145

/-- The constant `FIXED_POWER_WATTS = 121.0f * 735.5f`. -/
def FIXED_POWER_WATTS : α := 121 * (1471 / 2)

/-- The constant `WHEEL_RADIUS = 0.4064f`. -/
def WHEEL_RADIUS : α := 4064 / 10000

/-- The constant `dt = 0.1f`. -/
def dt : α := 1 / 10

/-! ## Free functions (main.cpp, lines 19-30) -/

/-- The function `std::min(a, b)`, which is `(b < a) ? b : a`. -/
def stdMin (a b : α) : α := if b < a then b else a

/-- The function `std::max(a, b)`, which is `(a < b) ? b : a`. -/
def stdMax (a b : α) : α := if a < b then b else a

/-- The function `clamp(val, minVal, maxVal)` of main.cpp, lines 19-22. -/
def clamp (val minVal maxVal : α) : α := stdMax minVal (stdMin val maxVal)

/-- The call `accumulate(values.begin(), values.end(), 0.0f)`. -/
def accumulate (values : List α) : α := values.foldl (fun acc v => acc + v) 0

/-- The function `computeAverage` of main.cpp, lines 24-30. -/
def computeAverage (values : List α) : α :=
  if values.isEmpty then 0 else accumulate values / (values.length : α)

/-- The value `*max_element(first, last)`: the first largest element, and
`none` for the empty range, where `max_element` returns `last` and the
dereference is undefined. -/
def maxElement : List α → Option α
  | [] => none
  | x :: xs => some (xs.foldl (fun largest v => if largest < v then v else largest) x)

/-- The value `*min_element(first, last)`: the first smallest element, and
`none` for the empty range, where `min_element` returns `last` and the
dereference is undefined. -/
def minElement : List α → Option α
  | [] => none
  | x :: xs => some (xs.foldl (fun smallest v => if v < smallest then v else smallest) x)

/-! ## Float values outside the finite range -/

/-- A `float` value that may have left the finite range: the program divides by
`efficiencyDrop`, which is `+0` when `rpm` is `0`, and by `baseEfficiencyRPM`,
which an unrecognized style leaves as it was. -/
inductive Ext (α : Type) where
  | fin (x : α) : Ext α
  | posInf : Ext α
  | negInf : Ext α
  | nan : Ext α
  deriving DecidableEq, Repr

/-- The float quotient `x / y` of two finite values: a zero divisor (`+0`) gives
the infinity with the sign of `x`, and NaN for `0 / 0`. -/
def Ext.div (x y : α) : Ext α :=
  if y = 0 then (if 0 < x then Ext.posInf else if x < 0 then Ext.negInf else Ext.nan)
  else Ext.fin (x / y)

/-- The call `pow(e, y)` for an exponent `y` that is positive and no integer (the
program passes `1.2f`), with `powf` the value on a finite base that is not
negative: a negative finite base gives NaN, both infinities give `+inf`, and NaN
gives NaN. -/
def Ext.pow (powf : α → α → α) (e : Ext α) (y : α) : Ext α :=
  match e with
  | Ext.fin x => if x < 0 then Ext.nan else Ext.fin (powf x y)
  | Ext.posInf => Ext.posInf
  | Ext.negInf => Ext.posInf
  | Ext.nan => Ext.nan

/-- The float quotient `1.0f / x` for a non-negative divisor: `1 / +0` is
`+inf`. -/
def Ext.recip (x : α) : Ext α := if x = 0 then Ext.posInf else Ext.fin (1 / x)

/-- The float quotient `1.0f / e` for a possibly non-finite `e`: `1 / inf` is
`0`, and `1 / NaN` is NaN. -/
def Ext.inv (e : Ext α) : Ext α :=
  match e with
  | Ext.fin x => Ext.recip x
  | Ext.posInf => Ext.fin 0
  | Ext.negInf => Ext.fin 0
  | Ext.nan => Ext.nan

/-- The float product `e * y` of a possibly infinite `e` and a finite `y`:
`inf * 0` is NaN and the sign of an infinite product is the product of the
signs. -/
def Ext.mul (e : Ext α) (y : α) : Ext α :=
  match e with
  | Ext.fin x => Ext.fin (x * y)
  | Ext.posInf => if 0 < y then Ext.posInf else if y < 0 then Ext.negInf else Ext.nan
  | Ext.negInf => if 0 < y then Ext.negInf else if y < 0 then Ext.posInf else Ext.nan
  | Ext.nan => Ext.nan

/-- The call `clamp(e, minVal, maxVal)` for a possibly non-finite first
argument, following `max(minVal, min(e, maxVal))` with `std::min` and
`std::max` as comparisons: `maxVal < +inf` holds, `maxVal < -inf` does not, and
every comparison with NaN is false. -/
def Ext.clamp (e : Ext α) (minVal maxVal : α) : α :=
  match e with
  | Ext.fin x => CarSim.clamp x minVal maxVal
  | Ext.posInf => stdMax minVal maxVal
  | Ext.negInf => minVal
  | Ext.nan => minVal

/-! ## The simulation object (main.cpp, lines 32-50) -/

/-- The data members of `class DrivingSimulation`.  `windowSize` is the
constant `10`. -/
structure DrivingSimulation (α : Type) where
  terrain : String
  style : String
  speedLimit : α
  maxRPM : α
  maxThrottle : α
  rampTime : α
  noiseRange : Int
  speedFactor : α
  baseEfficiencyRPM : α
  mileageEfficiencyFactor : α
  fuel : α
  fuelUsed : α
  totalDistance : α
  totalTime : α
  lastMileage : α
  rpm : α
  instMileage : α
  allRPMs : List α
  allSpeeds : List α
  allTorques : List α
  allMileages : List α
  mileageHistory : List α

/-- The member `windowSize = 10`. -/
def windowSize : Nat := 10

/-- The members that have no default initializer hold indeterminate values
after `DrivingSimulation sim;`. -/
structure Indeterminate (α : Type) where
  maxRPM : α
  maxThrottle : α
  rampTime : α
  noiseRange : Int
  speedFactor : α
  baseEfficiencyRPM : α
  mileageEfficiencyFactor : α

/-- The object right after `DrivingSimulation sim;`: the default member
initializers of lines 35-49, and indeterminate values `g` elsewhere. -/
def DrivingSimulation.init (g : Indeterminate α) : DrivingSimulation α where
  terrain := ""
  style := ""
  speedLimit := 0
  maxRPM := g.maxRPM
  maxThrottle := g.maxThrottle
  rampTime := g.rampTime
  noiseRange := g.noiseRange
  speedFactor := g.speedFactor
  baseEfficiencyRPM := g.baseEfficiencyRPM
  mileageEfficiencyFactor := g.mileageEfficiencyFactor
  fuel := 2 / 5
  fuelUsed := 0
  totalDistance := 0
  totalTime := 0
  lastMileage := 0
  rpm := 0
  instMileage := 0
  allRPMs := []
  allSpeeds := []
  allTorques := []
  allMileages := []
  mileageHistory := []

/-! ## Console input and `getUserInput` (main.cpp, lines 53-72) -/

/-- The extraction `cin >> str` on the whitespace-separated tokens still to be
read: at end of input the string is left empty. -/
def readToken : List String → String × List String
  | [] => ("", [])
  | tok :: rest => (tok, rest)

/-- The process has ended through `exit(status)`, with `unread` the input tokens
never extracted. -/
structure Exit where
  status : Nat
  unread : List String
  deriving DecidableEq, Repr

/-- The method `getUserInput` of main.cpp, lines 53-72.  It returns the updated
object and the rest of the input, or the `exit(1)` of line 67. -/
def getUserInput (s : DrivingSimulation α) (input : List String) :
    Except Exit (DrivingSimulation α × List String) :=
  let (terrain, rest) := readToken input
  let s := { s with terrain := terrain }
  if terrain = "hill" then
    let (style, rest) := readToken rest
    Except.ok ({ s with speedLimit := 100, style := style }, rest)
  else if terrain = "plain" then
    let (style, rest) := readToken rest
    Except.ok ({ s with speedLimit := 150, style := style }, rest)
  else if terrain = "downward" then
    let (style, rest) := readToken rest
    Except.ok ({ s with speedLimit := 70, style := style }, rest)
  else
    Except.error { status := 1, unread := rest }

/-! ## `configureStyle` (main.cpp, lines 74-115) -/

/-- The method `configureStyle` of main.cpp, lines 74-115. -/
def configureStyle (s : DrivingSimulation α) : DrivingSimulation α :=
  if s.style = "conservative" then
    { s with
      maxRPM := 2500, maxThrottle := 2000, rampTime := 18, noiseRange := 200,
      speedFactor := 7 / 10, baseEfficiencyRPM := 2000, mileageEfficiencyFactor := 20 }
  else if s.style = "moderate" then
    { s with
      maxRPM := 3000, maxThrottle := 2500, rampTime := 20, noiseRange := 200,
      speedFactor := 85 / 100, baseEfficiencyRPM := 2200, mileageEfficiencyFactor := 17 }
  else if s.style = "aggressive" then
    { s with
      maxRPM := 6000, maxThrottle := 4800, rampTime := 12, noiseRange := 1000,
      speedFactor := 108 / 100, baseEfficiencyRPM := 2600, mileageEfficiencyFactor := 15 }
  else
    { s with
      maxRPM := 3000, maxThrottle := 2500, rampTime := 20, noiseRange := 200,
      speedFactor := 85 / 100 }

/-- The first two calls of `main`: `getUserInput` and then `configureStyle`. -/
def configure (s : DrivingSimulation α) (input : List String) :
    Except Exit (DrivingSimulation α) :=
  match getUserInput s input with
  | Except.error e => Except.error e
  | Except.ok (s1, _) => Except.ok (configureStyle s1)

/-! ## `simulate` (main.cpp, lines 117-195) -/

/-- The conditional block of lines 124-133. -/
def overrideHillConservative (s : DrivingSimulation α) : DrivingSimulation α :=
  if s.terrain = "hill" ∧ s.style = "conservative" then
    { s with
      maxRPM := 2800, maxThrottle := 2500, rampTime := 20, noiseRange := 200,
      speedFactor := 85 / 100, baseEfficiencyRPM := 2200, mileageEfficiencyFactor := 18 }
  else s

/-- The conditional block of lines 135-144. -/
def overrideDownwardAggressive (s : DrivingSimulation α) : DrivingSimulation α :=
  if s.terrain = "downward" ∧ s.style = "aggressive" then
    { s with
      maxRPM := 4000, maxThrottle := 3000, rampTime := 12, noiseRange := 850,
      speedFactor := 1, baseEfficiencyRPM := 2600, mileageEfficiencyFactor := 15 }
  else s

/-- The two conditional blocks of lines 124-144, in the order in which every
pass of the loop of `simulate` runs them. -/
def applyOverride (s : DrivingSimulation α) : DrivingSimulation α :=
  overrideDownwardAggressive (overrideHillConservative s)

/-- Line 146: `maxThrottle * (1.0f - exp(-t / rampTime))`. -/
def throttle (expf : α → α) (maxThrottle rampTime t : α) : α :=
  maxThrottle * (1 - expf (-t / rampTime))

/-- Line 147: `rand() % (3 * noiseRange) - noiseRange` in `int` arithmetic, for
the value `r` that `rand()` returned. -/
def noise (r : Nat) (noiseRange : Int) : Int :=
  Int.tmod (r : Int) (3 * noiseRange) - noiseRange

/-- Line 153: `(rpm >= 5000.0f) ? MAX_TORQUE : (rpm / 5000.0f) * MAX_TORQUE`. -/
def torque (rpm : α) : α :=
  if rpm ≥ 5000 then MAX_TORQUE else (rpm / 5000) * MAX_TORQUE

/-- Lines 158-159: `efficiencyDrop = pow(rpm / baseEfficiencyRPM, 1.2f)` and
`clamp((1.0f / efficiencyDrop) * mileageEfficiencyFactor, 5.0f, 25.0f)`. -/
def dynamicMileage (powf : α → α → α) (rpm baseEfficiencyRPM mileageEfficiencyFactor : α) : α :=
  let efficiencyDrop := Ext.pow powf (Ext.div rpm baseEfficiencyRPM) (6 / 5)
  Ext.clamp (Ext.mul (Ext.inv efficiencyDrop) mileageEfficiencyFactor) 5 25

/-- The local variables of one pass of the loop body, lines 146-173. -/
structure TickVars (α : Type) where
  throttle : α
  noise : Int
  rpm : α
  kmph : α
  speed : α
  torque : α
  distance : α
  totalDistance : α
  dynamicMileage : α
  instFuelUsed : α
  fuelUsed : α
  fuelLeft : α
  instMileage : α
  rangeLeft : α

/-- Lines 146-173, computed on the object `s` as the override blocks left it,
at loop variable `t`, with `r` the value returned by `rand()`. -/
def tickVars (expf : α → α) (powf : α → α → α) (t : α) (r : Nat)
    (s : DrivingSimulation α) : TickVars α :=
  let throttle := throttle expf s.maxThrottle s.rampTime t
  let noise := noise r s.noiseRange
  let rpm := clamp (throttle + (noise : α)) 0 s.maxRPM
  let kmph := clamp ((rpm / s.maxRPM) * s.speedLimit * s.speedFactor) 0 s.speedLimit
  let speed := kmph / (18 / 5)
  let torque := torque rpm
  let distance := speed * dt
  let totalDistance := s.totalDistance + distance
  let dynamicMileage := dynamicMileage powf rpm s.baseEfficiencyRPM s.mileageEfficiencyFactor
  let instFuelUsed := (distance / 1000) / dynamicMileage
  let fuelUsed := s.fuelUsed + instFuelUsed
  let fuelLeft := s.fuel - fuelUsed
  let instMileage :=
    if totalDistance < 1 / 1000 then 0
    else if instFuelUsed > 1 / 10000 then (distance / 1000) / instFuelUsed
    else s.lastMileage
  let rangeLeft := fuelLeft * instMileage
  { throttle := throttle, noise := noise, rpm := rpm, kmph := kmph, speed := speed,
    torque := torque, distance := distance, totalDistance := totalDistance,
    dynamicMileage := dynamicMileage, instFuelUsed := instFuelUsed, fuelUsed := fuelUsed,
    fuelLeft := fuelLeft, instMileage := instMileage, rangeLeft := rangeLeft }

/-- Lines 175-177: `push_back` on the window, then `pop_front` when it holds
more than `windowSize` values. -/
def pushWindow (history : List α) (v : α) : List α :=
  let history := history ++ [v]
  if history.length > windowSize then history.tail else history

/-- One pass of the loop body of `simulate`, lines 124-183 (the printed line
and the pacing sleep of lines 185-193 change no data member). -/
def tick (expf : α → α) (powf : α → α → α) (t : α) (r : Nat)
    (s : DrivingSimulation α) : DrivingSimulation α :=
  let c := applyOverride s
  let v := tickVars expf powf t r c
  { c with
    rpm := v.rpm
    totalDistance := v.totalDistance
    fuelUsed := v.fuelUsed
    instMileage := v.instMileage
    lastMileage := v.instMileage
    mileageHistory := pushWindow c.mileageHistory v.instMileage
    allRPMs := c.allRPMs ++ [v.rpm]
    allSpeeds := c.allSpeeds ++ [v.kmph]
    allTorques := c.allTorques ++ [v.torque]
    allMileages := c.allMileages ++ [v.instMileage]
    totalTime := t }

/-- The loop condition of line 122: `fuel - fuelUsed > 0.01f`. -/
def loopCond (s : DrivingSimulation α) : Prop := s.fuel - s.fuelUsed > 1 / 100

instance (s : DrivingSimulation α) : Decidable (loopCond s) := by
  unfold loopCond; infer_instance

/-- One pass of the loop of line 122 on the loop variable `t` and the object:
the body at `t` with the `k`-th value of `rand()`, then `t += dt`. -/
def loopStep (expf : α → α) (powf : α → α → α) (rnd : Nat → Nat) (k : Nat)
    (p : α × DrivingSimulation α) : α × DrivingSimulation α :=
  (p.1 + dt, tick expf powf p.1 (rnd k) p.2)

/-- The loop of line 122 from its `k`-th test of the condition on, with at
most `n` tests allowed: `none` when the condition still holds at the last
allowed test. -/
def simulateLoop (expf : α → α) (powf : α → α → α) (rnd : Nat → Nat) :
    Nat → Nat → α × DrivingSimulation α → Option (DrivingSimulation α)
  | 0, _, _ => none
  | n + 1, k, p =>
    if loopCond p.2 then simulateLoop expf powf rnd n (k + 1) (loopStep expf powf rnd k p)
    else some p.2

/-- The method `simulate` of main.cpp, lines 117-195: the loop starts with
`t = 0.0f`; `rnd k` is the value of the `k`-th call of `rand()`. -/
def simulate (expf : α → α) (powf : α → α → α) (rnd : Nat → Nat) (n : Nat)
    (s : DrivingSimulation α) : Option (DrivingSimulation α) :=
  simulateLoop expf powf rnd n 0 (0, s)

/-- The loop variable and the object at the `k`-th test of the loop condition,
when the condition held at every earlier test. -/
def boundary (expf : α → α) (powf : α → α → α) (rnd : Nat → Nat)
    (s : DrivingSimulation α) : Nat → α × DrivingSimulation α
  | 0 => (0, s)
  | k + 1 => loopStep expf powf rnd k (boundary expf powf rnd s k)

/-! ## `printReport` (main.cpp, lines 197-238) -/

/-- Lines 206-214: the four checks, each adding one to `behaviorScore`. -/
def behaviorScore (overallMileage avgSpeed avgRPM avgTorque : α) : Int :=
  let behaviorScore : Int := 0
  let behaviorScore := if overallMileage ≥ 15 then behaviorScore + 1 else behaviorScore
  let behaviorScore := if avgSpeed < 60 then behaviorScore + 1 else behaviorScore
  let behaviorScore := if avgRPM < 2500 then behaviorScore + 1 else behaviorScore
  let behaviorScore := if avgTorque < 80 then behaviorScore + 1 else behaviorScore
  behaviorScore

/-- Lines 216-222: the label chosen from `behaviorScore`. -/
def behaviorLabel (behaviorScore : Int) : String :=
  if behaviorScore ≥ 3 then "Eco-friendly Driver"
  else if behaviorScore = 2 then "Moderate Driver"
  else "Aggressive Driver"

/-- Lines 206-222 as a function of the four aggregates. -/
def behavior (overallMileage avgSpeed avgRPM avgTorque : α) : String :=
  behaviorLabel (behaviorScore overallMileage avgSpeed avgRPM avgTorque)

/-- The values `printReport` prints. -/
structure Report (α : Type) where
  terrain : String
  style : String
  totalTime : α
  totalDistanceKm : α
  fuelUsed : α
  avgSpeed : α
  avgRPM : α
  avgTorque : α
  overallMileage : α
  maxMileage : α
  minMileage : α
  behavior : String

/-- The method `printReport` of main.cpp, lines 197-238: `none` when line 203
or 204 dereferences the end of an empty `allMileages`. -/
def printReport (s : DrivingSimulation α) : Option (Report α) :=
  let avgSpeed := computeAverage s.allSpeeds
  let avgRPM := computeAverage s.allRPMs
  let avgTorque := computeAverage s.allTorques
  let overallMileage := s.totalDistance / 1000 / s.fuelUsed
  match maxElement s.allMileages, minElement s.allMileages with
  | some maxMileage, some minMileage =>
    some
      { terrain := s.terrain, style := s.style, totalTime := s.totalTime,
        totalDistanceKm := s.totalDistance / 1000, fuelUsed := s.fuelUsed,
        avgSpeed := avgSpeed, avgRPM := avgRPM, avgTorque := avgTorque,
        overallMileage := overallMileage, maxMileage := maxMileage,
        minMileage := minMileage,
        behavior := behavior overallMileage avgSpeed avgRPM avgTorque }
  | _, _ => none

/-! ## `main` (main.cpp, lines 241-249) -/

/-- The function `main`: the exit status of the process, `none` when the loop
of `simulate` needs more than `n` tests or `printReport` is undefined. -/
def main (expf : α → α) (powf : α → α → α) (rnd : Nat → Nat) (n : Nat)
    (g : Indeterminate α) (input : List String) : Option Nat :=
  match getUserInput (DrivingSimulation.init g) input with
  | Except.error e => some e.status
  | Except.ok (s, _) =>
    match simulate expf powf rnd n (configureStyle s) with
    | none => none
    | some s => (printReport s).map (fun _ => 0)

end Defs

/-! ## binary32 rounding -/

section Float32Defs

variable {α : Type} [LinearOrderedField α] [FloorRing α]

/-- Rounding to the nearest integer, a tie going to the even one. -/
def roundTiesEven (y : α) : ℤ :=
  if y - ⌊y⌋ < 1 / 2 then ⌊y⌋
  else if 1 / 2 < y - ⌊y⌋ then ⌊y⌋ + 1
  else if ⌊y⌋ % 2 = 0 then ⌊y⌋ else ⌊y⌋ + 1

/-- The binary32 exponent of `x`: that of the largest power of two not above
`|x|`, and `-126` throughout the subnormal range. -/
def binade (x : α) : ℤ := max (Int.log 2 |x|) (-126)

/-- The distance between neighbouring binary32 values at `x`: 24 significant
bits. -/
def ulp (x : α) : α := (2 : α) ^ (binade x - 23)

/-- The binary32 value of `x`: the nearest multiple of `ulp x`, a tie going to
the even significand (the default rounding of IEEE 754), for `|x|` below the
overflow threshold `2^128`. -/
def f32 (x : α) : α := (roundTiesEven (x / ulp x) : α) * ulp x

end Float32Defs

/-! ## The program in binary32 arithmetic -/

section Binary32Defs

variable {α : Type} [LinearOrderedField α] [FloorRing α]

/-- The binary32 value of a result that may have left the finite range: the
infinities and NaN are binary32 values already. -/
def Ext.round (e : Ext α) : Ext α :=
  match e with
  | Ext.fin x => Ext.fin (f32 x)
  | Ext.posInf => Ext.posInf
  | Ext.negInf => Ext.negInf
  | Ext.nan => Ext.nan

/-- The object right after `DrivingSimulation sim;` with its `float` members
as binary32 values: `0.4f` is the binary32 value of `2/5`, and `0.0f` is
exact. -/
def DrivingSimulation.init32 (g : Indeterminate α) : DrivingSimulation α :=
  { DrivingSimulation.init g with fuel := f32 (2 / 5) }

/-- The method `configureStyle` (lines 74-115) with its literals as binary32
values: `0.7f`, `0.85f` and `1.08f` are rounded, the integral literals are
exact. -/
def configureStyle32 (s : DrivingSimulation α) : DrivingSimulation α :=
  if s.style = "conservative" then
    { s with
      maxRPM := 2500, maxThrottle := 2000, rampTime := 18, noiseRange := 200,
      speedFactor := f32 (7 / 10), baseEfficiencyRPM := 2000, mileageEfficiencyFactor := 20 }
  else if s.style = "moderate" then
    { s with
      maxRPM := 3000, maxThrottle := 2500, rampTime := 20, noiseRange := 200,
      speedFactor := f32 (85 / 100), baseEfficiencyRPM := 2200, mileageEfficiencyFactor := 17 }
  else if s.style = "aggressive" then
    { s with
      maxRPM := 6000, maxThrottle := 4800, rampTime := 12, noiseRange := 1000,
      speedFactor := f32 (108 / 100), baseEfficiencyRPM := 2600,
      mileageEfficiencyFactor := 15 }
  else
    { s with
      maxRPM := 3000, maxThrottle := 2500, rampTime := 20, noiseRange := 200,
      speedFactor := f32 (85 / 100) }

/-- The first two calls of `main` on binary32 values: `getUserInput` (whose
literals `100.0f`, `150.0f` and `70.0f` are exact) and then `configureStyle`. -/
def configure32 (s : DrivingSimulation α) (input : List String) :
    Except Exit (DrivingSimulation α) :=
  match getUserInput s input with
  | Except.error e => Except.error e
  | Except.ok (s1, _) => Except.ok (configureStyle32 s1)

/-- The conditional block of lines 124-133, with `0.85f` as a binary32
value. -/
def overrideHillConservative32 (s : DrivingSimulation α) : DrivingSimulation α :=
  if s.terrain = "hill" ∧ s.style = "conservative" then
    { s with
      maxRPM := 2800, maxThrottle := 2500, rampTime := 20, noiseRange := 200,
      speedFactor := f32 (85 / 100), baseEfficiencyRPM := 2200, mileageEfficiencyFactor := 18 }
  else s

/-- The two conditional blocks of lines 124-144 on binary32 values; every
literal of the second block is exact. -/
def applyOverride32 (s : DrivingSimulation α) : DrivingSimulation α :=
  overrideDownwardAggressive (overrideHillConservative32 s)

/-- Line 146 as binary32 arithmetic computes it: the quotient `-t / rampTime`,
the difference `1.0f - exp(...)` and the product are each rounded; `expf` is
the `float` function `exp` of `<cmath>`. -/
def throttle32 (expf : α → α) (maxThrottle rampTime t : α) : α :=
  f32 (maxThrottle * f32 (1 - expf (f32 (-t / rampTime))))

/-- Line 153 in binary32 arithmetic. -/
def torque32 (rpm : α) : α :=
  if rpm ≥ 5000 then MAX_TORQUE else f32 (f32 (rpm / 5000) * MAX_TORQUE)

/-- Lines 158-159 in binary32 arithmetic; `powf` is the `float` function `pow`
of `<cmath>` and `1.2f` the binary32 value of `6/5`. -/
def dynamicMileage32 (powf : α → α → α) (rpm baseEfficiencyRPM mileageEfficiencyFactor : α) :
    α :=
  let efficiencyDrop := Ext.pow powf (Ext.round (Ext.div rpm baseEfficiencyRPM)) (f32 (6 / 5))
  Ext.clamp (Ext.round (Ext.mul (Ext.round (Ext.inv efficiencyDrop)) mileageEfficiencyFactor))
    5 25

/-- Lines 146-173 in binary32 arithmetic: every arithmetic operation is
followed by rounding, and the literals `3.6f`, `0.1f`, `0.001f` and `0.0001f`
are binary32 values. -/
def tickVars32 (expf : α → α) (powf : α → α → α) (t : α) (r : Nat)
    (s : DrivingSimulation α) : TickVars α :=
  let throttle := throttle32 expf s.maxThrottle s.rampTime t
  let noise := noise r s.noiseRange
  let rpm := clamp (f32 (throttle + f32 (noise : α))) 0 s.maxRPM
  let kmph := clamp (f32 (f32 (f32 (rpm / s.maxRPM) * s.speedLimit) * s.speedFactor)) 0
    s.speedLimit
  let speed := f32 (kmph / f32 (18 / 5))
  let torque := torque32 rpm
  let distance := f32 (speed * f32 (1 / 10))
  let totalDistance := f32 (s.totalDistance + distance)
  let dynamicMileage :=
    dynamicMileage32 powf rpm s.baseEfficiencyRPM s.mileageEfficiencyFactor
  let instFuelUsed := f32 (f32 (distance / 1000) / dynamicMileage)
  let fuelUsed := f32 (s.fuelUsed + instFuelUsed)
  let fuelLeft := f32 (s.fuel - fuelUsed)
  let instMileage :=
    if totalDistance < f32 (1 / 1000) then 0
    else if instFuelUsed > f32 (1 / 10000) then f32 (f32 (distance / 1000) / instFuelUsed)
    else s.lastMileage
  let rangeLeft := f32 (fuelLeft * instMileage)
  { throttle := throttle, noise := noise, rpm := rpm, kmph := kmph, speed := speed,
    torque := torque, distance := distance, totalDistance := totalDistance,
    dynamicMileage := dynamicMileage, instFuelUsed := instFuelUsed, fuelUsed := fuelUsed,
    fuelLeft := fuelLeft, instMileage := instMileage, rangeLeft := rangeLeft }

/-- One pass of the loop body of `simulate`, lines 124-183, in binary32
arithmetic. -/
def tick32 (expf : α → α) (powf : α → α → α) (t : α) (r : Nat)
    (s : DrivingSimulation α) : DrivingSimulation α :=
  let c := applyOverride32 s
  let v := tickVars32 expf powf t r c
  { c with
    rpm := v.rpm
    totalDistance := v.totalDistance
    fuelUsed := v.fuelUsed
    instMileage := v.instMileage
    lastMileage := v.instMileage
    mileageHistory := pushWindow c.mileageHistory v.instMileage
    allRPMs := c.allRPMs ++ [v.rpm]
    allSpeeds := c.allSpeeds ++ [v.kmph]
    allTorques := c.allTorques ++ [v.torque]
    allMileages := c.allMileages ++ [v.instMileage]
    totalTime := t }

/-- The loop condition of line 122 as binary32 arithmetic evaluates it: the
difference `fuel - fuelUsed` is rounded and compared with the binary32 value
`0.01f`. -/
def loopCond32 (s : DrivingSimulation α) : Prop := f32 (s.fuel - s.fuelUsed) > f32 (1 / 100)

instance (s : DrivingSimulation α) : Decidable (loopCond32 s) := by
  unfold loopCond32; infer_instance

/-- One pass of the loop of line 122 in binary32 arithmetic: the body at `t`,
then `t += dt` with the sum rounded and `dt` the binary32 value `0.1f`. -/
def loopStep32 (expf : α → α) (powf : α → α → α) (rnd : Nat → Nat) (k : Nat)
    (p : α × DrivingSimulation α) : α × DrivingSimulation α :=
  (f32 (p.1 + f32 (1 / 10)), tick32 expf powf p.1 (rnd k) p.2)

/-- The loop of line 122 in binary32 arithmetic from its `k`-th test on, with
at most `n` tests allowed. -/
def simulateLoop32 (expf : α → α) (powf : α → α → α) (rnd : Nat → Nat) :
    Nat → Nat → α × DrivingSimulation α → Option (DrivingSimulation α)
  | 0, _, _ => none
  | n + 1, k, p =>
    if loopCond32 p.2 then
      simulateLoop32 expf powf rnd n (k + 1) (loopStep32 expf powf rnd k p)
    else some p.2

/-- The method `simulate` in binary32 arithmetic; the loop starts with
`t = 0.0f`. -/
def simulate32 (expf : α → α) (powf : α → α → α) (rnd : Nat → Nat) (n : Nat)
    (s : DrivingSimulation α) : Option (DrivingSimulation α) :=
  simulateLoop32 expf powf rnd n 0 (0, s)

/-- The loop variable and the object at the `k`-th test of the loop condition
in binary32 arithmetic, when the condition held at every earlier test. -/
def boundary32 (expf : α → α) (powf : α → α → α) (rnd : Nat → Nat)
    (s : DrivingSimulation α) : Nat → α × DrivingSimulation α
  | 0 => (0, s)
  | k + 1 => loopStep32 expf powf rnd k (boundary32 expf powf rnd s k)

end Binary32Defs

/-- An object for concrete evaluations: the indeterminate members are `0`. -/
def sampleInit : DrivingSimulation ℚ :=
  DrivingSimulation.init
    { maxRPM := 0, maxThrottle := 0, rampTime := 0, noiseRange := 0, speedFactor := 0,
      baseEfficiencyRPM := 0, mileageEfficiencyFactor := 0 }

/-- The object as construction and configuration leave it for terrain "plain"
and style "moderate", before the first pass of the loop. -/
def plainModerate {α : Type} [LinearOrderedField α] : DrivingSimulation α where
  terrain := "plain"
  style := "moderate"
  speedLimit := 150
  maxRPM := 3000
  maxThrottle := 2500
  rampTime := 20
  noiseRange := 200
  speedFactor := 85 / 100
  baseEfficiencyRPM := 2200
  mileageEfficiencyFactor := 17
  fuel := 2 / 5
  fuelUsed := 0
  totalDistance := 0
  totalTime := 0
  lastMileage := 0
  rpm := 0
  instMileage := 0
  allRPMs := []
  allSpeeds := []
  allTorques := []
  allMileages := []
  mileageHistory := []

/-- The score in the words of the specification: the number of the four checks
`overallMileage ≥ 15`, `avgSpeed < 60`, `avgRPM < 2500`, `avgTorque < 80` that
hold.  It is compared with `behaviorScore`, which follows the code. -/
def specChecksPassed {α : Type} [LinearOrderedField α]
    (overallMileage avgSpeed avgRPM avgTorque : α) : Nat :=
  [decide (overallMileage ≥ 15), decide (avgSpeed < 60), decide (avgRPM < 2500),
    decide (avgTorque < 80)].count true

/-! ## Auxiliary predicates and sample inputs -/

/-- The accumulators of an object on which no pass has run: the values the
default member initializers give. -/
def Fresh {α : Type} [LinearOrderedField α] (s : DrivingSimulation α) : Prop :=
  s.fuel = 2 / 5 ∧ s.fuelUsed = 0 ∧ s.totalDistance = 0 ∧ s.lastMileage = 0 ∧
  s.allRPMs = [] ∧ s.allSpeeds = [] ∧ s.allTorques = [] ∧ s.allMileages = []

/-- Bounds met by the members that `getUserInput`, every branch of
`configureStyle` and both override blocks set. -/
def PresetBounds {α : Type} [LinearOrderedField α] (c : DrivingSimulation α) : Prop :=
  650 ≤ c.maxRPM ∧ c.maxRPM ≤ 6000 ∧ 70 ≤ c.speedLimit ∧ c.speedLimit ≤ 150 ∧
  7 / 10 ≤ c.speedFactor ∧ 0 < c.rampTime ∧ c.rampTime ≤ 20 ∧ 0 < c.noiseRange ∧
  ((c.noiseRange : Int) : α) + 650 ≤ c.maxThrottle / 2

/-- The two objects agree on the members configuration sets: terrain, style,
`speedLimit` and the seven members of a preset. -/
def SameConfig {α : Type} [LinearOrderedField α] (a b : DrivingSimulation α) : Prop :=
  a.terrain = b.terrain ∧ a.style = b.style ∧ a.speedLimit = b.speedLimit ∧
  a.maxRPM = b.maxRPM ∧ a.maxThrottle = b.maxThrottle ∧ a.rampTime = b.rampTime ∧
  a.noiseRange = b.noiseRange ∧ a.speedFactor = b.speedFactor ∧
  a.baseEfficiencyRPM = b.baseEfficiencyRPM ∧
  a.mileageEfficiencyFactor = b.mileageEfficiencyFactor

/-- Values for the members `DrivingSimulation sim;` leaves indeterminate; the
two that an unrecognized style never assigns are `baseEfficiencyRPM = 0.001`
and `mileageEfficiencyFactor = 1`. -/
def staleMembers {α : Type} [LinearOrderedField α] : Indeterminate α where
  maxRPM := 0
  maxThrottle := 0
  rampTime := 0
  noiseRange := 0
  speedFactor := 0
  baseEfficiencyRPM := 1 / 1000
  mileageEfficiencyFactor := 1

/-- Values of `rand()` whose noise is `-200` in the first three passes and
`399` in the fourth, for `noiseRange = 200`. -/
def staleRand (k : Nat) : Nat := if k = 3 then 599 else 0

/-- Bounds met by the members in force in a pass for each of the nine valid
(terrain, style) pairs: at 36 km/h the rpm is still below
`baseEfficiencyRPM`. -/
def ValidPairBounds {α : Type} [LinearOrderedField α] (c : DrivingSimulation α) : Prop :=
  0 < c.maxRPM ∧ 70 ≤ c.speedLimit ∧ 0 < c.speedFactor ∧ 0 < c.baseEfficiencyRPM ∧
  10 ≤ c.mileageEfficiencyFactor ∧
  36 * c.maxRPM ≤ c.speedLimit * c.speedFactor * c.baseEfficiencyRPM

/-! ## Frame lemmas -/

section Lemmas

variable {α : Type} [LinearOrderedField α]

theorem applyOverride_speedLimit (s : DrivingSimulation α) :
    (applyOverride s).speedLimit = s.speedLimit := by
  unfold applyOverride overrideDownwardAggressive overrideHillConservative
  split_ifs <;> rfl

theorem applyOverride_fuel (s : DrivingSimulation α) :
    (applyOverride s).fuel = s.fuel ∧ (applyOverride s).fuelUsed = s.fuelUsed := by
  unfold applyOverride overrideDownwardAggressive overrideHillConservative
  split_ifs <;> exact ⟨rfl, rfl⟩

theorem tick_speedLimit (expf : α → α) (powf : α → α → α) (t : α) (r : Nat)
    (s : DrivingSimulation α) : (tick expf powf t r s).speedLimit = s.speedLimit := by
  simp [tick, applyOverride_speedLimit]

theorem tick_fuel (expf : α → α) (powf : α → α → α) (t : α) (r : Nat)
    (s : DrivingSimulation α) : (tick expf powf t r s).fuel = s.fuel := by
  simp [tick, applyOverride_fuel]

theorem boundary_speedLimit (expf : α → α) (powf : α → α → α) (rnd : Nat → Nat)
    (s : DrivingSimulation α) (k : Nat) :
    (boundary expf powf rnd s k).2.speedLimit = s.speedLimit := by
  induction k with
  | zero => rfl
  | succ k ih => simp [boundary, loopStep, tick_speedLimit, ih]

theorem boundary_fuel (expf : α → α) (powf : α → α → α) (rnd : Nat → Nat)
    (s : DrivingSimulation α) (k : Nat) :
    (boundary expf powf rnd s k).2.fuel = s.fuel := by
  induction k with
  | zero => rfl
  | succ k ih => simp [boundary, loopStep, tick_fuel, ih]

theorem boundary_time (expf : α → α) (powf : α → α → α) (rnd : Nat → Nat)
    (s : DrivingSimulation α) (k : Nat) :
    (boundary expf powf rnd s k).1 = (k : α) * dt := by
  induction k with
  | zero => simp [boundary]
  | succ k ih => simp [boundary, loopStep, ih]; ring

/-- The loop started at its `k`-th test returns exactly the object of the first
later test at which the condition fails. -/
theorem simulateLoop_eq_some (expf : α → α) (powf : α → α → α) (rnd : Nat → Nat)
    (s : DrivingSimulation α) (n k : Nat) (r : DrivingSimulation α) :
    simulateLoop expf powf rnd n k (boundary expf powf rnd s k) = some r ↔
      ∃ m, k ≤ m ∧ m < k + n ∧ r = (boundary expf powf rnd s m).2 ∧
        (∀ j, k ≤ j → j < m → loopCond (boundary expf powf rnd s j).2) ∧
        ¬ loopCond (boundary expf powf rnd s m).2 := by
  induction n generalizing k with
  | zero =>
    simp only [simulateLoop, Nat.add_zero]
    constructor
    · intro h; cases h
    · rintro ⟨m, h1, h2, _⟩; omega
  | succ n ih =>
    simp only [simulateLoop]
    by_cases hc : loopCond (boundary expf powf rnd s k).2
    · rw [if_pos hc]
      have hb : loopStep expf powf rnd k (boundary expf powf rnd s k) =
          boundary expf powf rnd s (k + 1) := rfl
      rw [hb, ih (k + 1)]
      constructor
      · rintro ⟨m, h1, h2, h3, h4, h5⟩
        refine ⟨m, by omega, by omega, h3, ?_, h5⟩
        intro j hj1 hj2
        rcases Nat.eq_or_lt_of_le hj1 with h | h
        · rw [← h]; exact hc
        · exact h4 j h hj2
      · rintro ⟨m, h1, h2, h3, h4, h5⟩
        have hne : m ≠ k := by
          rintro rfl
          exact h5 hc
        refine ⟨m, by omega, by omega, h3, ?_, h5⟩
        intro j hj1 hj2
        exact h4 j (by omega) hj2
    · rw [if_neg hc]
      constructor
      · intro h
        refine ⟨k, le_refl k, by omega, ?_, ?_, hc⟩
        · exact (Option.some.inj h).symm
        · intro j hj1 hj2; omega
      · rintro ⟨m, h1, h2, h3, h4, h5⟩
        have hm : m = k := by
          by_contra hne
          exact hc (h4 k (le_refl k) (by omega))
        rw [h3, hm]

/-! ## Ranges -/

theorem clamp_bounds (val minVal maxVal : α) (h : minVal ≤ maxVal) :
    minVal ≤ clamp val minVal maxVal ∧ clamp val minVal maxVal ≤ maxVal := by
  unfold clamp stdMax stdMin
  split_ifs with h1 h2 h2
  · exact ⟨h, le_refl _⟩
  · exact ⟨le_refl _, h⟩
  · exact ⟨le_of_lt h2, le_of_not_lt h1⟩
  · exact ⟨le_refl _, h⟩

theorem extClamp_bounds (e : Ext α) (minVal maxVal : α) (h : minVal ≤ maxVal) :
    minVal ≤ Ext.clamp e minVal maxVal ∧ Ext.clamp e minVal maxVal ≤ maxVal := by
  cases e with
  | fin x => exact CarSim.clamp_bounds x minVal maxVal h
  | posInf =>
    simp only [Ext.clamp, stdMax]
    split_ifs
    · exact ⟨h, le_refl _⟩
    · exact ⟨le_refl _, h⟩
  | negInf => exact ⟨le_refl _, h⟩
  | nan => exact ⟨le_refl _, h⟩

theorem dynamicMileage_bounds (powf : α → α → α) (rpm base factor : α) :
    5 ≤ dynamicMileage powf rpm base factor ∧ dynamicMileage powf rpm base factor ≤ 25 :=
  extClamp_bounds _ 5 25 (by norm_num)

/-- For a divisor that is not zero and a quotient that is not negative, the
`dynamicMileage` is the clamp of `(1 / efficiencyDrop) * factor` with the
finite `efficiencyDrop = pow(rpm / base, 1.2)`. -/
theorem dynamicMileage_of_base (powf : α → α → α) (rpm base factor : α)
    (hb : base ≠ 0) (hq : 0 ≤ rpm / base) :
    dynamicMileage powf rpm base factor =
      Ext.clamp (Ext.mul (Ext.recip (powf (rpm / base) (6 / 5))) factor) 5 25 := by
  simp only [dynamicMileage, Ext.div, if_neg hb, Ext.pow, if_neg (not_lt.mpr hq), Ext.inv]

/-- With a `baseEfficiencyRPM` of `0`, as an unrecognized style may leave it,
the quotient of line 158 is an infinity or NaN and the `dynamicMileage` is the
lower clamp bound `5`. -/
theorem dynamicMileage_base_zero (powf : α → α → α) (rpm factor : α) :
    dynamicMileage powf rpm 0 factor = 5 := by
  unfold dynamicMileage Ext.div
  rw [if_pos rfl]
  have h1 : ¬ (25 : α) < 0 := by norm_num
  have h2 : ¬ (5 : α) < 0 := by norm_num
  split_ifs <;>
    simp [Ext.pow, Ext.inv, Ext.mul, Ext.clamp, clamp, stdMax, stdMin, if_neg h1, if_neg h2]

theorem torque_bounds (rpm : α) (h : 0 ≤ rpm) : 0 ≤ torque rpm ∧ torque rpm ≤ 145 := by
  unfold torque MAX_TORQUE
  split_ifs with h1
  · exact ⟨by norm_num, le_refl _⟩
  · have h2 : rpm < 5000 := lt_of_not_ge h1
    constructor
    · positivity
    · have : rpm / 5000 ≤ 1 := by
        rw [div_le_one (by norm_num)]
        exact le_of_lt h2
      nlinarith

theorem overrideHillConservative_maxRPM_nonneg (s : DrivingSimulation α) (h : 0 ≤ s.maxRPM) :
    0 ≤ (overrideHillConservative s).maxRPM := by
  unfold overrideHillConservative
  split_ifs
  · show (0 : α) ≤ 2800
    norm_num
  · exact h

theorem overrideDownwardAggressive_maxRPM_nonneg (s : DrivingSimulation α) (h : 0 ≤ s.maxRPM) :
    0 ≤ (overrideDownwardAggressive s).maxRPM := by
  unfold overrideDownwardAggressive
  split_ifs
  · show (0 : α) ≤ 4000
    norm_num
  · exact h

theorem applyOverride_maxRPM_nonneg (s : DrivingSimulation α) (h : 0 ≤ s.maxRPM) :
    0 ≤ (applyOverride s).maxRPM :=
  overrideDownwardAggressive_maxRPM_nonneg _ (overrideHillConservative_maxRPM_nonneg s h)

theorem tick_maxRPM (expf : α → α) (powf : α → α → α) (t : α) (r : Nat)
    (s : DrivingSimulation α) : (tick expf powf t r s).maxRPM = (applyOverride s).maxRPM := rfl

theorem boundary_maxRPM_nonneg (expf : α → α) (powf : α → α → α) (rnd : Nat → Nat)
    (s : DrivingSimulation α) (h : 0 ≤ s.maxRPM) (k : Nat) :
    0 ≤ (boundary expf powf rnd s k).2.maxRPM := by
  induction k with
  | zero => exact h
  | succ k ih =>
    show 0 ≤ (tick expf powf _ _ _).maxRPM
    rw [tick_maxRPM]
    exact applyOverride_maxRPM_nonneg _ ih

theorem configureStyle_maxRPM_pos (s : DrivingSimulation α) : 0 < (configureStyle s).maxRPM := by
  unfold configureStyle
  split_ifs
  · show (0 : α) < 2500
    norm_num
  · show (0 : α) < 3000
    norm_num
  · show (0 : α) < 6000
    norm_num
  · show (0 : α) < 3000
    norm_num

/-- The ranges of the values one pass of the loop body records, on an object
whose `maxRPM` and `speedLimit` are not negative. -/
theorem tickVars_bounds (expf : α → α) (powf : α → α → α) (t : α) (r : Nat)
    (c : DrivingSimulation α) (hm : 0 ≤ c.maxRPM) (hl : 0 ≤ c.speedLimit) :
    (0 ≤ (tickVars expf powf t r c).rpm ∧ (tickVars expf powf t r c).rpm ≤ c.maxRPM) ∧
    (0 ≤ (tickVars expf powf t r c).kmph ∧ (tickVars expf powf t r c).kmph ≤ c.speedLimit) ∧
    (0 ≤ (tickVars expf powf t r c).torque ∧ (tickVars expf powf t r c).torque ≤ 145) := by
  have hrpm := clamp_bounds (throttle expf c.maxThrottle c.rampTime t + ((noise r c.noiseRange : Int) : α))
    0 c.maxRPM hm
  refine ⟨hrpm, clamp_bounds _ 0 c.speedLimit hl, torque_bounds _ hrpm.1⟩

theorem applyOverride_samples (s : DrivingSimulation α) :
    (applyOverride s).allRPMs = s.allRPMs ∧ (applyOverride s).allSpeeds = s.allSpeeds ∧
    (applyOverride s).allTorques = s.allTorques ∧
    (applyOverride s).allMileages = s.allMileages := by
  unfold applyOverride overrideDownwardAggressive overrideHillConservative
  split_ifs <;> exact ⟨rfl, rfl, rfl, rfl⟩

theorem configureStyle_moderate (s : DrivingSimulation α) (h : s.style = "moderate") :
    configureStyle s =
      { s with
        maxRPM := 3000, maxThrottle := 2500, rampTime := 20, noiseRange := 200,
        speedFactor := 85 / 100, baseEfficiencyRPM := 2200, mileageEfficiencyFactor := 17 } := by
  simp [configureStyle, h]

/-- The sample object `plainModerate` is the object that construction and
configuration produce on the input `plain moderate`, whatever the indeterminate
members held. -/
theorem configure_plainModerate (g : Indeterminate α) (rest : List String) :
    configure (DrivingSimulation.init g) ("plain" :: "moderate" :: rest) =
      Except.ok plainModerate := by
  have h : getUserInput (DrivingSimulation.init g) ("plain" :: "moderate" :: rest) =
      Except.ok ({ DrivingSimulation.init g with
        terrain := "plain", speedLimit := 150, style := "moderate" }, rest) := by
    simp [getUserInput, readToken]
  unfold configure
  rw [h]
  simp only []
  rw [configureStyle_moderate _ rfl]
  rfl

theorem applyOverride_plain (c : DrivingSimulation α) (h : c.terrain = "plain") :
    applyOverride c = c := by
  simp [applyOverride, overrideHillConservative, overrideDownwardAggressive, h]

theorem clamp_zero (maxVal : α) (h : 0 ≤ maxVal) : clamp (0 : α) 0 maxVal = 0 := by
  unfold clamp stdMax stdMin
  split_ifs with h1 h2 h2
  · exact absurd h1 (not_lt.mpr h)
  · rfl
  · rfl
  · rfl

/-- The pass at `t = 0` with noise `0`, for an exponential with `expf 0 = 1`. -/
theorem tickVars_at_zero (expf : α → α) (powf : α → α → α) (r : Nat) (c : DrivingSimulation α)
    (hexp : expf 0 = 1) (hnoise : noise r c.noiseRange = 0)
    (hm : 0 ≤ c.maxRPM) (hl : 0 ≤ c.speedLimit) :
    (tickVars expf powf 0 r c).throttle = 0 ∧ (tickVars expf powf 0 r c).noise = 0 ∧
    (tickVars expf powf 0 r c).rpm = 0 ∧ (tickVars expf powf 0 r c).kmph = 0 ∧
    (tickVars expf powf 0 r c).torque = 0 := by
  have hth : throttle expf c.maxThrottle c.rampTime 0 = 0 := by
    simp [throttle, hexp]
  have hrpm : (tickVars expf powf 0 r c).rpm = 0 := by
    simp [tickVars, hth, hnoise, clamp_zero _ hm]
  refine ⟨hth, hnoise, hrpm, ?_, ?_⟩
  · show clamp (((tickVars expf powf 0 r c).rpm / c.maxRPM) * c.speedLimit * c.speedFactor) 0
      c.speedLimit = 0
    rw [hrpm]
    simp [clamp_zero _ hl]
  · show torque (tickVars expf powf 0 r c).rpm = 0
    rw [hrpm]
    simp [torque]

end Lemmas

/-! ## Configuration -/

section Configuration

variable {α : Type} [LinearOrderedField α]

theorem getUserInput_hill (s : DrivingSimulation α) (style : String) (rest : List String) :
    getUserInput s ("hill" :: style :: rest) =
      Except.ok ({ s with terrain := "hill", speedLimit := 100, style := style }, rest) := by
  simp [getUserInput, readToken]

theorem getUserInput_plain (s : DrivingSimulation α) (style : String) (rest : List String) :
    getUserInput s ("plain" :: style :: rest) =
      Except.ok ({ s with terrain := "plain", speedLimit := 150, style := style }, rest) := by
  simp [getUserInput, readToken]

theorem getUserInput_downward (s : DrivingSimulation α) (style : String) (rest : List String) :
    getUserInput s ("downward" :: style :: rest) =
      Except.ok ({ s with terrain := "downward", speedLimit := 70, style := style }, rest) := by
  simp [getUserInput, readToken]

theorem configureStyle_speedLimit (s : DrivingSimulation α) :
    (configureStyle s).speedLimit = s.speedLimit := by
  unfold configureStyle
  split_ifs <;> rfl

/-- C1: for each of the terrains hill, plain and downward, and whatever the
style token, `getUserInput` followed by `configureStyle` succeeds with
`speedLimit` 100, 150 and 70 respectively; the object on which every pass of
the loop of `simulate` computes (after the override blocks) still has that
`speedLimit`, and so has every object `simulate` returns. -/
theorem C1_speedLimit_of_terrain (s0 : DrivingSimulation α) (terrain style : String)
    (rest : List String)
    (hterrain : terrain = "hill" ∨ terrain = "plain" ∨ terrain = "downward") :
    ∃ s, configure s0 (terrain :: style :: rest) = Except.ok s ∧
      (terrain = "hill" → s.speedLimit = 100) ∧
      (terrain = "plain" → s.speedLimit = 150) ∧
      (terrain = "downward" → s.speedLimit = 70) ∧
      (∀ (expf : α → α) (powf : α → α → α) (rnd : Nat → Nat) (k : Nat),
        (boundary expf powf rnd s k).2.speedLimit = s.speedLimit ∧
        (applyOverride (boundary expf powf rnd s k).2).speedLimit = s.speedLimit) ∧
      (∀ (expf : α → α) (powf : α → α → α) (rnd : Nat → Nat) (n : Nat)
        (r : DrivingSimulation α),
        simulate expf powf rnd n s = some r → r.speedLimit = s.speedLimit) := by
  have hloop : ∀ s : DrivingSimulation α,
      (∀ (expf : α → α) (powf : α → α → α) (rnd : Nat → Nat) (k : Nat),
        (boundary expf powf rnd s k).2.speedLimit = s.speedLimit ∧
        (applyOverride (boundary expf powf rnd s k).2).speedLimit = s.speedLimit) ∧
      (∀ (expf : α → α) (powf : α → α → α) (rnd : Nat → Nat) (n : Nat)
        (r : DrivingSimulation α),
        simulate expf powf rnd n s = some r → r.speedLimit = s.speedLimit) := by
    intro s
    refine ⟨fun expf powf rnd k => ⟨boundary_speedLimit expf powf rnd s k, ?_⟩, ?_⟩
    · rw [applyOverride_speedLimit, boundary_speedLimit]
    · intro expf powf rnd n r h
      have h0 : simulateLoop expf powf rnd n 0 (boundary expf powf rnd s 0) = some r := h
      obtain ⟨m, _, _, hr, _⟩ := (simulateLoop_eq_some expf powf rnd s n 0 r).mp h0
      rw [hr, boundary_speedLimit]
  rcases hterrain with h | h | h
  · subst h
    refine ⟨_, by rw [configure, getUserInput_hill], ?_, ?_, ?_, hloop _⟩
    · intro _; rw [configureStyle_speedLimit]
    · intro h; exact absurd h (by decide)
    · intro h; exact absurd h (by decide)
  · subst h
    refine ⟨_, by rw [configure, getUserInput_plain], ?_, ?_, ?_, hloop _⟩
    · intro h; exact absurd h (by decide)
    · intro _; rw [configureStyle_speedLimit]
    · intro h; exact absurd h (by decide)
  · subst h
    refine ⟨_, by rw [configure, getUserInput_downward], ?_, ?_, ?_, hloop _⟩
    · intro h; exact absurd h (by decide)
    · intro h; exact absurd h (by decide)
    · intro _; rw [configureStyle_speedLimit]

theorem C1_speedLimit_of_terrain_witness :
    ("hill" = "hill" ∨ "hill" = "plain" ∨ "hill" = "downward") ∧
      ∃ s, configure sampleInit ["hill", "aggressive"] = Except.ok s ∧ s.speedLimit = 100 :=
  ⟨Or.inl rfl,
    match C1_speedLimit_of_terrain sampleInit "hill" "aggressive" [] (Or.inl rfl) with
    | ⟨s, h1, h2, _⟩ => ⟨s, h1, h2 rfl⟩⟩

theorem getUserInput_error_iff (s0 : DrivingSimulation α) (input : List String) :
    (getUserInput s0 input = Except.error { status := 1, unread := (readToken input).2 } ↔
      ¬ ((readToken input).1 = "hill" ∨ (readToken input).1 = "plain" ∨
        (readToken input).1 = "downward")) ∧
    (((readToken input).1 = "hill" ∨ (readToken input).1 = "plain" ∨
        (readToken input).1 = "downward") →
      ∃ p, getUserInput s0 input = Except.ok p) := by
  rcases hrt : readToken input with ⟨tok, rest⟩
  simp only [getUserInput, hrt]
  by_cases h1 : tok = "hill"
  · simp [h1]
  · by_cases h2 : tok = "plain"
    · simp [h2]
    · by_cases h3 : tok = "downward"
      · simp [h3]
      · simp [h1, h2, h3]

/-- C2: `getUserInput` ends the process iff the terrain token is none of the
strings "hill", "plain", "downward" (compared as they are, so "Hill" and the
empty token of an exhausted input are rejected).  When it does, the exit status
is 1, the unread input is everything after the terrain token (the style is
never extracted), `configure` produces no object and `main` exits with status
1 whatever the loop would have done; when it does not, an object is produced
and `main` does not exit with status 1. -/
theorem C2_invalid_terrain_exits (s0 : DrivingSimulation α) (input : List String) :
    ((∃ e, getUserInput s0 input = Except.error e) ↔
      ¬ ((readToken input).1 = "hill" ∨ (readToken input).1 = "plain" ∨
        (readToken input).1 = "downward")) ∧
    (∀ e, getUserInput s0 input = Except.error e →
      e = { status := 1, unread := (readToken input).2 } ∧
      configure s0 input = Except.error e) ∧
    ((∃ s, configure s0 input = Except.ok s) ↔
      ((readToken input).1 = "hill" ∨ (readToken input).1 = "plain" ∨
        (readToken input).1 = "downward")) ∧
    (∀ (expf : α → α) (powf : α → α → α) (rnd : Nat → Nat) (n : Nat) (g : Indeterminate α),
      main expf powf rnd n g input = some 1 ↔
        ¬ ((readToken input).1 = "hill" ∨ (readToken input).1 = "plain" ∨
          (readToken input).1 = "downward")) ∧
    (∀ rest, getUserInput s0 ("Hill" :: rest) = Except.error { status := 1, unread := rest }) ∧
    getUserInput s0 [] = Except.error { status := 1, unread := [] } ∧
    (∀ rest, getUserInput s0 ("" :: rest) = Except.error { status := 1, unread := rest }) := by
  have key := fun (s : DrivingSimulation α) => getUserInput_error_iff s input
  by_cases hv : (readToken input).1 = "hill" ∨ (readToken input).1 = "plain" ∨
      (readToken input).1 = "downward"
  · have hok := fun (s : DrivingSimulation α) => (key s).2 hv
    obtain ⟨p, hp⟩ := hok s0
    refine ⟨?_, ?_, ?_, ?_, ?_, ?_, ?_⟩
    · simp [hp, hv]
    · intro e he; rw [hp] at he; cases he
    · simp only [hv, iff_true]
      exact ⟨configureStyle p.1, by simp [configure, hp]⟩
    · intro expf powf rnd n g
      obtain ⟨q, hq⟩ := hok (DrivingSimulation.init g)
      simp only [main, hq, hv, not_true_eq_false, iff_false]
      cases simulate expf powf rnd n (configureStyle q.1) with
      | none => simp
      | some r => cases printReport r <;> simp
    · intro rest; simp [getUserInput, readToken]
    · simp [getUserInput, readToken]
    · intro rest; simp [getUserInput, readToken]
  · have herr := fun (s : DrivingSimulation α) => (key s).1.mpr hv
    refine ⟨?_, ?_, ?_, ?_, ?_, ?_, ?_⟩
    · simp only [hv, not_false_eq_true, iff_true]
      exact ⟨_, herr s0⟩
    · intro e he
      rw [herr s0] at he
      have he2 : e = { status := 1, unread := (readToken input).2 } := by
        injection he with he; exact he.symm
      refine ⟨he2, ?_⟩
      simp [configure, herr s0, he2]
    · simp only [hv, iff_false]
      rintro ⟨s, hs⟩
      simp [configure, herr s0] at hs
    · intro expf powf rnd n g
      simp [main, herr (DrivingSimulation.init g), hv]
    · intro rest; simp [getUserInput, readToken]
    · simp [getUserInput, readToken]
    · intro rest; simp [getUserInput, readToken]

theorem C2_invalid_terrain_exits_witness :
    ¬ ((readToken ["Hill", "moderate"]).1 = "hill" ∨ (readToken ["Hill", "moderate"]).1 = "plain" ∨
        (readToken ["Hill", "moderate"]).1 = "downward") ∧
      main (fun x : ℚ => 1 + x) (fun x _ => x) (fun _ => 0) 5
        { maxRPM := 0, maxThrottle := 0, rampTime := 0, noiseRange := 0, speedFactor := 0,
          baseEfficiencyRPM := 0, mileageEfficiencyFactor := 0 }
        ["Hill", "moderate"] = some 1 :=
  ⟨by decide,
    ((C2_invalid_terrain_exits sampleInit ["Hill", "moderate"]).2.2.2.1
      (fun x : ℚ => 1 + x) (fun x _ => x) (fun _ => 0) 5
      { maxRPM := 0, maxThrottle := 0, rampTime := 0, noiseRange := 0, speedFactor := 0,
        baseEfficiencyRPM := 0, mileageEfficiencyFactor := 0 }).mpr (by decide)⟩

/-- C7: for a style token that is none of "conservative", "moderate",
"aggressive", `configureStyle` (a total function) changes exactly `maxRPM`,
`maxThrottle`, `rampTime`, `noiseRange` and `speedFactor`, to the moderate
values 3000, 2500, 20, 200 and 0.85; `baseEfficiencyRPM`,
`mileageEfficiencyFactor`, `speedLimit` and every other member keep the value
they had.  With terrain "hill" the configured object has `speedLimit` 100 and
the two efficiency members of the object `getUserInput` was called on. -/
theorem C7_unrecognized_style_partial_fallback (style : String)
    (hstyle : style ≠ "conservative" ∧ style ≠ "moderate" ∧ style ≠ "aggressive") :
    (∀ s : DrivingSimulation α, s.style = style →
      configureStyle s =
        { s with
          maxRPM := 3000, maxThrottle := 2500, rampTime := 20, noiseRange := 200,
          speedFactor := 85 / 100 } ∧
      (configureStyle s).baseEfficiencyRPM = s.baseEfficiencyRPM ∧
      (configureStyle s).mileageEfficiencyFactor = s.mileageEfficiencyFactor ∧
      (configureStyle s).speedLimit = s.speedLimit) ∧
    (∀ (s0 : DrivingSimulation α) (rest : List String),
      ∃ s, configure s0 ("hill" :: style :: rest) = Except.ok s ∧
        s.speedLimit = 100 ∧ s.maxRPM = 3000 ∧ s.maxThrottle = 2500 ∧ s.rampTime = 20 ∧
        s.noiseRange = 200 ∧ s.speedFactor = 85 / 100 ∧
        s.baseEfficiencyRPM = s0.baseEfficiencyRPM ∧
        s.mileageEfficiencyFactor = s0.mileageEfficiencyFactor) := by
  obtain ⟨h1, h2, h3⟩ := hstyle
  have hcs : ∀ s : DrivingSimulation α, s.style = style →
      configureStyle s =
        { s with
          maxRPM := 3000, maxThrottle := 2500, rampTime := 20, noiseRange := 200,
          speedFactor := 85 / 100 } := by
    intro s hs
    simp [configureStyle, hs, h1, h2, h3]
  refine ⟨fun s hs => ?_, fun s0 rest => ?_⟩
  · rw [hcs s hs]
    exact ⟨rfl, rfl, rfl, rfl⟩
  · refine ⟨_, by rw [configure, getUserInput_hill], ?_⟩
    rw [hcs _ rfl]
    exact ⟨rfl, rfl, rfl, rfl, rfl, rfl, rfl, rfl⟩

theorem C7_unrecognized_style_partial_fallback_witness :
    ("invalid_style" ≠ "conservative" ∧ "invalid_style" ≠ "moderate" ∧
        "invalid_style" ≠ "aggressive") ∧
      ∃ s, configure
          (DrivingSimulation.init
            ({ maxRPM := 1, maxThrottle := 2, rampTime := 3, noiseRange := 4, speedFactor := 5,
               baseEfficiencyRPM := 6, mileageEfficiencyFactor := 7 } : Indeterminate ℚ))
          ["hill", "invalid_style"] = Except.ok s ∧
        s.speedLimit = 100 ∧ s.maxRPM = 3000 ∧ s.baseEfficiencyRPM = 6 ∧
        s.mileageEfficiencyFactor = 7 :=
  ⟨by decide,
    match (C7_unrecognized_style_partial_fallback "invalid_style" (by decide)).2
      (DrivingSimulation.init
        ({ maxRPM := 1, maxThrottle := 2, rampTime := 3, noiseRange := 4, speedFactor := 5,
           baseEfficiencyRPM := 6, mileageEfficiencyFactor := 7 } : Indeterminate ℚ)) [] with
    | ⟨s, h, hl, hm, _, _, _, _, hb, hf⟩ => ⟨s, h, hl, hm, hb, hf⟩⟩

end Configuration

/-! ## One pass of the loop body -/

section Ticks

variable {α : Type} [LinearOrderedField α]

theorem configure_ok_of_terrain (s0 : DrivingSimulation α) (terrain style : String)
    (rest : List String)
    (hterrain : terrain = "hill" ∨ terrain = "plain" ∨ terrain = "downward") :
    ∃ s1, configure s0 (terrain :: style :: rest) = Except.ok (configureStyle s1) ∧
      0 ≤ s1.speedLimit := by
  rcases hterrain with h | h | h
  · subst h
    refine ⟨_, by rw [configure, getUserInput_hill], ?_⟩
    show (0 : α) ≤ 100
    norm_num
  · subst h
    refine ⟨_, by rw [configure, getUserInput_plain], ?_⟩
    show (0 : α) ≤ 150
    norm_num
  · subst h
    refine ⟨_, by rw [configure, getUserInput_downward], ?_⟩
    show (0 : α) ≤ 70
    norm_num

/-- C3: after configuration with a valid terrain (and any style token, the three
valid ones included), at every test of the loop condition reached by
`simulate`, one pass of the body at any time `t` and with any `rand()` value
`r` appends an rpm in `[0, maxRPM]`, a speed in `[0, speedLimit]` and a torque
in `[0, 145]`, where `maxRPM` and `speedLimit` are the members as the override
blocks of that pass left them. -/
theorem C3_sample_ranges (s0 : DrivingSimulation α) (terrain style : String)
    (rest : List String)
    (hterrain : terrain = "hill" ∨ terrain = "plain" ∨ terrain = "downward") :
    ∃ s, configure s0 (terrain :: style :: rest) = Except.ok s ∧
      ∀ (expf : α → α) (powf : α → α → α) (rnd : Nat → Nat) (k : Nat) (t : α) (r : Nat),
        ∃ rpm kmph torque : α,
          (tick expf powf t r (boundary expf powf rnd s k).2).allRPMs =
            (boundary expf powf rnd s k).2.allRPMs ++ [rpm] ∧
          (tick expf powf t r (boundary expf powf rnd s k).2).allSpeeds =
            (boundary expf powf rnd s k).2.allSpeeds ++ [kmph] ∧
          (tick expf powf t r (boundary expf powf rnd s k).2).allTorques =
            (boundary expf powf rnd s k).2.allTorques ++ [torque] ∧
          (tick expf powf t r (boundary expf powf rnd s k).2).rpm = rpm ∧
          (tick expf powf t r (boundary expf powf rnd s k).2).maxRPM =
            (applyOverride (boundary expf powf rnd s k).2).maxRPM ∧
          (tick expf powf t r (boundary expf powf rnd s k).2).speedLimit =
            (applyOverride (boundary expf powf rnd s k).2).speedLimit ∧
          0 ≤ rpm ∧ rpm ≤ (applyOverride (boundary expf powf rnd s k).2).maxRPM ∧
          0 ≤ kmph ∧ kmph ≤ (applyOverride (boundary expf powf rnd s k).2).speedLimit ∧
          0 ≤ torque ∧ torque ≤ 145 := by
  obtain ⟨s1, hs1, hl1⟩ := configure_ok_of_terrain s0 terrain style rest hterrain
  refine ⟨_, hs1, ?_⟩
  intro expf powf rnd k t r
  have hm : 0 ≤ (applyOverride (boundary expf powf rnd (configureStyle s1) k).2).maxRPM :=
    applyOverride_maxRPM_nonneg _
      (boundary_maxRPM_nonneg expf powf rnd _ (le_of_lt (configureStyle_maxRPM_pos s1)) k)
  have hl : 0 ≤ (applyOverride (boundary expf powf rnd (configureStyle s1) k).2).speedLimit := by
    rw [applyOverride_speedLimit, boundary_speedLimit, configureStyle_speedLimit]
    exact hl1
  obtain ⟨⟨h1, h2⟩, ⟨h3, h4⟩, h5, h6⟩ := tickVars_bounds expf powf t r _ hm hl
  obtain ⟨e1, e2, e3, _⟩ := applyOverride_samples (boundary expf powf rnd (configureStyle s1) k).2
  refine ⟨_, _, _, ?_, ?_, ?_, rfl, rfl, rfl, h1, h2, h3, h4, h5, h6⟩
  · show (applyOverride _).allRPMs ++ _ = _
    rw [e1]
    rfl
  · show (applyOverride _).allSpeeds ++ _ = _
    rw [e2]
  · show (applyOverride _).allTorques ++ _ = _
    rw [e3]

theorem C3_sample_ranges_witness :
    ("plain" = "hill" ∨ "plain" = "plain" ∨ "plain" = "downward") ∧
      ∃ s, configure sampleInit ["plain", "moderate"] = Except.ok s ∧
        ∃ rpm kmph torque : ℚ,
          (tick (fun x => 1 + x) (fun x _ => x) 0 700 s).allRPMs = s.allRPMs ++ [rpm] ∧
          (tick (fun x => 1 + x) (fun x _ => x) 0 700 s).allSpeeds = s.allSpeeds ++ [kmph] ∧
          (tick (fun x => 1 + x) (fun x _ => x) 0 700 s).allTorques = s.allTorques ++ [torque] ∧
          0 ≤ rpm ∧ rpm ≤ (applyOverride s).maxRPM ∧
          0 ≤ kmph ∧ kmph ≤ (applyOverride s).speedLimit ∧
          0 ≤ torque ∧ torque ≤ 145 :=
  ⟨Or.inr (Or.inl rfl),
    match C3_sample_ranges sampleInit "plain" "moderate" [] (Or.inr (Or.inl rfl)) with
    | ⟨s, hs, h⟩ =>
      match h (fun x => 1 + x) (fun x _ => x) (fun _ => 0) 0 0 700 with
      | ⟨rpm, kmph, torque, h1, h2, h3, _, _, _, h7, h8, h9, h10, h11, h12⟩ =>
        ⟨s, hs, rpm, kmph, torque, h1, h2, h3, h7, h8, h9, h10, h11, h12⟩⟩

/-- C4: the `dynamicMileage` of a pass lies in `[5, 25]` for every rpm, every
`baseEfficiencyRPM` and `mileageEfficiencyFactor` (the positive ones included)
and whatever finite value `pow` returns, both as a function of its inputs and
as computed by `tickVars`.  At `rpm = 0`
with the real power function, where `efficiencyDrop` is `0` and
`1.0f / efficiencyDrop` is `+inf`, it is `25` for every positive
`mileageEfficiencyFactor` and every `baseEfficiencyRPM` that is not zero (the
positive ones included). -/
theorem C4_dynamicMileage_range (powf : α → α → α) (rpm baseEfficiencyRPM factor : α) :
    (5 ≤ dynamicMileage powf rpm baseEfficiencyRPM factor ∧
      dynamicMileage powf rpm baseEfficiencyRPM factor ≤ 25) ∧
    (∀ (expf : α → α) (t : α) (r : Nat) (c : DrivingSimulation α),
      5 ≤ (tickVars expf powf t r c).dynamicMileage ∧
      (tickVars expf powf t r c).dynamicMileage ≤ 25) ∧
    (∀ base f : ℝ, base ≠ 0 → 0 < f →
      dynamicMileage (fun x y : ℝ => x ^ y) 0 base f = 25) := by
  refine ⟨dynamicMileage_bounds powf rpm baseEfficiencyRPM factor, ?_, ?_⟩
  · intro expf t r c
    exact dynamicMileage_bounds powf _ _ _
  · intro base f hb hf
    have h0 : ((0 : ℝ) / base) ^ ((6 : ℝ) / 5) = 0 := by
      rw [zero_div]
      exact Real.zero_rpow (by norm_num)
    rw [dynamicMileage_of_base _ _ _ _ hb (by rw [zero_div])]
    show Ext.clamp (Ext.mul (Ext.recip (((0 : ℝ) / base) ^ ((6 : ℝ) / 5))) f) 5 25 = 25
    simp only [h0, Ext.recip, if_true, Ext.mul, hf, Ext.clamp, stdMax]
    norm_num

theorem C4_dynamicMileage_range_witness :
    ((2200 : ℝ) ≠ 0 ∧ (0 : ℝ) < 17) ∧ dynamicMileage (fun x y : ℝ => x ^ y) 0 2200 17 = 25 :=
  ⟨⟨by norm_num, by norm_num⟩,
    (C4_dynamicMileage_range (fun x y : ℝ => x ^ y) 0 2200 17).2.2 2200 17 (by norm_num)
      (by norm_num)⟩

/-- C6: for terrain "plain" and style "moderate" configuration gives
`speedLimit` 150, `maxRPM` 3000, `maxThrottle` 2500, `rampTime` 20 and
`speedFactor` 0.85, no override applies, and the pass at `t = 0` with an
exponential that is `1` at `0` and a `rand()` value whose noise is `0` computes
throttle, rpm, speed and torque all `0` and records them. -/
theorem C6_plain_moderate_example (s0 : DrivingSimulation α) (rest : List String)
    (expf : α → α) (powf : α → α → α) (r : Nat)
    (hexp : expf 0 = 1) (hnoise : noise r 200 = 0) :
    ∃ s, configure s0 ("plain" :: "moderate" :: rest) = Except.ok s ∧
      s.speedLimit = 150 ∧ s.maxRPM = 3000 ∧ s.maxThrottle = 2500 ∧ s.rampTime = 20 ∧
      s.speedFactor = 85 / 100 ∧ applyOverride s = s ∧
      (tickVars expf powf 0 r (applyOverride s)).throttle = 0 ∧
      (tickVars expf powf 0 r (applyOverride s)).noise = 0 ∧
      (tickVars expf powf 0 r (applyOverride s)).rpm = 0 ∧
      (tickVars expf powf 0 r (applyOverride s)).kmph = 0 ∧
      (tickVars expf powf 0 r (applyOverride s)).torque = 0 ∧
      (tick expf powf 0 r s).rpm = 0 ∧
      (tick expf powf 0 r s).allRPMs = s.allRPMs ++ [0] ∧
      (tick expf powf 0 r s).allSpeeds = s.allSpeeds ++ [0] ∧
      (tick expf powf 0 r s).allTorques = s.allTorques ++ [0] := by
  refine ⟨_, by rw [configure, getUserInput_plain], ?_⟩
  rw [configureStyle_moderate _ rfl]
  have hov := applyOverride_plain
    ({ s0 with
      terrain := "plain", speedLimit := 150, style := "moderate",
      maxRPM := 3000, maxThrottle := 2500, rampTime := 20, noiseRange := 200,
      speedFactor := 85 / 100, baseEfficiencyRPM := 2200, mileageEfficiencyFactor := 17 } :
      DrivingSimulation α) rfl
  obtain ⟨h1, h2, h3, h4, h5⟩ := tickVars_at_zero expf powf r
    ({ s0 with
      terrain := "plain", speedLimit := 150, style := "moderate",
      maxRPM := 3000, maxThrottle := 2500, rampTime := 20, noiseRange := 200,
      speedFactor := 85 / 100, baseEfficiencyRPM := 2200, mileageEfficiencyFactor := 17 } :
      DrivingSimulation α) hexp hnoise
    (by show (0 : α) ≤ 3000; norm_num) (by show (0 : α) ≤ 150; norm_num)
  refine ⟨rfl, rfl, rfl, rfl, rfl, hov, ?_, ?_, ?_, ?_, ?_, ?_, ?_, ?_, ?_⟩
  · rw [hov]; exact h1
  · rw [hov]; exact h2
  · rw [hov]; exact h3
  · rw [hov]; exact h4
  · rw [hov]; exact h5
  · show (tickVars expf powf 0 r (applyOverride _)).rpm = 0
    rw [hov]; exact h3
  · show (applyOverride _).allRPMs ++ [(tickVars expf powf 0 r (applyOverride _)).rpm] = _
    rw [hov, h3]
  · show (applyOverride _).allSpeeds ++ [(tickVars expf powf 0 r (applyOverride _)).kmph] = _
    rw [hov, h4]
  · show (applyOverride _).allTorques ++ [(tickVars expf powf 0 r (applyOverride _)).torque] = _
    rw [hov, h5]

theorem C6_plain_moderate_example_witness :
    (Real.exp 0 = 1 ∧ noise 200 200 = 0) ∧
      ∃ s, configure
          (DrivingSimulation.init
            ({ maxRPM := 0, maxThrottle := 0, rampTime := 0, noiseRange := 0, speedFactor := 0,
               baseEfficiencyRPM := 0, mileageEfficiencyFactor := 0 } : Indeterminate ℝ))
          ["plain", "moderate"] = Except.ok s ∧
        s.speedLimit = 150 ∧ s.maxRPM = 3000 ∧
        (tick Real.exp (fun x y => x ^ y) 0 200 s).rpm = 0 ∧
        (tick Real.exp (fun x y => x ^ y) 0 200 s).allSpeeds = s.allSpeeds ++ [0] ∧
        (tick Real.exp (fun x y => x ^ y) 0 200 s).allTorques = s.allTorques ++ [0] :=
  ⟨⟨Real.exp_zero, by decide⟩,
    match C6_plain_moderate_example
      (DrivingSimulation.init
        ({ maxRPM := 0, maxThrottle := 0, rampTime := 0, noiseRange := 0, speedFactor := 0,
           baseEfficiencyRPM := 0, mileageEfficiencyFactor := 0 } : Indeterminate ℝ))
      [] Real.exp (fun x y => x ^ y) 200 Real.exp_zero (by decide) with
    | ⟨s, h, hl, hm, _, _, _, _, _, _, _, _, _, hr, _, hs, ht⟩ => ⟨s, h, hl, hm, hr, hs, ht⟩⟩

end Ticks

/-! ## The report -/

section Reporting

variable {α : Type} [LinearOrderedField α]

theorem printReport_behavior (s : DrivingSimulation α) (rep : Report α)
    (h : printReport s = some rep) :
    rep.behavior = behavior rep.overallMileage rep.avgSpeed rep.avgRPM rep.avgTorque := by
  unfold printReport at h
  split at h
  · injection h with h
    rw [← h]
  · cases h

/-- C8: the label is a function of the four aggregates alone.  The score the
code counts is the number of checks that hold among `overallMileage ≥ 15`,
`avgSpeed < 60`, `avgRPM < 2500`, `avgTorque < 80`; the label is
"Eco-friendly Driver" iff that number is at least 3, "Moderate Driver" iff it
is 2 and "Aggressive Driver" iff it is at most 1; and the label every report
carries is this function of the report's own aggregates. -/
theorem C8_behavior_label (overallMileage avgSpeed avgRPM avgTorque : α) :
    behaviorScore overallMileage avgSpeed avgRPM avgTorque =
      (specChecksPassed overallMileage avgSpeed avgRPM avgTorque : Int) ∧
    (behavior overallMileage avgSpeed avgRPM avgTorque = "Eco-friendly Driver" ↔
      3 ≤ specChecksPassed overallMileage avgSpeed avgRPM avgTorque) ∧
    (behavior overallMileage avgSpeed avgRPM avgTorque = "Moderate Driver" ↔
      specChecksPassed overallMileage avgSpeed avgRPM avgTorque = 2) ∧
    (behavior overallMileage avgSpeed avgRPM avgTorque = "Aggressive Driver" ↔
      specChecksPassed overallMileage avgSpeed avgRPM avgTorque ≤ 1) ∧
    (∀ (s : DrivingSimulation α) (rep : Report α), printReport s = some rep →
      rep.behavior = behavior rep.overallMileage rep.avgSpeed rep.avgRPM rep.avgTorque) := by
  refine ⟨?_, ?_, ?_, ?_, printReport_behavior⟩ <;>
    by_cases h1 : overallMileage ≥ 15 <;> by_cases h2 : avgSpeed < 60 <;>
    by_cases h3 : avgRPM < 2500 <;> by_cases h4 : avgTorque < 80 <;>
    simp [behavior, behaviorScore, behaviorLabel, specChecksPassed, h1, h2, h3, h4]

theorem C8_behavior_label_witness :
    behavior (16 : ℚ) 50 3000 90 = "Moderate Driver" :=
  (C8_behavior_label (16 : ℚ) 50 3000 90).2.2.1.mpr (by decide)

/-- C9: on an object with no samples (the object right after construction)
the three averages are `0`, and `printReport` takes `*max_element` and
`*min_element` of the empty `allMileages`, which is the dereference of `end()`:
no maximum and no minimum is defined and no report is produced. -/
theorem C9_empty_report_undefined (g : Indeterminate α) :
    computeAverage (DrivingSimulation.init g).allSpeeds = 0 ∧
    computeAverage (DrivingSimulation.init g).allRPMs = 0 ∧
    computeAverage (DrivingSimulation.init g).allTorques = 0 ∧
    maxElement (DrivingSimulation.init g).allMileages = none ∧
    minElement (DrivingSimulation.init g).allMileages = none ∧
    printReport (DrivingSimulation.init g) = none :=
  ⟨rfl, rfl, rfl, rfl, rfl, rfl⟩

end Reporting

/-! ## The throttle ramp -/

section Ramp

end Ramp

/-! ## The loop of `simulate` -/

section Loop

variable {α : Type} [LinearOrderedField α]

theorem getUserInput_fuel (s0 : DrivingSimulation α) (input : List String)
    (p : DrivingSimulation α × List String) (h : getUserInput s0 input = Except.ok p) :
    p.1.fuel = s0.fuel ∧ p.1.fuelUsed = s0.fuelUsed := by
  rcases hrt : readToken input with ⟨tok, rest⟩
  simp only [getUserInput, hrt] at h
  split_ifs at h <;>
    (injection h with h; rw [← h]; exact ⟨rfl, rfl⟩)

theorem configureStyle_fuel (s : DrivingSimulation α) :
    (configureStyle s).fuel = s.fuel ∧ (configureStyle s).fuelUsed = s.fuelUsed := by
  unfold configureStyle
  split_ifs <;> exact ⟨rfl, rfl⟩

theorem configure_fuel (s0 : DrivingSimulation α) (input : List String)
    (s : DrivingSimulation α) (h : configure s0 input = Except.ok s) :
    s.fuel = s0.fuel ∧ s.fuelUsed = s0.fuelUsed := by
  unfold configure at h
  split at h
  · cases h
  · next s1 rest hg =>
    injection h with h
    rw [← h]
    have h1 := getUserInput_fuel s0 input _ hg
    have h2 := configureStyle_fuel s1
    exact ⟨h2.1.trans h1.1, h2.2.trans h1.2⟩

theorem loopCond_iff (b : DrivingSimulation α) :
    loopCond b ↔ b.fuelUsed < b.fuel - 1 / 100 := by
  unfold loopCond
  constructor <;> intro h <;> linarith

end Loop

/-! ## The override blocks -/

section Override

variable {α : Type} [LinearOrderedField α]

theorem applyOverride_hill_conservative (s : DrivingSimulation α)
    (ht : s.terrain = "hill") (hs : s.style = "conservative") :
    applyOverride s =
      { s with
        maxRPM := 2800, maxThrottle := 2500, rampTime := 20, noiseRange := 200,
        speedFactor := 85 / 100, baseEfficiencyRPM := 2200, mileageEfficiencyFactor := 18 } := by
  simp [applyOverride, overrideHillConservative, overrideDownwardAggressive, ht, hs]

theorem applyOverride_downward_aggressive (s : DrivingSimulation α)
    (ht : s.terrain = "downward") (hs : s.style = "aggressive") :
    applyOverride s =
      { s with
        maxRPM := 4000, maxThrottle := 3000, rampTime := 12, noiseRange := 850,
        speedFactor := 1, baseEfficiencyRPM := 2600, mileageEfficiencyFactor := 15 } := by
  simp [applyOverride, overrideHillConservative, overrideDownwardAggressive, ht, hs]

theorem applyOverride_other (s : DrivingSimulation α)
    (h1 : ¬ (s.terrain = "hill" ∧ s.style = "conservative"))
    (h2 : ¬ (s.terrain = "downward" ∧ s.style = "aggressive")) :
    applyOverride s = s := by
  simp [applyOverride, overrideHillConservative, overrideDownwardAggressive, h1, h2]

theorem applyOverride_idem (s : DrivingSimulation α) :
    applyOverride (applyOverride s) = applyOverride s := by
  by_cases h1 : s.terrain = "hill" ∧ s.style = "conservative"
  · simp [applyOverride, overrideHillConservative, overrideDownwardAggressive, h1.1, h1.2]
  · by_cases h2 : s.terrain = "downward" ∧ s.style = "aggressive"
    · simp [applyOverride, overrideHillConservative, overrideDownwardAggressive, h2.1, h2.2]
    · rw [applyOverride_other s h1 h2, applyOverride_other s h1 h2]

/-- C12: the override blocks set the seven members to (2800, 2500, 20, 200,
0.85, 2200, 18) for (hill, conservative) and to (4000, 3000, 12, 850, 1.00,
2600, 15) for (downward, aggressive), leave the object as it is for every other
(terrain, style), and give the same object when run twice as when run once; so
a pass of the loop on an object the blocks already ran on is the same pass. -/
theorem C12_override_idempotent_selective (s : DrivingSimulation α) :
    (s.terrain = "hill" ∧ s.style = "conservative" →
      applyOverride s =
        { s with
          maxRPM := 2800, maxThrottle := 2500, rampTime := 20, noiseRange := 200,
          speedFactor := 85 / 100, baseEfficiencyRPM := 2200,
          mileageEfficiencyFactor := 18 }) ∧
    (s.terrain = "downward" ∧ s.style = "aggressive" →
      applyOverride s =
        { s with
          maxRPM := 4000, maxThrottle := 3000, rampTime := 12, noiseRange := 850,
          speedFactor := 1, baseEfficiencyRPM := 2600, mileageEfficiencyFactor := 15 }) ∧
    applyOverride (applyOverride s) = applyOverride s ∧
    (¬ (s.terrain = "hill" ∧ s.style = "conservative") →
      ¬ (s.terrain = "downward" ∧ s.style = "aggressive") → applyOverride s = s) ∧
    (∀ (expf : α → α) (powf : α → α → α) (t : α) (r : Nat),
      tick expf powf t r (applyOverride s) = tick expf powf t r s) := by
  refine ⟨fun h => applyOverride_hill_conservative s h.1 h.2,
    fun h => applyOverride_downward_aggressive s h.1 h.2,
    applyOverride_idem s, applyOverride_other s, ?_⟩
  intro expf powf t r
  unfold tick
  rw [applyOverride_idem]

theorem C12_override_idempotent_selective_witness :
    ((plainModerate : DrivingSimulation ℚ).terrain ≠ "hill" ∧
        (plainModerate : DrivingSimulation ℚ).terrain ≠ "downward") ∧
      applyOverride (plainModerate : DrivingSimulation ℚ) = plainModerate :=
  ⟨by decide,
    (C12_override_idempotent_selective (plainModerate : DrivingSimulation ℚ)).2.2.2.1
      (fun h => absurd h.1 (by decide)) (fun h => absurd h.1 (by decide))⟩

end Override

/-! ## The noise -/

section Noise

theorem noise_bounds (r : Nat) (noiseRange : Int) (h : 0 < noiseRange) :
    -noiseRange ≤ noise r noiseRange ∧ noise r noiseRange ≤ 2 * noiseRange - 1 := by
  unfold noise
  have h3 : (0 : Int) < 3 * noiseRange := by omega
  rw [Int.tmod_eq_emod (Int.ofNat_nonneg r) (le_of_lt h3)]
  have h1 := Int.emod_nonneg (r : Int) (ne_of_gt h3)
  have h2 := Int.emod_lt_of_pos (r : Int) h3
  constructor <;> omega

theorem noise_attained (noiseRange : Int) (h : 0 < noiseRange) (z : Int)
    (h1 : -noiseRange ≤ z) (h2 : z ≤ 2 * noiseRange - 1) :
    ∃ r : Nat, (r : Int) < 3 * noiseRange ∧ noise r noiseRange = z := by
  refine ⟨(z + noiseRange).toNat, ?_, ?_⟩
  · rw [Int.toNat_of_nonneg (by omega)]
    omega
  · unfold noise
    rw [Int.toNat_of_nonneg (by omega)]
    rw [Int.tmod_eq_emod (by omega) (by omega)]
    rw [Int.emod_eq_of_lt (by omega) (by omega)]
    omega

/-- C13: for each `noiseRange` of a preset (200, 850, 1000) and every value
`r` of `rand()`, the noise `r % (3 * noiseRange) - noiseRange` is an integer of
`[-noiseRange, 2 * noiseRange - 1]`, and every integer of that interval is the
noise of some `r` (one below `3 * noiseRange`). -/
theorem C13_noise_range (noiseRange : Int)
    (h : noiseRange = 200 ∨ noiseRange = 850 ∨ noiseRange = 1000) :
    (∀ r : Nat, -noiseRange ≤ noise r noiseRange ∧ noise r noiseRange ≤ 2 * noiseRange - 1) ∧
    (∀ z : Int, -noiseRange ≤ z → z ≤ 2 * noiseRange - 1 →
      ∃ r : Nat, (r : Int) < 3 * noiseRange ∧ noise r noiseRange = z) := by
  have hpos : 0 < noiseRange := by omega
  exact ⟨fun r => noise_bounds r noiseRange hpos, fun z => noise_attained noiseRange hpos z⟩

theorem C13_noise_range_witness :
    ((850 : Int) = 200 ∨ (850 : Int) = 850 ∨ (850 : Int) = 1000) ∧
      (-850 ≤ noise 12345 850 ∧ noise 12345 850 ≤ 2 * 850 - 1) ∧
      ∃ r : Nat, (r : Int) < 3 * 850 ∧ noise r 850 = 1699 :=
  ⟨by decide, (C13_noise_range 850 (by decide)).1 12345,
    (C13_noise_range 850 (by decide)).2 1699 (by decide) (by decide)⟩

end Noise

/-! ## The torque -/

section Torque

variable {α : Type} [LinearOrderedField α]

theorem torque_eq_min (rpm : α) : torque rpm = 145 * min rpm 5000 / 5000 := by
  unfold torque MAX_TORQUE
  split_ifs with h
  · rw [min_eq_right h]
    norm_num
  · rw [min_eq_left (le_of_lt (lt_of_not_ge h))]
    ring

theorem torque_mono (a b : α) (hab : a ≤ b) : torque a ≤ torque b := by
  rw [torque_eq_min, torque_eq_min]
  have := min_le_min_right (5000 : α) hab
  apply div_le_div_of_nonneg_right _ (by norm_num)
  linarith

/-- C14: the torque of a pass is `145 * min(rpm, 5000) / 5000`: `0` at
`rpm = 0`, `rpm / 5000 * 145` below 5000, non-decreasing in `rpm`, exactly `145`
from `rpm = 5000` on, and at `rpm = 5000` the linear branch gives the same
`145` as the saturated one. -/
theorem C14_torque_ramp (rpm : α) :
    torque rpm = 145 * min rpm 5000 / 5000 ∧
    torque (0 : α) = 0 ∧
    (rpm < 5000 → torque rpm = rpm / 5000 * 145) ∧
    (∀ a b : α, 0 ≤ a → a ≤ b → torque a ≤ torque b) ∧
    (5000 ≤ rpm → torque rpm = 145) ∧
    ((5000 : α) / 5000 * MAX_TORQUE = MAX_TORQUE ∧ torque (5000 : α) = 145) ∧
    (∀ (expf : α → α) (powf : α → α → α) (t : α) (r : Nat) (c : DrivingSimulation α),
      (tickVars expf powf t r c).torque = torque (tickVars expf powf t r c).rpm) := by
  refine ⟨torque_eq_min rpm, ?_, ?_, fun a b _ hab => torque_mono a b hab, ?_, ⟨?_, ?_⟩, ?_⟩
  · simp [torque]
  · intro h
    simp [torque, MAX_TORQUE, not_le.mpr h]
  · intro h
    simp [torque, MAX_TORQUE, h]
  · norm_num
  · simp [torque, MAX_TORQUE]
  · intro expf powf t r c
    rfl

theorem C14_torque_ramp_witness :
    ((2500 : ℚ) < 5000 ∧ (5000 : ℚ) ≤ 6000) ∧
      torque (2500 : ℚ) = 2500 / 5000 * 145 ∧ torque (6000 : ℚ) = 145 :=
  ⟨⟨by norm_num, by norm_num⟩,
    (C14_torque_ramp (2500 : ℚ)).2.2.1 (by norm_num),
    (C14_torque_ramp (6000 : ℚ)).2.2.2.2.1 (by norm_num)⟩

end Torque

/-! ## The locals of one pass -/

section PassFacts

variable {α : Type} [LinearOrderedField α]

theorem applyOverride_accum (s : DrivingSimulation α) :
    (applyOverride s).terrain = s.terrain ∧ (applyOverride s).style = s.style ∧
    (applyOverride s).totalDistance = s.totalDistance ∧
    (applyOverride s).lastMileage = s.lastMileage := by
  unfold applyOverride overrideDownwardAggressive overrideHillConservative
  split_ifs <;> exact ⟨rfl, rfl, rfl, rfl⟩

theorem configureStyle_frame (s : DrivingSimulation α) :
    (configureStyle s).terrain = s.terrain ∧ (configureStyle s).style = s.style ∧
    (configureStyle s).totalDistance = s.totalDistance ∧
    (configureStyle s).lastMileage = s.lastMileage ∧
    (configureStyle s).allRPMs = s.allRPMs ∧ (configureStyle s).allSpeeds = s.allSpeeds ∧
    (configureStyle s).allTorques = s.allTorques ∧
    (configureStyle s).allMileages = s.allMileages := by
  unfold configureStyle
  split_ifs <;> exact ⟨rfl, rfl, rfl, rfl, rfl, rfl, rfl, rfl⟩

/-- What one pass does to the accumulators, in terms of the locals computed on
the object the override blocks left. -/
theorem tick_accum (expf : α → α) (powf : α → α → α) (t : α) (r : Nat)
    (b : DrivingSimulation α) :
    (tick expf powf t r b).fuelUsed =
      b.fuelUsed + (tickVars expf powf t r (applyOverride b)).instFuelUsed ∧
    (tick expf powf t r b).totalDistance =
      b.totalDistance + (tickVars expf powf t r (applyOverride b)).distance ∧
    (tick expf powf t r b).lastMileage =
      (tickVars expf powf t r (applyOverride b)).instMileage ∧
    (tick expf powf t r b).allRPMs =
      b.allRPMs ++ [(tickVars expf powf t r (applyOverride b)).rpm] ∧
    (tick expf powf t r b).allSpeeds =
      b.allSpeeds ++ [(tickVars expf powf t r (applyOverride b)).kmph] ∧
    (tick expf powf t r b).allTorques =
      b.allTorques ++ [(tickVars expf powf t r (applyOverride b)).torque] ∧
    (tick expf powf t r b).allMileages =
      b.allMileages ++ [(tickVars expf powf t r (applyOverride b)).instMileage] := by
  obtain ⟨e1, e2, e3, e4⟩ := applyOverride_samples b
  obtain ⟨_, _, e5, _⟩ := applyOverride_accum b
  obtain ⟨_, e6⟩ := applyOverride_fuel b
  refine ⟨?_, ?_, rfl, ?_, ?_, ?_, ?_⟩
  · show (applyOverride b).fuelUsed + (tickVars expf powf t r (applyOverride b)).instFuelUsed = _
    rw [e6]
  · show (applyOverride b).totalDistance + (tickVars expf powf t r (applyOverride b)).distance = _
    rw [e5]
  · show (applyOverride b).allRPMs ++ [(tickVars expf powf t r (applyOverride b)).rpm] = _
    rw [e1]
  · show (applyOverride b).allSpeeds ++ [(tickVars expf powf t r (applyOverride b)).kmph] = _
    rw [e2]
  · show (applyOverride b).allTorques ++ [(tickVars expf powf t r (applyOverride b)).torque] = _
    rw [e3]
  · show (applyOverride b).allMileages ++
      [(tickVars expf powf t r (applyOverride b)).instMileage] = _
    rw [e4]

/-- The distance of a pass is between `0` and `speedLimit / 36` metres. -/
theorem tickVars_distance (expf : α → α) (powf : α → α → α) (t : α) (r : Nat)
    (c : DrivingSimulation α) (hl : 0 ≤ c.speedLimit) :
    0 ≤ (tickVars expf powf t r c).distance ∧
    (tickVars expf powf t r c).distance ≤ c.speedLimit / 36 ∧
    (tickVars expf powf t r c).distance = (tickVars expf powf t r c).kmph / 36 := by
  have hk := clamp_bounds
    (((tickVars expf powf t r c).rpm / c.maxRPM) * c.speedLimit * c.speedFactor) 0 c.speedLimit hl
  have hd : (tickVars expf powf t r c).distance = (tickVars expf powf t r c).kmph / 36 := by
    show (tickVars expf powf t r c).kmph / (18 / 5) * dt = _
    unfold dt
    ring
  have hk' : 0 ≤ (tickVars expf powf t r c).kmph ∧ (tickVars expf powf t r c).kmph ≤ c.speedLimit :=
    hk
  refine ⟨?_, ?_, hd⟩
  · rw [hd]
    exact div_nonneg hk'.1 (by norm_num)
  · rw [hd]
    exact div_le_div_of_nonneg_right hk'.2 (by norm_num)

/-- The fuel of a pass times its `dynamicMileage` is its distance in km. -/
theorem tickVars_fuel (expf : α → α) (powf : α → α → α) (t : α) (r : Nat)
    (c : DrivingSimulation α) (hl : 0 ≤ c.speedLimit) :
    0 ≤ (tickVars expf powf t r c).instFuelUsed ∧
    (tickVars expf powf t r c).distance / 1000 =
      (tickVars expf powf t r c).instFuelUsed * (tickVars expf powf t r c).dynamicMileage ∧
    (tickVars expf powf t r c).instFuelUsed =
      (tickVars expf powf t r c).distance / 1000 / (tickVars expf powf t r c).dynamicMileage ∧
    (5 ≤ (tickVars expf powf t r c).dynamicMileage ∧
      (tickVars expf powf t r c).dynamicMileage ≤ 25) := by
  have hd := (tickVars_distance expf powf t r c hl).1
  have hm : 5 ≤ (tickVars expf powf t r c).dynamicMileage ∧
      (tickVars expf powf t r c).dynamicMileage ≤ 25 := dynamicMileage_bounds powf _ _ _
  have hpos : 0 < (tickVars expf powf t r c).dynamicMileage := by linarith [hm.1]
  have hf : (tickVars expf powf t r c).instFuelUsed =
      (tickVars expf powf t r c).distance / 1000 / (tickVars expf powf t r c).dynamicMileage := rfl
  refine ⟨?_, ?_, hf, hm⟩
  · rw [hf]
    exact div_nonneg (div_nonneg hd (by norm_num)) (le_of_lt hpos)
  · rw [hf, div_mul_cancel₀ _ (ne_of_gt hpos)]

/-- The rule of lines 165-170 for the instantaneous mileage of a pass. -/
theorem tickVars_instMileage (expf : α → α) (powf : α → α → α) (t : α) (r : Nat)
    (c : DrivingSimulation α) :
    ((tickVars expf powf t r c).totalDistance < 1 / 1000 →
      (tickVars expf powf t r c).instMileage = 0) ∧
    (¬ (tickVars expf powf t r c).totalDistance < 1 / 1000 →
      (tickVars expf powf t r c).instFuelUsed > 1 / 10000 →
      (tickVars expf powf t r c).instMileage =
        (tickVars expf powf t r c).distance / 1000 / (tickVars expf powf t r c).instFuelUsed) ∧
    (¬ (tickVars expf powf t r c).totalDistance < 1 / 1000 →
      ¬ (tickVars expf powf t r c).instFuelUsed > 1 / 10000 →
      (tickVars expf powf t r c).instMileage = c.lastMileage) := by
  have hdef : (tickVars expf powf t r c).instMileage =
      if (tickVars expf powf t r c).totalDistance < 1 / 1000 then 0
      else if (tickVars expf powf t r c).instFuelUsed > 1 / 10000 then
        (tickVars expf powf t r c).distance / 1000 / (tickVars expf powf t r c).instFuelUsed
      else c.lastMileage := rfl
  refine ⟨fun h => ?_, fun h1 h2 => ?_, fun h1 h2 => ?_⟩
  · rw [hdef, if_pos h]
  · rw [hdef, if_neg h1, if_pos h2]
  · rw [hdef, if_neg h1, if_neg h2]

/-- When the fuel of a pass exceeds `0.0001` and the distance before the pass
is not negative, the instantaneous mileage is the `dynamicMileage`. -/
theorem tickVars_instMileage_of_fuel (expf : α → α) (powf : α → α → α) (t : α) (r : Nat)
    (c : DrivingSimulation α) (hl : 0 ≤ c.speedLimit) (hd : 0 ≤ c.totalDistance)
    (hf : (tickVars expf powf t r c).instFuelUsed > 1 / 10000) :
    (tickVars expf powf t r c).instMileage = (tickVars expf powf t r c).dynamicMileage := by
  obtain ⟨h0, hmul, _, hm5, hm25⟩ := tickVars_fuel expf powf t r c hl
  have htot : (tickVars expf powf t r c).totalDistance =
      c.totalDistance + (tickVars expf powf t r c).distance := rfl
  have hdist : (1 : α) / 2 < (tickVars expf powf t r c).distance := by
    have h1 : (tickVars expf powf t r c).distance / 1000 ≥
        (tickVars expf powf t r c).instFuelUsed * 5 := by
      rw [hmul]
      exact mul_le_mul_of_nonneg_left hm5 h0
    have h2 : (tickVars expf powf t r c).distance / 1000 > 1 / 10000 * 5 := by
      have : (tickVars expf powf t r c).instFuelUsed * 5 > 1 / 10000 * 5 := by linarith
      linarith
    have h3 : (tickVars expf powf t r c).distance =
        (tickVars expf powf t r c).distance / 1000 * 1000 := by ring
    rw [h3]
    linarith
  have hnot : ¬ (tickVars expf powf t r c).totalDistance < 1 / 1000 := by
    rw [htot]
    intro h
    linarith
  rw [(tickVars_instMileage expf powf t r c).2.1 hnot hf, hmul]
  have hne : (tickVars expf powf t r c).instFuelUsed ≠ 0 := by
    intro h
    rw [h] at hf
    norm_num at hf
  field_simp

/-- The instantaneous mileage of a pass is `0`, the `dynamicMileage` of the pass
or the mileage of the pass before. -/
theorem tickVars_instMileage_cases (expf : α → α) (powf : α → α → α) (t : α) (r : Nat)
    (c : DrivingSimulation α) (hl : 0 ≤ c.speedLimit) (hd : 0 ≤ c.totalDistance) :
    (tickVars expf powf t r c).instMileage = 0 ∨
    (tickVars expf powf t r c).instMileage = (tickVars expf powf t r c).dynamicMileage ∨
    (tickVars expf powf t r c).instMileage = c.lastMileage := by
  by_cases h1 : (tickVars expf powf t r c).totalDistance < 1 / 1000
  · exact Or.inl ((tickVars_instMileage expf powf t r c).1 h1)
  · by_cases h2 : (tickVars expf powf t r c).instFuelUsed > 1 / 10000
    · exact Or.inr (Or.inl (tickVars_instMileage_of_fuel expf powf t r c hl hd h2))
    · exact Or.inr (Or.inr ((tickVars_instMileage expf powf t r c).2.2 h1 h2))

end PassFacts

/-! ## Runs from a fresh object -/

section Runs

variable {α : Type} [LinearOrderedField α]

theorem simulate_eq_some (expf : α → α) (powf : α → α → α) (rnd : Nat → Nat)
    (s : DrivingSimulation α) (n : Nat) (r : DrivingSimulation α) :
    simulate expf powf rnd n s = some r ↔
      ∃ m, m < n ∧ r = (boundary expf powf rnd s m).2 ∧
        (∀ j, j < m → loopCond (boundary expf powf rnd s j).2) ∧
        ¬ loopCond (boundary expf powf rnd s m).2 := by
  have h := simulateLoop_eq_some expf powf rnd s n 0 r
  constructor
  · intro hs
    obtain ⟨m, _, h2, h3, h4, h5⟩ := h.mp hs
    exact ⟨m, by omega, h3, fun j hj => h4 j (Nat.zero_le j) hj, h5⟩
  · rintro ⟨m, h2, h3, h4, h5⟩
    exact h.mpr ⟨m, Nat.zero_le m, by omega, h3, fun j _ hj => h4 j hj, h5⟩

/-- Configuration of a freshly constructed object with a valid terrain. -/
theorem configure_init (g : Indeterminate α) (terrain style : String) (rest : List String)
    (hterrain : terrain = "hill" ∨ terrain = "plain" ∨ terrain = "downward") :
    ∃ s1 : DrivingSimulation α,
      configure (DrivingSimulation.init g) (terrain :: style :: rest) =
        Except.ok (configureStyle s1) ∧
      Fresh (configureStyle s1) ∧ s1.terrain = terrain ∧ s1.style = style ∧
      (terrain = "hill" → s1.speedLimit = 100) ∧ (terrain = "plain" → s1.speedLimit = 150) ∧
      (terrain = "downward" → s1.speedLimit = 70) ∧
      70 ≤ s1.speedLimit ∧ s1.speedLimit ≤ 150 ∧
      s1.baseEfficiencyRPM = g.baseEfficiencyRPM ∧
      s1.mileageEfficiencyFactor = g.mileageEfficiencyFactor := by
  have hfresh : ∀ s1 : DrivingSimulation α,
      (s1.fuel = 2 / 5 ∧ s1.fuelUsed = 0 ∧ s1.totalDistance = 0 ∧ s1.lastMileage = 0 ∧
        s1.allRPMs = [] ∧ s1.allSpeeds = [] ∧ s1.allTorques = [] ∧ s1.allMileages = []) →
      Fresh (configureStyle s1) := by
    intro s1 ⟨h1, h2, h3, h4, h5, h6, h7, h8⟩
    obtain ⟨_, _, f3, f4, f5, f6, f7, f8⟩ := configureStyle_frame s1
    obtain ⟨f1, f2⟩ := configureStyle_fuel s1
    exact ⟨f1.trans h1, f2.trans h2, f3.trans h3, f4.trans h4, f5.trans h5, f6.trans h6,
      f7.trans h7, f8.trans h8⟩
  rcases hterrain with h | h | h
  · subst h
    refine ⟨_, by rw [configure, getUserInput_hill], hfresh _ ⟨rfl, rfl, rfl, rfl, rfl, rfl, rfl, rfl⟩,
      rfl, rfl, fun _ => rfl, fun h => absurd h (by decide), fun h => absurd h (by decide),
      ?_, ?_, rfl, rfl⟩
    · show (70 : α) ≤ 100
      norm_num
    · show (100 : α) ≤ 150
      norm_num
  · subst h
    refine ⟨_, by rw [configure, getUserInput_plain], hfresh _ ⟨rfl, rfl, rfl, rfl, rfl, rfl, rfl, rfl⟩,
      rfl, rfl, fun h => absurd h (by decide), fun _ => rfl, fun h => absurd h (by decide),
      ?_, ?_, rfl, rfl⟩
    · show (70 : α) ≤ 150
      norm_num
    · show (150 : α) ≤ 150
      norm_num
  · subst h
    refine ⟨_, by rw [configure, getUserInput_downward],
      hfresh _ ⟨rfl, rfl, rfl, rfl, rfl, rfl, rfl, rfl⟩,
      rfl, rfl, fun h => absurd h (by decide), fun h => absurd h (by decide), fun _ => rfl,
      ?_, ?_, rfl, rfl⟩
    · show (70 : α) ≤ 70
      norm_num
    · show (70 : α) ≤ 150
      norm_num

theorem boundary_succ (expf : α → α) (powf : α → α → α) (rnd : Nat → Nat)
    (s : DrivingSimulation α) (k : Nat) :
    (boundary expf powf rnd s (k + 1)).2 =
      tick expf powf (boundary expf powf rnd s k).1 (rnd k) (boundary expf powf rnd s k).2 := rfl

theorem active_speedLimit (expf : α → α) (powf : α → α → α) (rnd : Nat → Nat)
    (s : DrivingSimulation α) (k : Nat) :
    (applyOverride (boundary expf powf rnd s k).2).speedLimit = s.speedLimit := by
  rw [applyOverride_speedLimit, boundary_speedLimit]

/-- Along a run from a fresh object the distance and the fuel are not negative
and the distance in km lies between 5 and 25 times the fuel. -/
theorem boundary_fuel_distance (expf : α → α) (powf : α → α → α) (rnd : Nat → Nat)
    (s : DrivingSimulation α) (hs : Fresh s) (hl : 0 ≤ s.speedLimit) (k : Nat) :
    0 ≤ (boundary expf powf rnd s k).2.totalDistance ∧
    0 ≤ (boundary expf powf rnd s k).2.fuelUsed ∧
    5 * (boundary expf powf rnd s k).2.fuelUsed ≤
      (boundary expf powf rnd s k).2.totalDistance / 1000 ∧
    (boundary expf powf rnd s k).2.totalDistance / 1000 ≤
      25 * (boundary expf powf rnd s k).2.fuelUsed := by
  induction k with
  | zero =>
    obtain ⟨_, h2, h3, _⟩ := hs
    show 0 ≤ s.totalDistance ∧ 0 ≤ s.fuelUsed ∧ 5 * s.fuelUsed ≤ s.totalDistance / 1000 ∧
      s.totalDistance / 1000 ≤ 25 * s.fuelUsed
    rw [h2, h3]
    norm_num
  | succ k ih =>
    obtain ⟨i1, i2, i3, i4⟩ := ih
    have hl' : 0 ≤ (applyOverride (boundary expf powf rnd s k).2).speedLimit := by
      rw [active_speedLimit]; exact hl
    obtain ⟨a1, a2, _⟩ := tick_accum expf powf (boundary expf powf rnd s k).1 (rnd k)
      (boundary expf powf rnd s k).2
    obtain ⟨d1, _⟩ := tickVars_distance expf powf (boundary expf powf rnd s k).1 (rnd k) _ hl'
    obtain ⟨f1, f2, _, f3, f4⟩ := tickVars_fuel expf powf (boundary expf powf rnd s k).1 (rnd k) _ hl'
    rw [boundary_succ, a1, a2]
    refine ⟨by linarith, by linarith, ?_, ?_⟩
    · rw [add_div, f2]
      nlinarith
    · rw [add_div, f2]
      nlinarith

/-- Along a run from a fresh object every recorded instantaneous mileage, and
the one kept for the next pass, is `0` or lies in `[5, 25]`. -/
theorem boundary_mileages (expf : α → α) (powf : α → α → α) (rnd : Nat → Nat)
    (s : DrivingSimulation α) (hs : Fresh s) (hl : 0 ≤ s.speedLimit) (k : Nat) :
    ((boundary expf powf rnd s k).2.lastMileage = 0 ∨
      (5 ≤ (boundary expf powf rnd s k).2.lastMileage ∧
        (boundary expf powf rnd s k).2.lastMileage ≤ 25)) ∧
    ∀ x ∈ (boundary expf powf rnd s k).2.allMileages, x = 0 ∨ (5 ≤ x ∧ x ≤ 25) := by
  induction k with
  | zero =>
    obtain ⟨_, _, _, h4, _, _, _, h8⟩ := hs
    refine ⟨Or.inl h4, ?_⟩
    intro x hx
    have : x ∈ s.allMileages := hx
    rw [h8] at this
    cases this
  | succ k ih =>
    obtain ⟨i1, i2⟩ := ih
    have hl' : 0 ≤ (applyOverride (boundary expf powf rnd s k).2).speedLimit := by
      rw [active_speedLimit]; exact hl
    have hd' : 0 ≤ (applyOverride (boundary expf powf rnd s k).2).totalDistance := by
      rw [(applyOverride_accum _).2.2.1]
      exact (boundary_fuel_distance expf powf rnd s hs hl k).1
    obtain ⟨_, _, a3, _, _, _, a7⟩ := tick_accum expf powf (boundary expf powf rnd s k).1 (rnd k)
      (boundary expf powf rnd s k).2
    have hm := (tickVars_fuel expf powf (boundary expf powf rnd s k).1 (rnd k) _ hl').2.2.2
    have hcase := tickVars_instMileage_cases expf powf (boundary expf powf rnd s k).1 (rnd k) _
      hl' hd'
    rw [(applyOverride_accum _).2.2.2] at hcase
    have hnew : (tickVars expf powf (boundary expf powf rnd s k).1 (rnd k)
        (applyOverride (boundary expf powf rnd s k).2)).instMileage = 0 ∨
        (5 ≤ (tickVars expf powf (boundary expf powf rnd s k).1 (rnd k)
          (applyOverride (boundary expf powf rnd s k).2)).instMileage ∧
        (tickVars expf powf (boundary expf powf rnd s k).1 (rnd k)
          (applyOverride (boundary expf powf rnd s k).2)).instMileage ≤ 25) := by
      rcases hcase with h | h | h
      · exact Or.inl h
      · rw [h]; exact Or.inr hm
      · rw [h]; exact i1
    rw [boundary_succ, a3, a7]
    refine ⟨hnew, ?_⟩
    intro x hx
    rcases List.mem_append.mp hx with h | h
    · exact i2 x h
    · rw [List.mem_singleton.mp h]
      exact hnew

/-- After `k` passes each of the four sample sequences holds `k` values. -/
theorem boundary_lengths (expf : α → α) (powf : α → α → α) (rnd : Nat → Nat)
    (s : DrivingSimulation α) (hs : Fresh s) (k : Nat) :
    (boundary expf powf rnd s k).2.allRPMs.length = k ∧
    (boundary expf powf rnd s k).2.allSpeeds.length = k ∧
    (boundary expf powf rnd s k).2.allTorques.length = k ∧
    (boundary expf powf rnd s k).2.allMileages.length = k := by
  induction k with
  | zero =>
    obtain ⟨_, _, _, _, h5, h6, h7, h8⟩ := hs
    show s.allRPMs.length = 0 ∧ s.allSpeeds.length = 0 ∧ s.allTorques.length = 0 ∧
      s.allMileages.length = 0
    rw [h5, h6, h7, h8]
    exact ⟨rfl, rfl, rfl, rfl⟩
  | succ k ih =>
    obtain ⟨i1, i2, i3, i4⟩ := ih
    obtain ⟨_, _, _, a4, a5, a6, a7⟩ := tick_accum expf powf (boundary expf powf rnd s k).1 (rnd k)
      (boundary expf powf rnd s k).2
    rw [boundary_succ, a4, a5, a6, a7]
    simp [i1, i2, i3, i4]

end Runs

/-! ## Mileage and fuel along a run -/

section RunClaims

variable {α : Type} [LinearOrderedField α]

theorem printReport_eq_some (s : DrivingSimulation α) (rep : Report α)
    (h : printReport s = some rep) :
    rep.overallMileage = s.totalDistance / 1000 / s.fuelUsed ∧
    maxElement s.allMileages = some rep.maxMileage ∧
    minElement s.allMileages = some rep.minMileage := by
  unfold printReport at h
  split at h
  · next mx mn h1 h2 =>
    injection h with h
    rw [← h]
    exact ⟨rfl, h1, h2⟩
  · cases h

theorem printReport_of_samples (s : DrivingSimulation α) (h : s.allMileages ≠ []) :
    (∃ mx mn, maxElement s.allMileages = some mx ∧ minElement s.allMileages = some mn) ∧
    ∃ rep, printReport s = some rep := by
  cases hm : s.allMileages with
  | nil => exact absurd hm h
  | cons x xs =>
    refine ⟨⟨_, _, rfl, rfl⟩, ?_⟩
    unfold printReport
    rw [hm]
    exact ⟨_, rfl⟩

/-- The fuel of one pass is at most `1/1200` litre when `speedLimit ≤ 150`. -/
theorem tickVars_fuel_small (expf : α → α) (powf : α → α → α) (t : α) (r : Nat)
    (c : DrivingSimulation α) (hl : 0 ≤ c.speedLimit) (hu : c.speedLimit ≤ 150) :
    (tickVars expf powf t r c).instFuelUsed ≤ 1 / 1200 := by
  obtain ⟨_, d2, _⟩ := tickVars_distance expf powf t r c hl
  obtain ⟨f1, f2, _, f3, _⟩ := tickVars_fuel expf powf t r c hl
  have h1 : (tickVars expf powf t r c).distance ≤ 150 / 36 :=
    le_trans d2 (div_le_div_of_nonneg_right hu (by norm_num))
  have h2 : (tickVars expf powf t r c).instFuelUsed * 5 ≤
      (tickVars expf powf t r c).distance / 1000 := by
    rw [f2]
    exact mul_le_mul_of_nonneg_left f3 f1
  have h3 : (tickVars expf powf t r c).distance / 1000 ≤ 150 / 36 / 1000 :=
    div_le_div_of_nonneg_right h1 (by norm_num)
  have h4 : (tickVars expf powf t r c).instFuelUsed * 5 ≤ 150 / 36 / 1000 := le_trans h2 h3
  have h5 : (150 : α) / 36 / 1000 = 1 / 1200 * 5 := by norm_num
  rw [h5] at h4
  exact le_of_mul_le_mul_right h4 (by norm_num)

/-- C16: after configuration of a fresh object (any valid terrain, any style
token), every instantaneous mileage `simulate` records is `0` or lies in
`[5, 25]`, at every test of the loop and in the object `simulate` returns; and
in a pass whose fuel use exceeds `0.0001` the recorded value is the
`dynamicMileage` of that pass. -/
theorem C16_recorded_mileage_range (g : Indeterminate α) (terrain style : String)
    (rest : List String)
    (hterrain : terrain = "hill" ∨ terrain = "plain" ∨ terrain = "downward") :
    ∃ s, configure (DrivingSimulation.init g) (terrain :: style :: rest) = Except.ok s ∧
      ∀ (expf : α → α) (powf : α → α → α) (rnd : Nat → Nat),
        (∀ k, ∀ x ∈ (boundary expf powf rnd s k).2.allMileages, x = 0 ∨ (5 ≤ x ∧ x ≤ 25)) ∧
        (∀ k,
          (tickVars expf powf (boundary expf powf rnd s k).1 (rnd k)
            (applyOverride (boundary expf powf rnd s k).2)).instFuelUsed > 1 / 10000 →
          (boundary expf powf rnd s (k + 1)).2.allMileages =
            (boundary expf powf rnd s k).2.allMileages ++
              [(tickVars expf powf (boundary expf powf rnd s k).1 (rnd k)
                (applyOverride (boundary expf powf rnd s k).2)).dynamicMileage]) ∧
        (∀ (n : Nat) (r : DrivingSimulation α), simulate expf powf rnd n s = some r →
          ∀ x ∈ r.allMileages, x = 0 ∨ (5 ≤ x ∧ x ≤ 25)) := by
  obtain ⟨s1, hc, hfresh, _, _, _, _, _, h70, _⟩ := configure_init g terrain style rest hterrain
  have hl : 0 ≤ (configureStyle s1).speedLimit := by
    rw [configureStyle_speedLimit]
    linarith
  refine ⟨_, hc, fun expf powf rnd => ⟨?_, ?_, ?_⟩⟩
  · intro k
    exact (boundary_mileages expf powf rnd _ hfresh hl k).2
  · intro k hk
    have hl' : 0 ≤ (applyOverride (boundary expf powf rnd (configureStyle s1) k).2).speedLimit := by
      rw [active_speedLimit]; exact hl
    have hd' : 0 ≤
        (applyOverride (boundary expf powf rnd (configureStyle s1) k).2).totalDistance := by
      rw [(applyOverride_accum _).2.2.1]
      exact (boundary_fuel_distance expf powf rnd _ hfresh hl k).1
    rw [boundary_succ, (tick_accum expf powf _ _ _).2.2.2.2.2.2,
      tickVars_instMileage_of_fuel expf powf _ _ _ hl' hd' hk]
  · intro n r hr
    obtain ⟨m, _, hm, _⟩ := (simulate_eq_some expf powf rnd _ n r).mp hr
    rw [hm]
    exact (boundary_mileages expf powf rnd _ hfresh hl m).2

/-- C18: after configuration of a fresh object, at every test of the loop at
which some fuel has been used the overall mileage
`(totalDistance / 1000) / fuelUsed` lies in `[5, 25]`; when `simulate` has
halted some fuel has been used, and the `overallMileage` of the report is this
quotient and lies in `[5, 25]`. -/
theorem C18_overall_mileage_range (g : Indeterminate α) (terrain style : String)
    (rest : List String)
    (hterrain : terrain = "hill" ∨ terrain = "plain" ∨ terrain = "downward") :
    ∃ s, configure (DrivingSimulation.init g) (terrain :: style :: rest) = Except.ok s ∧
      ∀ (expf : α → α) (powf : α → α → α) (rnd : Nat → Nat),
        (∀ k, 0 < (boundary expf powf rnd s k).2.fuelUsed →
          5 ≤ (boundary expf powf rnd s k).2.totalDistance / 1000 /
              (boundary expf powf rnd s k).2.fuelUsed ∧
          (boundary expf powf rnd s k).2.totalDistance / 1000 /
              (boundary expf powf rnd s k).2.fuelUsed ≤ 25) ∧
        (∀ (n : Nat) (r : DrivingSimulation α), simulate expf powf rnd n s = some r →
          0 < r.fuelUsed ∧
          ∀ rep, printReport r = some rep →
            rep.overallMileage = r.totalDistance / 1000 / r.fuelUsed ∧
            5 ≤ rep.overallMileage ∧ rep.overallMileage ≤ 25) := by
  obtain ⟨s1, hc, hfresh, _, _, _, _, _, h70, _⟩ := configure_init g terrain style rest hterrain
  have hl : 0 ≤ (configureStyle s1).speedLimit := by
    rw [configureStyle_speedLimit]
    linarith
  have key : ∀ (expf : α → α) (powf : α → α → α) (rnd : Nat → Nat) (k : Nat),
      0 < (boundary expf powf rnd (configureStyle s1) k).2.fuelUsed →
      5 ≤ (boundary expf powf rnd (configureStyle s1) k).2.totalDistance / 1000 /
          (boundary expf powf rnd (configureStyle s1) k).2.fuelUsed ∧
      (boundary expf powf rnd (configureStyle s1) k).2.totalDistance / 1000 /
          (boundary expf powf rnd (configureStyle s1) k).2.fuelUsed ≤ 25 := by
    intro expf powf rnd k hk
    obtain ⟨_, _, h3, h4⟩ := boundary_fuel_distance expf powf rnd _ hfresh hl k
    exact ⟨(le_div_iff₀ hk).mpr h3, (div_le_iff₀ hk).mpr h4⟩
  refine ⟨_, hc, fun expf powf rnd => ⟨key expf powf rnd, ?_⟩⟩
  intro n r hr
  obtain ⟨m, _, hm, _, hhalt⟩ := (simulate_eq_some expf powf rnd _ n r).mp hr
  have hpos : 0 < (boundary expf powf rnd (configureStyle s1) m).2.fuelUsed := by
    have h1 : ¬ (boundary expf powf rnd (configureStyle s1) m).2.fuelUsed <
        (boundary expf powf rnd (configureStyle s1) m).2.fuel - 1 / 100 :=
      fun h => hhalt ((loopCond_iff _).mpr h)
    rw [boundary_fuel, hfresh.1] at h1
    have h2 := not_lt.mp h1
    have h3 : (0 : α) < 2 / 5 - 1 / 100 := by norm_num
    exact lt_of_lt_of_le h3 h2
  rw [hm]
  refine ⟨hpos, ?_⟩
  intro rep hrep
  obtain ⟨e1, _, _⟩ := printReport_eq_some _ rep hrep
  rw [e1]
  exact ⟨rfl, key expf powf rnd m hpos⟩

/-- C19: after configuration of a fresh object with a valid terrain (so with
`speedLimit ≤ 150`), every pass uses less than `0.01` litre; the `fuelLeft` of
every pass the loop executes is positive; the accumulated `fuelUsed` is at most
the capacity `0.4` at every test the loop reaches, and in the object `simulate`
returns. -/
theorem C19_fuel_never_overdrawn (g : Indeterminate α) (terrain style : String)
    (rest : List String)
    (hterrain : terrain = "hill" ∨ terrain = "plain" ∨ terrain = "downward") :
    ∃ s, configure (DrivingSimulation.init g) (terrain :: style :: rest) = Except.ok s ∧
      s.speedLimit ≤ 150 ∧
      ∀ (expf : α → α) (powf : α → α → α) (rnd : Nat → Nat),
        (∀ k,
          (tickVars expf powf (boundary expf powf rnd s k).1 (rnd k)
            (applyOverride (boundary expf powf rnd s k).2)).instFuelUsed < 1 / 100) ∧
        (∀ k,
          (boundary expf powf rnd s k).2.fuel - (boundary expf powf rnd s k).2.fuelUsed >
            1 / 100 →
          0 < (tickVars expf powf (boundary expf powf rnd s k).1 (rnd k)
            (applyOverride (boundary expf powf rnd s k).2)).fuelLeft) ∧
        (∀ k,
          (∀ j, j < k →
            (boundary expf powf rnd s j).2.fuel - (boundary expf powf rnd s j).2.fuelUsed >
              1 / 100) →
          (boundary expf powf rnd s k).2.fuel = 2 / 5 ∧
          (boundary expf powf rnd s k).2.fuelUsed ≤ 2 / 5) ∧
        (∀ (n : Nat) (r : DrivingSimulation α), simulate expf powf rnd n s = some r →
          r.fuel = 2 / 5 ∧ r.fuelUsed ≤ 2 / 5) := by
  obtain ⟨s1, hc, hfresh, _, _, _, _, _, h70, h150, _⟩ :=
    configure_init g terrain style rest hterrain
  have hl : 0 ≤ (configureStyle s1).speedLimit := by
    rw [configureStyle_speedLimit]
    linarith
  have hu : (configureStyle s1).speedLimit ≤ 150 := by
    rw [configureStyle_speedLimit]
    exact h150
  have hsmall : ∀ (expf : α → α) (powf : α → α → α) (rnd : Nat → Nat) (k : Nat),
      (tickVars expf powf (boundary expf powf rnd (configureStyle s1) k).1 (rnd k)
        (applyOverride (boundary expf powf rnd (configureStyle s1) k).2)).instFuelUsed ≤
        1 / 1200 := by
    intro expf powf rnd k
    apply tickVars_fuel_small
    · rw [active_speedLimit]; exact hl
    · rw [active_speedLimit]; exact hu
  have hleft : ∀ (expf : α → α) (powf : α → α → α) (rnd : Nat → Nat) (k : Nat),
      (boundary expf powf rnd (configureStyle s1) k).2.fuel -
          (boundary expf powf rnd (configureStyle s1) k).2.fuelUsed > 1 / 100 →
      (boundary expf powf rnd (configureStyle s1) (k + 1)).2.fuelUsed < 2 / 5 ∧
      0 < (tickVars expf powf (boundary expf powf rnd (configureStyle s1) k).1 (rnd k)
        (applyOverride (boundary expf powf rnd (configureStyle s1) k).2)).fuelLeft := by
    intro expf powf rnd k hk
    have h1 := hsmall expf powf rnd k
    have hf : (boundary expf powf rnd (configureStyle s1) k).2.fuel = 2 / 5 := by
      rw [boundary_fuel, hfresh.1]
    rw [hf] at hk
    have h2 : (tickVars expf powf (boundary expf powf rnd (configureStyle s1) k).1 (rnd k)
        (applyOverride (boundary expf powf rnd (configureStyle s1) k).2)).fuelLeft =
        (applyOverride (boundary expf powf rnd (configureStyle s1) k).2).fuel -
          ((applyOverride (boundary expf powf rnd (configureStyle s1) k).2).fuelUsed +
            (tickVars expf powf (boundary expf powf rnd (configureStyle s1) k).1 (rnd k)
              (applyOverride (boundary expf powf rnd (configureStyle s1) k).2)).instFuelUsed) :=
      rfl
    obtain ⟨o1, o2⟩ := applyOverride_fuel (boundary expf powf rnd (configureStyle s1) k).2
    rw [boundary_succ, (tick_accum expf powf _ _ _).1, h2, o1, o2, hf]
    have h3 : (1 : α) / 1200 < 1 / 100 := by norm_num
    constructor <;> linarith
  have hreach : ∀ (expf : α → α) (powf : α → α → α) (rnd : Nat → Nat) (k : Nat),
      (∀ j, j < k →
        (boundary expf powf rnd (configureStyle s1) j).2.fuel -
          (boundary expf powf rnd (configureStyle s1) j).2.fuelUsed > 1 / 100) →
      (boundary expf powf rnd (configureStyle s1) k).2.fuel = 2 / 5 ∧
      (boundary expf powf rnd (configureStyle s1) k).2.fuelUsed ≤ 2 / 5 := by
    intro expf powf rnd k hk
    refine ⟨by rw [boundary_fuel, hfresh.1], ?_⟩
    cases k with
    | zero =>
      show (configureStyle s1).fuelUsed ≤ 2 / 5
      rw [hfresh.2.1]
      norm_num
    | succ k => exact le_of_lt (hleft expf powf rnd k (hk k (Nat.lt_succ_self k))).1
  refine ⟨_, hc, hu, fun expf powf rnd => ⟨?_, ?_, hreach expf powf rnd, ?_⟩⟩
  · intro k
    have h3 : (1 : α) / 1200 < 1 / 100 := by norm_num
    exact lt_of_le_of_lt (hsmall expf powf rnd k) h3
  · intro k hk
    exact (hleft expf powf rnd k hk).2
  · intro n r hr
    obtain ⟨m, _, hm, hrun, _⟩ := (simulate_eq_some expf powf rnd _ n r).mp hr
    rw [hm]
    exact hreach expf powf rnd m hrun

end RunClaims

/-! ## Bounds of the presets -/

section Bounds

variable {α : Type} [LinearOrderedField α]

theorem configureStyle_presetBounds (s1 : DrivingSimulation α)
    (h70 : 70 ≤ s1.speedLimit) (h150 : s1.speedLimit ≤ 150) :
    PresetBounds (configureStyle s1) := by
  unfold PresetBounds configureStyle
  split_ifs <;> refine ⟨?_, ?_, h70, h150, ?_, ?_, ?_, ?_, ?_⟩ <;> norm_num

theorem applyOverride_presetBounds (c : DrivingSimulation α) (h : PresetBounds c) :
    PresetBounds (applyOverride c) := by
  obtain ⟨h1, h2, h3, h4, h5, h6, h7, h8, h9⟩ := h
  unfold PresetBounds applyOverride overrideDownwardAggressive overrideHillConservative
  split_ifs
  · refine ⟨?_, ?_, h3, h4, ?_, ?_, ?_, ?_, ?_⟩ <;> norm_num
  · refine ⟨?_, ?_, h3, h4, ?_, ?_, ?_, ?_, ?_⟩ <;> norm_num
  · refine ⟨?_, ?_, h3, h4, ?_, ?_, ?_, ?_, ?_⟩ <;> norm_num
  · exact ⟨h1, h2, h3, h4, h5, h6, h7, h8, h9⟩

theorem tick_presetBounds (expf : α → α) (powf : α → α → α) (t : α) (r : Nat)
    (s : DrivingSimulation α) (h : PresetBounds (applyOverride s)) :
    PresetBounds (tick expf powf t r s) := h

theorem boundary_presetBounds (expf : α → α) (powf : α → α → α) (rnd : Nat → Nat)
    (s : DrivingSimulation α) (h : PresetBounds s) (k : Nat) :
    PresetBounds (boundary expf powf rnd s k).2 := by
  induction k with
  | zero => exact h
  | succ k ih =>
    rw [boundary_succ]
    exact tick_presetBounds expf powf _ _ _ (applyOverride_presetBounds _ ih)

theorem clamp_ge (a val minVal maxVal : α) (h1 : a ≤ val) (h2 : a ≤ maxVal) :
    a ≤ clamp val minVal maxVal := by
  unfold clamp stdMax stdMin
  split_ifs with h3 h4 h4
  · exact h2
  · exact le_trans h2 (not_lt.mp h4)
  · exact h1
  · exact le_trans h1 (not_lt.mp h4)

end Bounds

/-! ## Termination of the loop -/

section Termination

theorem exp_neg_le_half (t rampTime : ℝ) (h0 : 0 < rampTime) (h : rampTime ≤ t) :
    Real.exp (-t / rampTime) ≤ 1 / 2 := by
  have h1 : -t / rampTime ≤ -1 := by
    rw [div_le_iff₀ h0]
    linarith
  have h2 : Real.exp (-t / rampTime) ≤ Real.exp (-1) := Real.exp_le_exp.mpr h1
  have h3 : (2 : ℝ) ≤ Real.exp 1 := by
    have := Real.add_one_le_exp (1 : ℝ)
    linarith
  have h4 : Real.exp (-1) ≤ 1 / 2 := by
    rw [Real.exp_neg, one_div]
    exact inv_anti₀ (by norm_num) h3
  exact le_trans h2 h4

/-- From 20 seconds on, a pass on an object within the preset bounds uses at
least `1/200000` litre, whatever the noise. -/
theorem tickVars_fuel_lower (powf : ℝ → ℝ → ℝ) (t : ℝ) (r : Nat) (c : DrivingSimulation ℝ)
    (hc : PresetBounds c) (ht : 20 ≤ t) :
    1 / 200000 ≤ (tickVars Real.exp powf t r c).instFuelUsed := by
  obtain ⟨h1, h2, h3, h4, h5, h6, h7, h8, h9⟩ := hc
  have hl : 0 ≤ c.speedLimit := by linarith
  have hmpos : 0 < c.maxRPM := by linarith
  have he := exp_neg_le_half t c.rampTime h6 (le_trans h7 ht)
  have hnr : (0 : ℝ) < ((c.noiseRange : Int) : ℝ) := by exact_mod_cast h8
  have hmt : 0 < c.maxThrottle := by linarith
  have hth : c.maxThrottle / 2 ≤ throttle Real.exp c.maxThrottle c.rampTime t := by
    unfold throttle
    nlinarith
  have hno : -((c.noiseRange : Int) : ℝ) ≤ ((noise r c.noiseRange : Int) : ℝ) := by
    have := (noise_bounds r c.noiseRange h8).1
    exact_mod_cast this
  have hrpm : 650 ≤ (tickVars Real.exp powf t r c).rpm := by
    apply clamp_ge
    · linarith
    · exact h1
  have hq : (650 : ℝ) / 6000 ≤ (tickVars Real.exp powf t r c).rpm / c.maxRPM :=
    div_le_div₀ (by linarith) hrpm hmpos h2
  have hraw : 5 ≤ (tickVars Real.exp powf t r c).rpm / c.maxRPM * c.speedLimit * c.speedFactor := by
    have q0 : (0 : ℝ) ≤ (tickVars Real.exp powf t r c).rpm / c.maxRPM := by linarith
    have a1 : (650 : ℝ) / 6000 * 70 ≤ (tickVars Real.exp powf t r c).rpm / c.maxRPM * c.speedLimit :=
      mul_le_mul hq h3 (by norm_num) q0
    have a2 : (650 : ℝ) / 6000 * 70 * (7 / 10) ≤
        (tickVars Real.exp powf t r c).rpm / c.maxRPM * c.speedLimit * c.speedFactor :=
      mul_le_mul a1 h5 (by norm_num) (mul_nonneg q0 hl)
    have a3 : (5 : ℝ) ≤ 650 / 6000 * 70 * (7 / 10) := by norm_num
    linarith
  have hk : 5 ≤ (tickVars Real.exp powf t r c).kmph := by
    apply clamp_ge
    · exact hraw
    · linarith
  obtain ⟨_, _, hd⟩ := tickVars_distance Real.exp powf t r c hl
  obtain ⟨f1, f2, _, _, f4⟩ := tickVars_fuel Real.exp powf t r c hl
  have hdist : (5 : ℝ) / 36 / 1000 ≤ (tickVars Real.exp powf t r c).distance / 1000 := by
    rw [hd]
    apply div_le_div_of_nonneg_right _ (by norm_num)
    exact div_le_div_of_nonneg_right hk (by norm_num)
  rw [f2] at hdist
  have hub : (tickVars Real.exp powf t r c).instFuelUsed *
      (tickVars Real.exp powf t r c).dynamicMileage ≤
      (tickVars Real.exp powf t r c).instFuelUsed * 25 :=
    mul_le_mul_of_nonneg_left f4 f1
  have : (5 : ℝ) / 36 / 1000 ≤ (tickVars Real.exp powf t r c).instFuelUsed * 25 :=
    le_trans hdist hub
  have h5' : (1 : ℝ) / 200000 * 25 ≤ 5 / 36 / 1000 := by norm_num
  have : (1 : ℝ) / 200000 * 25 ≤ (tickVars Real.exp powf t r c).instFuelUsed * 25 := by linarith
  exact le_of_mul_le_mul_right this (by norm_num)

/-- From the 200th test on, each further pass adds at least `1/200000` litre
to the fuel used. -/
theorem boundary_fuelUsed_lower (powf : ℝ → ℝ → ℝ) (rnd : Nat → Nat) (s : DrivingSimulation ℝ)
    (hs : Fresh s) (hb : PresetBounds s) (j : Nat) :
    (j : ℝ) * (1 / 200000) ≤ (boundary Real.exp powf rnd s (200 + j)).2.fuelUsed := by
  have hl : 0 ≤ s.speedLimit := by
    have := hb.2.2.1
    linarith
  induction j with
  | zero =>
    simp only [Nat.cast_zero, zero_mul, Nat.add_zero]
    exact (boundary_fuel_distance Real.exp powf rnd s hs hl 200).2.1
  | succ j ih =>
    have ht : (20 : ℝ) ≤ (boundary Real.exp powf rnd s (200 + j)).1 := by
      rw [boundary_time]
      unfold dt
      push_cast
      have : (0 : ℝ) ≤ (j : ℝ) := Nat.cast_nonneg j
      linarith
    have hlow := tickVars_fuel_lower powf (boundary Real.exp powf rnd s (200 + j)).1
      (rnd (200 + j)) _
      (applyOverride_presetBounds _ (boundary_presetBounds Real.exp powf rnd s hb (200 + j))) ht
    have hstep : (boundary Real.exp powf rnd s (200 + (j + 1))).2.fuelUsed =
        (boundary Real.exp powf rnd s (200 + j)).2.fuelUsed +
          (tickVars Real.exp powf (boundary Real.exp powf rnd s (200 + j)).1 (rnd (200 + j))
            (applyOverride (boundary Real.exp powf rnd s (200 + j)).2)).instFuelUsed :=
      (tick_accum Real.exp powf _ _ _).1
    rw [hstep]
    push_cast
    linarith

/-- C15: after configuration of a fresh object with a valid terrain (and any
style token), with the real exponential, whatever `pow` returns and whatever
values `rand()` returns (each noise then lies in
`[-noiseRange, 2 * noiseRange - 1]`), the loop of `simulate` reaches a test at
which `fuel - fuelUsed > 0.01` fails after at most 80200 passes, and `simulate`
returns the object of that test as soon as it is allowed that many tests. -/
theorem C15_simulate_terminates (g : Indeterminate ℝ) (terrain style : String)
    (rest : List String)
    (hterrain : terrain = "hill" ∨ terrain = "plain" ∨ terrain = "downward") :
    ∃ s, configure (DrivingSimulation.init g) (terrain :: style :: rest) = Except.ok s ∧
      ∀ (powf : ℝ → ℝ → ℝ) (rnd : Nat → Nat),
        (∀ k,
          -(applyOverride (boundary Real.exp powf rnd s k).2).noiseRange ≤
            noise (rnd k) (applyOverride (boundary Real.exp powf rnd s k).2).noiseRange ∧
          noise (rnd k) (applyOverride (boundary Real.exp powf rnd s k).2).noiseRange ≤
            2 * (applyOverride (boundary Real.exp powf rnd s k).2).noiseRange - 1) ∧
        ∃ m, m ≤ 80200 ∧
          (∀ j, j < m →
            (boundary Real.exp powf rnd s j).2.fuel -
              (boundary Real.exp powf rnd s j).2.fuelUsed > 1 / 100) ∧
          ¬ ((boundary Real.exp powf rnd s m).2.fuel -
              (boundary Real.exp powf rnd s m).2.fuelUsed > 1 / 100) ∧
          ∀ n, m < n →
            simulate Real.exp powf rnd n s = some (boundary Real.exp powf rnd s m).2 := by
  obtain ⟨s1, hc, hfresh, _, _, _, _, _, h70, h150, _⟩ :=
    configure_init g terrain style rest hterrain
  have hb : PresetBounds (configureStyle s1) := configureStyle_presetBounds s1 h70 h150
  refine ⟨_, hc, fun powf rnd => ⟨?_, ?_⟩⟩
  · intro k
    exact noise_bounds _ _
      (applyOverride_presetBounds _ (boundary_presetBounds Real.exp powf rnd _ hb k)).2.2.2.2.2.2.2.1
  · have hex : ∃ m, ¬ loopCond (boundary Real.exp powf rnd (configureStyle s1) m).2 := by
      refine ⟨200 + 80000, ?_⟩
      rw [loopCond_iff, boundary_fuel, hfresh.1]
      have := boundary_fuelUsed_lower powf rnd _ hfresh hb 80000
      push_cast at this
      intro hlt
      linarith
    classical
    refine ⟨Nat.find hex, ?_, ?_, Nat.find_spec hex, ?_⟩
    · apply Nat.find_min' hex
      rw [loopCond_iff, boundary_fuel, hfresh.1]
      have := boundary_fuelUsed_lower powf rnd _ hfresh hb 80000
      push_cast at this
      intro hlt
      linarith
    · intro j hj
      exact not_not.mp (Nat.find_min hex hj)
    · intro n hn
      rw [simulate_eq_some]
      exact ⟨Nat.find hex, hn, rfl, fun j hj => not_not.mp (Nat.find_min hex hj),
        Nat.find_spec hex⟩

/-- With the real exponential, the loop started on a fresh object within the
preset bounds passes its first test, fails a test after at most 80200 passes,
and `simulate` returns the object of the first failing test as soon as it is
allowed more tests than that. -/
theorem simulate_returns (powf : ℝ → ℝ → ℝ) (rnd : Nat → Nat) (s : DrivingSimulation ℝ)
    (hs : Fresh s) (hb : PresetBounds s) :
    ∃ m, 1 ≤ m ∧ m ≤ 80200 ∧
      (∀ j, j < m → loopCond (boundary Real.exp powf rnd s j).2) ∧
      ¬ loopCond (boundary Real.exp powf rnd s m).2 ∧
      ∀ n, m < n → simulate Real.exp powf rnd n s = some (boundary Real.exp powf rnd s m).2 := by
  have hlast : ¬ loopCond (boundary Real.exp powf rnd s (200 + 80000)).2 := by
    rw [loopCond_iff, boundary_fuel, hs.1]
    have := boundary_fuelUsed_lower powf rnd s hs hb 80000
    push_cast at this
    intro hlt
    linarith
  have hex : ∃ m, ¬ loopCond (boundary Real.exp powf rnd s m).2 := ⟨_, hlast⟩
  classical
  refine ⟨Nat.find hex, ?_, Nat.find_min' hex hlast,
    fun j hj => not_not.mp (Nat.find_min hex hj), Nat.find_spec hex, ?_⟩
  · rcases Nat.eq_zero_or_pos (Nat.find hex) with h0 | h0
    · have h1 := Nat.find_spec hex
      rw [h0] at h1
      exfalso
      apply h1
      rw [loopCond_iff]
      show s.fuelUsed < s.fuel - 1 / 100
      rw [hs.1, hs.2.1]
      norm_num
    · exact h0
  · intro n hn
    rw [simulate_eq_some]
    exact ⟨Nat.find hex, hn, rfl, fun j hj => not_not.mp (Nat.find_min hex hj),
      Nat.find_spec hex⟩

/-- Configuration of a freshly constructed object with a valid terrain gives a
fresh object within the preset bounds. -/
theorem configure_fresh_bounds {α : Type} [LinearOrderedField α] (g : Indeterminate α)
    (terrain style : String) (rest : List String)
    (hterrain : terrain = "hill" ∨ terrain = "plain" ∨ terrain = "downward")
    (s : DrivingSimulation α)
    (h : configure (DrivingSimulation.init g) (terrain :: style :: rest) = Except.ok s) :
    Fresh s ∧ PresetBounds s := by
  obtain ⟨s1, hc, hfresh, _, _, _, _, _, h70, h150, _⟩ :=
    configure_init g terrain style rest hterrain
  rw [hc] at h
  injection h with h
  rw [← h]
  exact ⟨hfresh, configureStyle_presetBounds s1 h70 h150⟩

/-- C20: after configuration of a fresh object (`fuel = 0.4`, `fuelUsed = 0`)
the first test of the loop condition succeeds and `simulate` runs the first
pass: allowed `n + 1` tests, it continues from the object after one pass with
the loop variable advanced by `dt`.  After `k` passes each of the four sample
sequences holds `k` values; an object `simulate` returns is the object after
some `m ≥ 1` passes, its four sequences hold `m` values, `allMileages` is not
empty, its maximum and minimum are defined and `printReport` produces a
report.  With the real exponential `simulate` does return: for some
`1 ≤ m ≤ 80200`, allowed more than `m` tests it returns the object after `m`
passes, whose four sequences hold `m` values, whose `allMileages` is not empty
and has a maximum and a minimum, and for which `printReport` produces a
report. -/
theorem C20_samples_nonempty {α : Type} [LinearOrderedField α] (g : Indeterminate α)
    (gR : Indeterminate ℝ) (terrain style : String) (rest : List String)
    (hterrain : terrain = "hill" ∨ terrain = "plain" ∨ terrain = "downward") :
    (∃ s, configure (DrivingSimulation.init g) (terrain :: style :: rest) = Except.ok s ∧
      s.fuel = 2 / 5 ∧ s.fuelUsed = 0 ∧ s.fuel - s.fuelUsed > 1 / 100 ∧
      ∀ (expf : α → α) (powf : α → α → α) (rnd : Nat → Nat),
        (∀ n, simulate expf powf rnd (n + 1) s =
          simulateLoop expf powf rnd n 1 (0 + dt, tick expf powf 0 (rnd 0) s)) ∧
        (∀ k,
          (boundary expf powf rnd s k).2.allRPMs.length = k ∧
          (boundary expf powf rnd s k).2.allSpeeds.length = k ∧
          (boundary expf powf rnd s k).2.allTorques.length = k ∧
          (boundary expf powf rnd s k).2.allMileages.length = k) ∧
        (∀ (n : Nat) (r : DrivingSimulation α), simulate expf powf rnd n s = some r →
          ∃ m, 1 ≤ m ∧ r = (boundary expf powf rnd s m).2 ∧
            r.allRPMs.length = m ∧ r.allSpeeds.length = m ∧ r.allTorques.length = m ∧
            r.allMileages.length = m ∧ r.allMileages ≠ [] ∧
            (∃ mx mn, maxElement r.allMileages = some mx ∧
              minElement r.allMileages = some mn) ∧
            ∃ rep, printReport r = some rep)) ∧
    (∃ s, configure (DrivingSimulation.init gR) (terrain :: style :: rest) = Except.ok s ∧
      ∀ (powf : ℝ → ℝ → ℝ) (rnd : Nat → Nat),
        ∃ m, 1 ≤ m ∧ m ≤ 80200 ∧ ∀ n, m < n →
          ∃ r, simulate Real.exp powf rnd n s = some r ∧
            r = (boundary Real.exp powf rnd s m).2 ∧
            r.allRPMs.length = m ∧ r.allSpeeds.length = m ∧ r.allTorques.length = m ∧
            r.allMileages.length = m ∧ r.allMileages ≠ [] ∧
            (∃ mx mn, maxElement r.allMileages = some mx ∧
              minElement r.allMileages = some mn) ∧
            ∃ rep, printReport r = some rep) := by
  constructor
  · obtain ⟨s1, hc, hfresh, _⟩ := configure_init g terrain style rest hterrain
    have hfirst : (configureStyle s1).fuel - (configureStyle s1).fuelUsed > 1 / 100 := by
      rw [hfresh.1, hfresh.2.1]
      norm_num
    refine ⟨_, hc, hfresh.1, hfresh.2.1, hfirst, fun expf powf rnd =>
      ⟨?_, boundary_lengths expf powf rnd _ hfresh, ?_⟩⟩
    · intro n
      show simulateLoop expf powf rnd (n + 1) 0 (0, configureStyle s1) = _
      have hc0 : loopCond (0, configureStyle s1).2 := hfirst
      simp only [simulateLoop, if_pos hc0, loopStep]
    · intro n r hr
      obtain ⟨m, _, hm, _, hhalt⟩ := (simulate_eq_some expf powf rnd _ n r).mp hr
      have hm1 : 1 ≤ m := by
        rcases Nat.eq_zero_or_pos m with h0 | h0
        · rw [h0] at hhalt
          exact absurd hfirst hhalt
        · exact h0
      obtain ⟨l1, l2, l3, l4⟩ := boundary_lengths expf powf rnd _ hfresh m
      have hne : r.allMileages ≠ [] := by
        rw [hm]
        intro h
        rw [h] at l4
        simp at l4
        omega
      obtain ⟨hx, hrep⟩ := printReport_of_samples r hne
      refine ⟨m, hm1, hm, ?_, ?_, ?_, ?_, hne, hx, hrep⟩ <;> rw [hm] <;> assumption
  · obtain ⟨s1, hc, _⟩ := configure_init gR terrain style rest hterrain
    obtain ⟨hfresh, hb⟩ := configure_fresh_bounds gR terrain style rest hterrain _ hc
    refine ⟨_, hc, fun powf rnd => ?_⟩
    obtain ⟨m, hm1, hm2, _, _, hsim⟩ := simulate_returns powf rnd _ hfresh hb
    refine ⟨m, hm1, hm2, fun n hn => ⟨_, hsim n hn, rfl, ?_⟩⟩
    obtain ⟨l1, l2, l3, l4⟩ := boundary_lengths Real.exp powf rnd _ hfresh m
    have hne : (boundary Real.exp powf rnd (configureStyle s1) m).2.allMileages ≠ [] := by
      intro h
      rw [h] at l4
      simp at l4
      omega
    obtain ⟨hx, hrep⟩ := printReport_of_samples _ hne
    exact ⟨l1, l2, l3, l4, hne, hx, hrep⟩

end Termination

/-! ## The configured members along a run -/

section Config

variable {α : Type} [LinearOrderedField α]

theorem SameConfig.refl (a : DrivingSimulation α) : SameConfig a a :=
  ⟨rfl, rfl, rfl, rfl, rfl, rfl, rfl, rfl, rfl, rfl⟩

theorem tick_sameConfig (expf : α → α) (powf : α → α → α) (t : α) (r : Nat)
    (s : DrivingSimulation α) : SameConfig (tick expf powf t r s) (applyOverride s) :=
  ⟨rfl, rfl, rfl, rfl, rfl, rfl, rfl, rfl, rfl, rfl⟩

/-- When neither override block applies to the configured object, every test
of the loop finds the configured members unchanged, before and after the
override blocks. -/
theorem boundary_sameConfig (expf : α → α) (powf : α → α → α) (rnd : Nat → Nat)
    (s : DrivingSimulation α)
    (h1 : ¬ (s.terrain = "hill" ∧ s.style = "conservative"))
    (h2 : ¬ (s.terrain = "downward" ∧ s.style = "aggressive")) (k : Nat) :
    SameConfig (boundary expf powf rnd s k).2 s ∧
    applyOverride (boundary expf powf rnd s k).2 = (boundary expf powf rnd s k).2 := by
  have hov : ∀ b : DrivingSimulation α, SameConfig b s → applyOverride b = b := by
    intro b hb
    apply applyOverride_other
    · rw [hb.1, hb.2.1]; exact h1
    · rw [hb.1, hb.2.1]; exact h2
  induction k with
  | zero => exact ⟨SameConfig.refl s, hov _ (SameConfig.refl s)⟩
  | succ k ih =>
    have hk : SameConfig (boundary expf powf rnd s (k + 1)).2 s := by
      have := tick_sameConfig expf powf (boundary expf powf rnd s k).1 (rnd k)
        (boundary expf powf rnd s k).2
      rw [ih.2] at this
      rw [boundary_succ]
      obtain ⟨a1, a2, a3, a4, a5, a6, a7, a8, a9, a10⟩ := this
      obtain ⟨b1, b2, b3, b4, b5, b6, b7, b8, b9, b10⟩ := ih.1
      exact ⟨a1.trans b1, a2.trans b2, a3.trans b3, a4.trans b4, a5.trans b5, a6.trans b6,
        a7.trans b7, a8.trans b8, a9.trans b9, a10.trans b10⟩
    exact ⟨hk, hov _ hk⟩

theorem clamp_le (a val minVal maxVal : α) (h1 : val ≤ a) (h2 : minVal ≤ a) :
    clamp val minVal maxVal ≤ a := by
  unfold clamp stdMax stdMin
  split_ifs with h3 h4 h4
  · exact le_trans (le_of_lt h3) h1
  · exact h2
  · exact h1
  · exact h2

theorem maxElement_mem (l : List α) (m : α) (h : maxElement l = some m) : m ∈ l := by
  cases l with
  | nil => cases h
  | cons x xs =>
    have key : ∀ (ys : List α) (a : α),
        ys.foldl (fun largest v => if largest < v then v else largest) a ∈ a :: ys := by
      intro ys
      induction ys with
      | nil => intro a; simp
      | cons y ys ih =>
        intro a
        simp only [List.foldl_cons]
        have := ih (if a < y then y else a)
        split_ifs at this ⊢ with hlt
        · rcases List.mem_cons.mp this with h' | h'
          · rw [h']; simp
          · exact List.mem_cons_of_mem _ (List.mem_cons_of_mem _ h')
        · rcases List.mem_cons.mp this with h' | h'
          · rw [h']; simp
          · exact List.mem_cons_of_mem _ (List.mem_cons_of_mem _ h')
    have hm : xs.foldl (fun largest v => if largest < v then v else largest) x = m :=
      Option.some.inj h
    rw [← hm]
    exact key xs x

theorem minElement_mem (l : List α) (m : α) (h : minElement l = some m) : m ∈ l := by
  cases l with
  | nil => cases h
  | cons x xs =>
    have key : ∀ (ys : List α) (a : α),
        ys.foldl (fun smallest v => if v < smallest then v else smallest) a ∈ a :: ys := by
      intro ys
      induction ys with
      | nil => intro a; simp
      | cons y ys ih =>
        intro a
        simp only [List.foldl_cons]
        have := ih (if y < a then y else a)
        split_ifs at this ⊢ with hlt
        · rcases List.mem_cons.mp this with h' | h'
          · rw [h']; simp
          · exact List.mem_cons_of_mem _ (List.mem_cons_of_mem _ h')
        · rcases List.mem_cons.mp this with h' | h'
          · rw [h']; simp
          · exact List.mem_cons_of_mem _ (List.mem_cons_of_mem _ h')
    have hm : xs.foldl (fun smallest v => if v < smallest then v else smallest) x = m :=
      Option.some.inj h
    rw [← hm]
    exact key xs x

end Config

/-! ## Terrain downward, style conservative -/

section DownwardConservative

theorem rpow_five_fourths_le : ((5 : ℝ) / 4) ^ ((6 : ℝ) / 5) ≤ 21 / 16 := by
  have hy : (0 : ℝ) ≤ ((5 : ℝ) / 4) ^ ((6 : ℝ) / 5) := Real.rpow_nonneg (by norm_num) _
  have h5 : (((5 : ℝ) / 4) ^ ((6 : ℝ) / 5)) ^ (5 : ℕ) = ((5 : ℝ) / 4) ^ (6 : ℕ) := by
    rw [← Real.rpow_natCast, ← Real.rpow_mul (by norm_num), ← Real.rpow_natCast]
    norm_num
  have hle : (((5 : ℝ) / 4) ^ ((6 : ℝ) / 5)) ^ (5 : ℕ) ≤ ((21 : ℝ) / 16) ^ (5 : ℕ) := by
    rw [h5]
    norm_num
  exact le_of_pow_le_pow_left₀ (by norm_num) (by norm_num) hle

/-- With the downward/conservative members the `dynamicMileage` is at least 15
for every rpm of `[0, 2500]`. -/
theorem dynamicMileage_downward_conservative (rpm : ℝ) (h0 : 0 ≤ rpm) (h1 : rpm ≤ 2500) :
    15 ≤ dynamicMileage (fun x y : ℝ => x ^ y) rpm 2000 20 := by
  have hx0 : (0 : ℝ) ≤ rpm / 2000 := div_nonneg h0 (by norm_num)
  have hx1 : rpm / 2000 ≤ 5 / 4 := by
    rw [div_le_iff₀ (by norm_num)]
    linarith
  have hed0 : (0 : ℝ) ≤ (rpm / 2000) ^ ((6 : ℝ) / 5) := Real.rpow_nonneg hx0 _
  have hed1 : (rpm / 2000) ^ ((6 : ℝ) / 5) ≤ 21 / 16 :=
    le_trans (Real.rpow_le_rpow hx0 hx1 (by norm_num)) rpow_five_fourths_le
  rw [dynamicMileage_of_base _ _ _ _ (by norm_num) hx0]
  show 15 ≤ Ext.clamp (Ext.mul (Ext.recip ((rpm / 2000) ^ ((6 : ℝ) / 5))) 20) 5 25
  by_cases hz : (rpm / 2000) ^ ((6 : ℝ) / 5) = 0
  · simp only [Ext.recip, hz, if_true, Ext.mul, Ext.clamp, stdMax]
    norm_num
  · have hpos : 0 < (rpm / 2000) ^ ((6 : ℝ) / 5) := lt_of_le_of_ne hed0 (Ne.symm hz)
    simp only [Ext.recip, hz, if_false, Ext.mul, Ext.clamp]
    apply clamp_ge
    · rw [one_div, ← div_eq_inv_mul, le_div_iff₀ hpos]
      linarith
    · norm_num

/-- With the downward/conservative members no pass uses more than `0.0001`
litre. -/
theorem fuel_downward_conservative (rpm : ℝ) (h0 : 0 ≤ rpm) (h1 : rpm ≤ 2500) :
    clamp (rpm / 2500 * 70 * (7 / 10)) 0 70 / (18 / 5) * dt / 1000 /
      dynamicMileage (fun x y : ℝ => x ^ y) rpm 2000 20 ≤ 1 / 10000 := by
  have hdm := dynamicMileage_downward_conservative rpm h0 h1
  have hk : clamp (rpm / 2500 * 70 * (7 / 10)) 0 70 ≤ 49 := by
    apply clamp_le
    · have : rpm / 2500 ≤ 1 := by
        rw [div_le_one (by norm_num)]
        exact h1
      nlinarith
    · norm_num
  have hk0 : 0 ≤ clamp (rpm / 2500 * 70 * (7 / 10)) 0 70 :=
    (clamp_bounds _ 0 70 (by norm_num)).1
  have hpos : (0 : ℝ) < dynamicMileage (fun x y : ℝ => x ^ y) rpm 2000 20 := by linarith
  rw [div_le_iff₀ hpos]
  unfold dt
  nlinarith

end DownwardConservative

/-! ## Runs for terrain downward, style conservative -/

section DownwardConservativeRun

theorem configureStyle_conservative {α : Type} [LinearOrderedField α] (s : DrivingSimulation α)
    (h : s.style = "conservative") :
    configureStyle s =
      { s with
        maxRPM := 2500, maxThrottle := 2000, rampTime := 18, noiseRange := 200,
        speedFactor := 7 / 10, baseEfficiencyRPM := 2000, mileageEfficiencyFactor := 20 } := by
  simp [configureStyle, h]

/-- A pass on an object with the downward/conservative members uses at most
`0.0001` litre. -/
theorem tickVars_fuel_downward_conservative (expf : ℝ → ℝ) (t : ℝ) (r : Nat)
    (c : DrivingSimulation ℝ) (hl : c.speedLimit = 70) (hm : c.maxRPM = 2500)
    (hf : c.speedFactor = 7 / 10) (hb : c.baseEfficiencyRPM = 2000)
    (he : c.mileageEfficiencyFactor = 20) :
    (tickVars expf (fun x y : ℝ => x ^ y) t r c).instFuelUsed ≤ 1 / 10000 := by
  have hr := (tickVars_bounds expf (fun x y : ℝ => x ^ y) t r c (by rw [hm]; norm_num)
    (by rw [hl]; norm_num)).1
  rw [hm] at hr
  have hdef : (tickVars expf (fun x y : ℝ => x ^ y) t r c).instFuelUsed =
      clamp ((tickVars expf (fun x y : ℝ => x ^ y) t r c).rpm / c.maxRPM * c.speedLimit *
        c.speedFactor) 0 c.speedLimit / (18 / 5) * dt / 1000 /
      dynamicMileage (fun x y : ℝ => x ^ y) (tickVars expf (fun x y : ℝ => x ^ y) t r c).rpm
        c.baseEfficiencyRPM c.mileageEfficiencyFactor := rfl
  rw [hdef, hm, hl, hf, hb, he]
  exact fuel_downward_conservative _ hr.1 hr.2

/-- C17: for terrain "downward" and style "conservative", with the real power
function, the fuel of a pass is at most `0.0001` litre for every rpm of
`[0, 2500]`; so in every pass of a run the fuel use does not exceed `0.0001`,
the instantaneous mileage and the `rangeLeft` are `0`, every recorded mileage
is `0`, and the max and min mileage of the report are `0`. -/
theorem C17_downward_conservative_zero_mileage (g : Indeterminate ℝ) (rest : List String) :
    ∃ s, configure (DrivingSimulation.init g) ("downward" :: "conservative" :: rest) =
        Except.ok s ∧
      (∀ rpm : ℝ, 0 ≤ rpm → rpm ≤ 2500 →
        clamp (rpm / s.maxRPM * s.speedLimit * s.speedFactor) 0 s.speedLimit / (18 / 5) * dt /
            1000 /
          dynamicMileage (fun x y : ℝ => x ^ y) rpm s.baseEfficiencyRPM
            s.mileageEfficiencyFactor ≤ 1 / 10000) ∧
      ∀ (expf : ℝ → ℝ) (rnd : Nat → Nat),
        (∀ k,
          ¬ ((tickVars expf (fun x y : ℝ => x ^ y) (boundary expf (fun x y : ℝ => x ^ y) rnd s k).1
              (rnd k)
              (applyOverride (boundary expf (fun x y : ℝ => x ^ y) rnd s k).2)).instFuelUsed >
            1 / 10000) ∧
          (tickVars expf (fun x y : ℝ => x ^ y) (boundary expf (fun x y : ℝ => x ^ y) rnd s k).1
              (rnd k)
              (applyOverride (boundary expf (fun x y : ℝ => x ^ y) rnd s k).2)).instMileage = 0 ∧
          (tickVars expf (fun x y : ℝ => x ^ y) (boundary expf (fun x y : ℝ => x ^ y) rnd s k).1
              (rnd k)
              (applyOverride (boundary expf (fun x y : ℝ => x ^ y) rnd s k).2)).rangeLeft = 0) ∧
        (∀ k, ∀ x ∈ (boundary expf (fun x y : ℝ => x ^ y) rnd s k).2.allMileages, x = 0) ∧
        (∀ (n : Nat) (r : DrivingSimulation ℝ),
          simulate expf (fun x y : ℝ => x ^ y) rnd n s = some r →
          (∀ x ∈ r.allMileages, x = 0) ∧
          ∀ rep, printReport r = some rep → rep.maxMileage = 0 ∧ rep.minMileage = 0) := by
  obtain ⟨s1, hc, hfresh, ht, hst, _, _, h70, _, _, _⟩ :=
    configure_init g "downward" "conservative" rest (Or.inr (Or.inr rfl))
  have hcs := configureStyle_conservative s1 hst
  have hcfg : (configureStyle s1).terrain = "downward" ∧
      (configureStyle s1).style = "conservative" ∧ (configureStyle s1).speedLimit = 70 ∧
      (configureStyle s1).maxRPM = 2500 ∧ (configureStyle s1).speedFactor = 7 / 10 ∧
      (configureStyle s1).baseEfficiencyRPM = 2000 ∧
      (configureStyle s1).mileageEfficiencyFactor = 20 := by
    rw [hcs]
    exact ⟨ht, hst, h70 rfl, rfl, rfl, rfl, rfl⟩
  obtain ⟨c1, c2, c3, c4, c5, c6, c7⟩ := hcfg
  have hno1 : ¬ ((configureStyle s1).terrain = "hill" ∧
      (configureStyle s1).style = "conservative") := by
    rw [c1]
    exact fun h => absurd h.1 (by decide)
  have hno2 : ¬ ((configureStyle s1).terrain = "downward" ∧
      (configureStyle s1).style = "aggressive") := by
    rw [c2]
    exact fun h => absurd h.2 (by decide)
  -- the fuel of every pass
  have hfuel : ∀ (expf : ℝ → ℝ) (rnd : Nat → Nat) (k : Nat),
      (tickVars expf (fun x y : ℝ => x ^ y)
        (boundary expf (fun x y : ℝ => x ^ y) rnd (configureStyle s1) k).1 (rnd k)
        (applyOverride (boundary expf (fun x y : ℝ => x ^ y) rnd (configureStyle s1) k).2)).instFuelUsed
        ≤ 1 / 10000 := by
    intro expf rnd k
    obtain ⟨hsame, hov⟩ := boundary_sameConfig expf (fun x y : ℝ => x ^ y) rnd _ hno1 hno2 k
    rw [hov]
    obtain ⟨_, _, a3, a4, _, _, _, a8, a9, a10⟩ := hsame
    exact tickVars_fuel_downward_conservative expf _ _ _ (a3.trans c3) (a4.trans c4)
      (a8.trans c5) (a9.trans c6) (a10.trans c7)
  -- the mileage kept and recorded along the run
  have hrun : ∀ (expf : ℝ → ℝ) (rnd : Nat → Nat) (k : Nat),
      (boundary expf (fun x y : ℝ => x ^ y) rnd (configureStyle s1) k).2.lastMileage = 0 ∧
      ∀ x ∈ (boundary expf (fun x y : ℝ => x ^ y) rnd (configureStyle s1) k).2.allMileages,
        x = 0 := by
    intro expf rnd k
    induction k with
    | zero =>
      refine ⟨hfresh.2.2.2.1, ?_⟩
      intro x hx
      have hx' : x ∈ (configureStyle s1).allMileages := hx
      rw [hfresh.2.2.2.2.2.2.2] at hx'
      cases hx'
    | succ k ih =>
      obtain ⟨_, _, a3, _, _, _, a7⟩ := tick_accum expf (fun x y : ℝ => x ^ y)
        (boundary expf (fun x y : ℝ => x ^ y) rnd (configureStyle s1) k).1 (rnd k)
        (boundary expf (fun x y : ℝ => x ^ y) rnd (configureStyle s1) k).2
      have hnot := not_lt.mpr (hfuel expf rnd k)
      have hzero : (tickVars expf (fun x y : ℝ => x ^ y)
          (boundary expf (fun x y : ℝ => x ^ y) rnd (configureStyle s1) k).1 (rnd k)
          (applyOverride
            (boundary expf (fun x y : ℝ => x ^ y) rnd (configureStyle s1) k).2)).instMileage =
          0 := by
        obtain ⟨r1, _, r3⟩ := tickVars_instMileage expf (fun x y : ℝ => x ^ y)
          (boundary expf (fun x y : ℝ => x ^ y) rnd (configureStyle s1) k).1 (rnd k)
          (applyOverride (boundary expf (fun x y : ℝ => x ^ y) rnd (configureStyle s1) k).2)
        by_cases h : (tickVars expf (fun x y : ℝ => x ^ y)
          (boundary expf (fun x y : ℝ => x ^ y) rnd (configureStyle s1) k).1 (rnd k)
          (applyOverride
            (boundary expf (fun x y : ℝ => x ^ y) rnd (configureStyle s1) k).2)).totalDistance <
            1 / 1000
        · exact r1 h
        · rw [r3 h hnot, (applyOverride_accum _).2.2.2]
          exact ih.1
      rw [boundary_succ, a3, a7]
      refine ⟨hzero, ?_⟩
      intro x hx
      rcases List.mem_append.mp hx with h | h
      · exact ih.2 x h
      · rw [List.mem_singleton.mp h]
        exact hzero
  refine ⟨_, hc, ?_, fun expf rnd => ⟨?_, fun k => (hrun expf rnd k).2, ?_⟩⟩
  · intro rpm h0 h1
    rw [c3, c4, c5, c6, c7]
    exact fuel_downward_conservative rpm h0 h1
  · intro k
    have hz : (tickVars expf (fun x y : ℝ => x ^ y)
        (boundary expf (fun x y : ℝ => x ^ y) rnd (configureStyle s1) k).1 (rnd k)
        (applyOverride
          (boundary expf (fun x y : ℝ => x ^ y) rnd (configureStyle s1) k).2)).instMileage = 0 := by
      have h1 := (hrun expf rnd (k + 1)).1
      rw [boundary_succ, (tick_accum expf _ _ _ _).2.2.1] at h1
      exact h1
    refine ⟨not_lt.mpr (hfuel expf rnd k), hz, ?_⟩
    show _ * (tickVars expf (fun x y : ℝ => x ^ y)
        (boundary expf (fun x y : ℝ => x ^ y) rnd (configureStyle s1) k).1 (rnd k)
        (applyOverride
          (boundary expf (fun x y : ℝ => x ^ y) rnd (configureStyle s1) k).2)).instMileage = 0
    rw [hz, mul_zero]
  · intro n r hr
    obtain ⟨m, _, hm, _⟩ := (simulate_eq_some expf _ rnd _ n r).mp hr
    have hall : ∀ x ∈ r.allMileages, x = 0 := by
      rw [hm]
      exact (hrun expf rnd m).2
    refine ⟨hall, ?_⟩
    intro rep hrep
    obtain ⟨_, e2, e3⟩ := printReport_eq_some r rep hrep
    exact ⟨hall _ (maxElement_mem _ _ e2), hall _ (minElement_mem _ _ e3)⟩

end DownwardConservativeRun

/-! ## The rule for the instantaneous mileage -/

section MileageRule

variable {α : Type} [LinearOrderedField α]

theorem configureStyle_fallback (s : DrivingSimulation α) (h1 : s.style ≠ "conservative")
    (h2 : s.style ≠ "moderate") (h3 : s.style ≠ "aggressive") :
    configureStyle s =
      { s with
        maxRPM := 3000, maxThrottle := 2500, rampTime := 20, noiseRange := 200,
        speedFactor := 85 / 100 } := by
  simp [configureStyle, h1, h2, h3]

theorem clamp_of_le_min (val minVal maxVal : α) (h1 : val ≤ minVal) (h2 : minVal ≤ maxVal) :
    clamp val minVal maxVal = minVal := by
  unfold clamp stdMax stdMin
  split_ifs with h3 h4 h4
  · exact absurd (lt_of_lt_of_le h3 h1) (not_lt.mpr h2)
  · rfl
  · exact absurd h4 (not_lt.mpr h1)
  · rfl

/-- A pass whose rpm is `0` covers no distance. -/
theorem tickVars_distance_of_rpm_zero (expf : α → α) (powf : α → α → α) (t : α) (r : Nat)
    (c : DrivingSimulation α) (hl : 0 ≤ c.speedLimit)
    (h : (tickVars expf powf t r c).rpm = 0) :
    (tickVars expf powf t r c).distance = 0 := by
  have hk : (tickVars expf powf t r c).kmph =
      clamp ((tickVars expf powf t r c).rpm / c.maxRPM * c.speedLimit * c.speedFactor) 0
        c.speedLimit := rfl
  rw [h, zero_div, zero_mul, zero_mul, clamp_zero _ hl] at hk
  rw [(tickVars_distance expf powf t r c hl).2.2, hk, zero_div]

end MileageRule

/-! ## A run with an unrecognized style -/

section StaleRun

theorem throttle_le_linear (maxThrottle rampTime t : ℝ) (hm : 0 ≤ maxThrottle) :
    throttle Real.exp maxThrottle rampTime t ≤ maxThrottle * (t / rampTime) := by
  unfold throttle
  have h := Real.add_one_le_exp (-t / rampTime)
  apply mul_le_mul_of_nonneg_left _ hm
  have : -t / rampTime = -(t / rampTime) := by ring
  rw [this] at h ⊢
  linarith

theorem throttle_ge_ratio (maxThrottle rampTime t : ℝ) (hm : 0 ≤ maxThrottle)
    (hx : 0 ≤ t / rampTime) :
    maxThrottle * (t / rampTime / (1 + t / rampTime)) ≤
      throttle Real.exp maxThrottle rampTime t := by
  unfold throttle
  apply mul_le_mul_of_nonneg_left _ hm
  have h := Real.add_one_le_exp (t / rampTime)
  have hpos : 0 < 1 + t / rampTime := by linarith
  have he : Real.exp (-t / rampTime) ≤ 1 / (1 + t / rampTime) := by
    have : -t / rampTime = -(t / rampTime) := by ring
    rw [this, Real.exp_neg, one_div]
    exact inv_anti₀ hpos (by linarith)
  have hid : t / rampTime / (1 + t / rampTime) = 1 - 1 / (1 + t / rampTime) := by
    field_simp
  rw [hid]
  linarith

/-- An early pass with noise `-200` on the fallback members: the rpm is `0`,
no distance is covered and the mileage stays `0`. -/
theorem stale_idle_pass (powf : ℝ → ℝ → ℝ) (t : ℝ) (r : Nat) (c : DrivingSimulation ℝ)
    (hl : c.speedLimit = 150) (hm : c.maxRPM = 3000) (hmt : c.maxThrottle = 2500)
    (hrt : c.rampTime = 20) (hnr : c.noiseRange = 200)
    (ht1 : t ≤ 3 / 10) (hn : noise r 200 = -200) (hd : c.totalDistance = 0) :
    (tickVars Real.exp powf t r c).distance = 0 ∧
    (tickVars Real.exp powf t r c).instMileage = 0 := by
  have hth : throttle Real.exp c.maxThrottle c.rampTime t ≤ 200 := by
    have := throttle_le_linear c.maxThrottle c.rampTime t (by rw [hmt]; norm_num)
    rw [hmt, hrt] at this ⊢
    linarith
  have hrpm : (tickVars Real.exp powf t r c).rpm = 0 := by
    show clamp (throttle Real.exp c.maxThrottle c.rampTime t + ((noise r c.noiseRange : Int) : ℝ))
      0 c.maxRPM = 0
    apply clamp_of_le_min
    · rw [hnr, hn]
      push_cast
      linarith
    · rw [hm]; norm_num
  have hdist := tickVars_distance_of_rpm_zero Real.exp powf t r c (by rw [hl]; norm_num) hrpm
  refine ⟨hdist, ?_⟩
  apply (tickVars_instMileage Real.exp powf t r c).1
  show c.totalDistance + (tickVars Real.exp powf t r c).distance < 1 / 1000
  rw [hd, hdist]
  norm_num

/-- The pass at `t = 0.3` with noise `399` on the fallback members, with
`baseEfficiencyRPM = 0.001` and `mileageEfficiencyFactor = 1`: about half a
metre is covered, and the mileage is `5`. -/
theorem stale_active_pass (r : Nat) (c : DrivingSimulation ℝ)
    (hl : c.speedLimit = 150) (hm : c.maxRPM = 3000) (hmt : c.maxThrottle = 2500)
    (hrt : c.rampTime = 20) (hnr : c.noiseRange = 200) (hsf : c.speedFactor = 85 / 100)
    (hb : c.baseEfficiencyRPM = 1 / 1000) (hf : c.mileageEfficiencyFactor = 1)
    (hn : noise r 200 = 399) (hd : c.totalDistance = 0) :
    (tickVars Real.exp (fun x y : ℝ => x ^ y) (3 / 10) r c).totalDistance / 1000 < 1 / 1000 ∧
    ¬ (tickVars Real.exp (fun x y : ℝ => x ^ y) (3 / 10) r c).totalDistance < 1 / 1000 ∧
    (tickVars Real.exp (fun x y : ℝ => x ^ y) (3 / 10) r c).instFuelUsed > 1 / 10000 ∧
    (tickVars Real.exp (fun x y : ℝ => x ^ y) (3 / 10) r c).instMileage = 5 := by
  have hl0 : 0 ≤ c.speedLimit := by rw [hl]; norm_num
  have hth1 : throttle Real.exp c.maxThrottle c.rampTime (3 / 10) ≤ 38 := by
    have := throttle_le_linear c.maxThrottle c.rampTime (3 / 10) (by rw [hmt]; norm_num)
    rw [hmt, hrt] at this ⊢
    linarith
  have hth0 : 36 ≤ throttle Real.exp c.maxThrottle c.rampTime (3 / 10) := by
    have := throttle_ge_ratio c.maxThrottle c.rampTime (3 / 10) (by rw [hmt]; norm_num)
      (by rw [hrt]; norm_num)
    rw [hmt, hrt] at this ⊢
    have h2 : (36 : ℝ) ≤ 2500 * (3 / 10 / 20 / (1 + 3 / 10 / 20)) := by norm_num
    linarith
  have hrdef : (tickVars Real.exp (fun x y : ℝ => x ^ y) (3 / 10) r c).rpm =
      clamp (throttle Real.exp c.maxThrottle c.rampTime (3 / 10) +
        ((noise r c.noiseRange : Int) : ℝ)) 0 c.maxRPM := rfl
  have hr0 : 435 ≤ (tickVars Real.exp (fun x y : ℝ => x ^ y) (3 / 10) r c).rpm := by
    rw [hrdef]
    apply clamp_ge
    · rw [hnr, hn]; push_cast; linarith
    · rw [hm]; norm_num
  have hr1 : (tickVars Real.exp (fun x y : ℝ => x ^ y) (3 / 10) r c).rpm ≤ 437 := by
    rw [hrdef]
    apply clamp_le
    · rw [hnr, hn]; push_cast; linarith
    · norm_num
  have hkdef : (tickVars Real.exp (fun x y : ℝ => x ^ y) (3 / 10) r c).kmph =
      clamp ((tickVars Real.exp (fun x y : ℝ => x ^ y) (3 / 10) r c).rpm / c.maxRPM *
        c.speedLimit * c.speedFactor) 0 c.speedLimit := rfl
  have hk0 : 18 + 2 / 5 ≤ (tickVars Real.exp (fun x y : ℝ => x ^ y) (3 / 10) r c).kmph := by
    rw [hkdef, hm, hl, hsf]
    apply clamp_ge
    · linarith
    · norm_num
  have hk1 : (tickVars Real.exp (fun x y : ℝ => x ^ y) (3 / 10) r c).kmph ≤ 19 := by
    rw [hkdef, hm, hl, hsf]
    apply clamp_le
    · linarith
    · norm_num
  obtain ⟨_, _, hdd⟩ := tickVars_distance Real.exp (fun x y : ℝ => x ^ y) (3 / 10) r c hl0
  have htot : (tickVars Real.exp (fun x y : ℝ => x ^ y) (3 / 10) r c).totalDistance =
      (tickVars Real.exp (fun x y : ℝ => x ^ y) (3 / 10) r c).kmph / 36 := by
    show c.totalDistance + (tickVars Real.exp (fun x y : ℝ => x ^ y) (3 / 10) r c).distance = _
    rw [hd, hdd, zero_add]
  -- the dynamic mileage is clamped up to 5
  have hdm : (tickVars Real.exp (fun x y : ℝ => x ^ y) (3 / 10) r c).dynamicMileage = 5 := by
    have hx : (1 : ℝ) ≤ (tickVars Real.exp (fun x y : ℝ => x ^ y) (3 / 10) r c).rpm / (1 / 1000) := by
      rw [le_div_iff₀ (by norm_num)]
      linarith
    have hdmdef : (tickVars Real.exp (fun x y : ℝ => x ^ y) (3 / 10) r c).dynamicMileage =
        dynamicMileage (fun x y : ℝ => x ^ y)
          (tickVars Real.exp (fun x y : ℝ => x ^ y) (3 / 10) r c).rpm c.baseEfficiencyRPM
          c.mileageEfficiencyFactor := rfl
    rw [hdmdef, hb, hf, dynamicMileage_of_base _ _ _ _ (by norm_num) (le_trans zero_le_one hx)]
    show Ext.clamp (Ext.mul (Ext.recip
      (((tickVars Real.exp (fun x y : ℝ => x ^ y) (3 / 10) r c).rpm / (1 / 1000)) ^
        ((6 : ℝ) / 5))) 1) 5 25 = 5
    have hed : (1 : ℝ) ≤
        ((tickVars Real.exp (fun x y : ℝ => x ^ y) (3 / 10) r c).rpm / (1 / 1000)) ^
          ((6 : ℝ) / 5) := Real.one_le_rpow hx (by norm_num)
    have hne : ((tickVars Real.exp (fun x y : ℝ => x ^ y) (3 / 10) r c).rpm / (1 / 1000)) ^
        ((6 : ℝ) / 5) ≠ 0 := by
      intro h0
      rw [h0] at hed
      norm_num at hed
    simp only [Ext.recip, hne, if_false, Ext.mul, Ext.clamp, mul_one]
    apply clamp_of_le_min
    · have : 1 / ((tickVars Real.exp (fun x y : ℝ => x ^ y) (3 / 10) r c).rpm / (1 / 1000)) ^
          ((6 : ℝ) / 5) ≤ 1 := by
        rw [div_le_one (by linarith)]
        exact hed
      linarith
    · norm_num
  obtain ⟨_, _, hfdef, _⟩ := tickVars_fuel Real.exp (fun x y : ℝ => x ^ y) (3 / 10) r c hl0
  have hfuel : (tickVars Real.exp (fun x y : ℝ => x ^ y) (3 / 10) r c).instFuelUsed > 1 / 10000 := by
    rw [hfdef, hdm, hdd]
    have : (1 : ℝ) / 10000 < (18 + 2 / 5) / 36 / 1000 / 5 := by norm_num
    have h2 : ((18 : ℝ) + 2 / 5) / 36 / 1000 / 5 ≤
        (tickVars Real.exp (fun x y : ℝ => x ^ y) (3 / 10) r c).kmph / 36 / 1000 / 5 := by
      apply div_le_div_of_nonneg_right _ (by norm_num)
      apply div_le_div_of_nonneg_right _ (by norm_num)
      exact div_le_div_of_nonneg_right hk0 (by norm_num)
    linarith
  refine ⟨?_, ?_, hfuel, ?_⟩
  · rw [htot]
    have : (tickVars Real.exp (fun x y : ℝ => x ^ y) (3 / 10) r c).kmph / 36 / 1000 ≤
        19 / 36 / 1000 := by
      apply div_le_div_of_nonneg_right _ (by norm_num)
      exact div_le_div_of_nonneg_right hk1 (by norm_num)
    have h2 : (19 : ℝ) / 36 / 1000 < 1 / 1000 := by norm_num
    linarith
  · rw [htot]
    intro h
    have : ((18 : ℝ) + 2 / 5) / 36 ≤
        (tickVars Real.exp (fun x y : ℝ => x ^ y) (3 / 10) r c).kmph / 36 :=
      div_le_div_of_nonneg_right hk0 (by norm_num)
    have h2 : (1 : ℝ) / 1000 < (18 + 2 / 5) / 36 := by norm_num
    linarith
  · rw [tickVars_instMileage_of_fuel Real.exp (fun x y : ℝ => x ^ y) (3 / 10) r c hl0
      (by rw [hd]) hfuel, hdm]

end StaleRun

/-! ## The threshold on the total distance -/

section MileageRuleClaim

variable {α : Type} [LinearOrderedField α]

/-- C11, as the code runs: the threshold of line 165 is compared with
`totalDistance` in metres.  With terrain "plain", an unrecognized style and the
stale members `staleMembers`, the fourth pass of the run with the `rand()`
values `staleRand` brings `totalDistance` to about half a metre, which is below
0.001 km, and yet records the instantaneous mileage `5`, not `0`. -/
theorem C11_zero_threshold_is_metres :
    ∃ s, configure (DrivingSimulation.init (staleMembers : Indeterminate ℝ)) ["plain", "fast"] =
        Except.ok s ∧
      (tickVars Real.exp (fun x y : ℝ => x ^ y)
        (boundary Real.exp (fun x y : ℝ => x ^ y) staleRand s 3).1 (staleRand 3)
        (applyOverride (boundary Real.exp (fun x y : ℝ => x ^ y) staleRand s 3).2)).totalDistance /
          1000 < 1 / 1000 ∧
      (tickVars Real.exp (fun x y : ℝ => x ^ y)
        (boundary Real.exp (fun x y : ℝ => x ^ y) staleRand s 3).1 (staleRand 3)
        (applyOverride (boundary Real.exp (fun x y : ℝ => x ^ y) staleRand s 3).2)).instMileage =
          5 ∧
      (boundary Real.exp (fun x y : ℝ => x ^ y) staleRand s 4).2.totalDistance / 1000 <
        1 / 1000 ∧
      (boundary Real.exp (fun x y : ℝ => x ^ y) staleRand s 4).2.instMileage = 5 ∧
      (5 : ℝ) ∈ (boundary Real.exp (fun x y : ℝ => x ^ y) staleRand s 4).2.allMileages := by
  obtain ⟨s1, hc, hfresh, ht, hst, _, hplain, _, _, _, hb, hf⟩ :=
    configure_init (staleMembers : Indeterminate ℝ) "plain" "fast" [] (Or.inr (Or.inl rfl))
  have hcs := configureStyle_fallback s1 (by rw [hst]; decide) (by rw [hst]; decide)
    (by rw [hst]; decide)
  have hcfg : (configureStyle s1).terrain = "plain" ∧ (configureStyle s1).speedLimit = 150 ∧
      (configureStyle s1).maxRPM = 3000 ∧ (configureStyle s1).maxThrottle = 2500 ∧
      (configureStyle s1).rampTime = 20 ∧ (configureStyle s1).noiseRange = 200 ∧
      (configureStyle s1).speedFactor = 85 / 100 ∧
      (configureStyle s1).baseEfficiencyRPM = 1 / 1000 ∧
      (configureStyle s1).mileageEfficiencyFactor = 1 := by
    rw [hcs]
    exact ⟨ht, hplain rfl, rfl, rfl, rfl, rfl, rfl, hb, hf⟩
  obtain ⟨c1, c2, c3, c4, c5, c6, c7, c8, c9⟩ := hcfg
  have hno1 : ¬ ((configureStyle s1).terrain = "hill" ∧
      (configureStyle s1).style = "conservative") := by
    rw [c1]
    exact fun h => absurd h.1 (by decide)
  have hno2 : ¬ ((configureStyle s1).terrain = "downward" ∧
      (configureStyle s1).style = "aggressive") := by
    rw [c1]
    exact fun h => absurd h.1 (by decide)
  have hcfgk := boundary_sameConfig Real.exp (fun x y : ℝ => x ^ y) staleRand _ hno1 hno2
  -- the first three passes cover no distance
  have hidle : ∀ k, k ≤ 3 →
      (boundary Real.exp (fun x y : ℝ => x ^ y) staleRand (configureStyle s1) k).2.totalDistance =
        0 := by
    intro k
    induction k with
    | zero =>
      intro _
      exact hfresh.2.2.1
    | succ k ih =>
      intro hk
      have ihk := ih (by omega)
      obtain ⟨⟨_, _, a3, a4, a5, a6, a7, _⟩, hov⟩ := hcfgk k
      have htime : (boundary Real.exp (fun x y : ℝ => x ^ y) staleRand (configureStyle s1) k).1 ≤
          3 / 10 := by
        rw [boundary_time]
        unfold dt
        have : (k : ℝ) ≤ 2 := by exact_mod_cast (by omega : k ≤ 2)
        linarith
      have hnoise : noise (staleRand k) 200 = -200 := by
        have : staleRand k = 0 := by
          unfold staleRand
          rw [if_neg (by omega)]
        rw [this]
        decide
      have hpass := stale_idle_pass (fun x y : ℝ => x ^ y)
        (boundary Real.exp (fun x y : ℝ => x ^ y) staleRand (configureStyle s1) k).1
        (staleRand k)
        (boundary Real.exp (fun x y : ℝ => x ^ y) staleRand (configureStyle s1) k).2
        (a3.trans c2) (a4.trans c3) (a5.trans c4) (a6.trans c5) (a7.trans c6) htime hnoise ihk
      rw [boundary_succ, (tick_accum Real.exp _ _ _ _).2.1, hov, hpass.1, ihk, add_zero]
  -- the fourth pass
  obtain ⟨⟨_, _, a3, a4, a5, a6, a7, a8, a9, a10⟩, hov⟩ := hcfgk 3
  have htime : (boundary Real.exp (fun x y : ℝ => x ^ y) staleRand (configureStyle s1) 3).1 =
      3 / 10 := by
    rw [boundary_time]
    unfold dt
    norm_num
  have hpass := stale_active_pass (staleRand 3)
    (boundary Real.exp (fun x y : ℝ => x ^ y) staleRand (configureStyle s1) 3).2
    (a3.trans c2) (a4.trans c3) (a5.trans c4) (a6.trans c5) (a7.trans c6) (a8.trans c7)
    (a9.trans c8) (a10.trans c9) (by decide) (hidle 3 (le_refl 3))
  rw [← htime] at hpass
  obtain ⟨p1, _, _, p4⟩ := hpass
  refine ⟨_, hc, ?_, ?_, ?_, ?_, ?_⟩
  · rw [hov]; exact p1
  · rw [hov]; exact p4
  · have h4 : (boundary Real.exp (fun x y : ℝ => x ^ y) staleRand (configureStyle s1) 4).2.totalDistance =
        (tickVars Real.exp (fun x y : ℝ => x ^ y)
          (boundary Real.exp (fun x y : ℝ => x ^ y) staleRand (configureStyle s1) 3).1
          (staleRand 3)
          (applyOverride
            (boundary Real.exp (fun x y : ℝ => x ^ y) staleRand (configureStyle s1) 3).2)).totalDistance :=
      rfl
    rw [h4, hov]
    exact p1
  · have h4 : (boundary Real.exp (fun x y : ℝ => x ^ y) staleRand (configureStyle s1) 4).2.instMileage =
        (tickVars Real.exp (fun x y : ℝ => x ^ y)
          (boundary Real.exp (fun x y : ℝ => x ^ y) staleRand (configureStyle s1) 3).1
          (staleRand 3)
          (applyOverride
            (boundary Real.exp (fun x y : ℝ => x ^ y) staleRand (configureStyle s1) 3).2)).instMileage :=
      rfl
    rw [h4, hov]
    exact p4
  · rw [boundary_succ, (tick_accum Real.exp _ _ _ _).2.2.2.2.2.2, hov, p4]
    simp

/-- C11, amended: in every pass `totalDistance` is the distance so far plus the
distance of the pass, which is `kmph / 3.6` metres per second times `0.1`
seconds, so it is in metres; the instantaneous mileage is `0` if
`totalDistance` is below `0.001` (metres), otherwise the distance of the pass
in km divided by its fuel use if that fuel use exceeds `0.0001`, otherwise the
instantaneous mileage of the pass before (the `lastMileage` of the object);
and this value is what the pass records and keeps for the next pass. -/
theorem C11_instMileage_rule (expf : α → α) (powf : α → α → α) (rnd : Nat → Nat)
    (s : DrivingSimulation α) (k : Nat) :
    (tickVars expf powf (boundary expf powf rnd s k).1 (rnd k)
        (applyOverride (boundary expf powf rnd s k).2)).distance =
      (tickVars expf powf (boundary expf powf rnd s k).1 (rnd k)
        (applyOverride (boundary expf powf rnd s k).2)).kmph / (18 / 5) * (1 / 10) ∧
    (tickVars expf powf (boundary expf powf rnd s k).1 (rnd k)
        (applyOverride (boundary expf powf rnd s k).2)).totalDistance =
      (boundary expf powf rnd s k).2.totalDistance +
        (tickVars expf powf (boundary expf powf rnd s k).1 (rnd k)
          (applyOverride (boundary expf powf rnd s k).2)).distance ∧
    ((tickVars expf powf (boundary expf powf rnd s k).1 (rnd k)
        (applyOverride (boundary expf powf rnd s k).2)).totalDistance < 1 / 1000 →
      (tickVars expf powf (boundary expf powf rnd s k).1 (rnd k)
        (applyOverride (boundary expf powf rnd s k).2)).instMileage = 0) ∧
    (¬ (tickVars expf powf (boundary expf powf rnd s k).1 (rnd k)
        (applyOverride (boundary expf powf rnd s k).2)).totalDistance < 1 / 1000 →
      (tickVars expf powf (boundary expf powf rnd s k).1 (rnd k)
        (applyOverride (boundary expf powf rnd s k).2)).instFuelUsed > 1 / 10000 →
      (tickVars expf powf (boundary expf powf rnd s k).1 (rnd k)
        (applyOverride (boundary expf powf rnd s k).2)).instMileage =
        (tickVars expf powf (boundary expf powf rnd s k).1 (rnd k)
          (applyOverride (boundary expf powf rnd s k).2)).distance / 1000 /
        (tickVars expf powf (boundary expf powf rnd s k).1 (rnd k)
          (applyOverride (boundary expf powf rnd s k).2)).instFuelUsed) ∧
    (¬ (tickVars expf powf (boundary expf powf rnd s k).1 (rnd k)
        (applyOverride (boundary expf powf rnd s k).2)).totalDistance < 1 / 1000 →
      ¬ (tickVars expf powf (boundary expf powf rnd s k).1 (rnd k)
        (applyOverride (boundary expf powf rnd s k).2)).instFuelUsed > 1 / 10000 →
      (tickVars expf powf (boundary expf powf rnd s k).1 (rnd k)
        (applyOverride (boundary expf powf rnd s k).2)).instMileage =
        (boundary expf powf rnd s k).2.lastMileage) ∧
    (boundary expf powf rnd s (k + 1)).2.lastMileage =
      (tickVars expf powf (boundary expf powf rnd s k).1 (rnd k)
        (applyOverride (boundary expf powf rnd s k).2)).instMileage ∧
    (boundary expf powf rnd s (k + 1)).2.instMileage =
      (tickVars expf powf (boundary expf powf rnd s k).1 (rnd k)
        (applyOverride (boundary expf powf rnd s k).2)).instMileage ∧
    (boundary expf powf rnd s (k + 1)).2.allMileages =
      (boundary expf powf rnd s k).2.allMileages ++
        [(tickVars expf powf (boundary expf powf rnd s k).1 (rnd k)
          (applyOverride (boundary expf powf rnd s k).2)).instMileage] := by
  obtain ⟨r1, r2, r3⟩ := tickVars_instMileage expf powf (boundary expf powf rnd s k).1 (rnd k)
    (applyOverride (boundary expf powf rnd s k).2)
  obtain ⟨_, _, e3, e4⟩ := applyOverride_accum (boundary expf powf rnd s k).2
  refine ⟨rfl, ?_, r1, r2, ?_, rfl, rfl, (tick_accum expf powf _ _ _).2.2.2.2.2.2⟩
  · show (applyOverride (boundary expf powf rnd s k).2).totalDistance +
      (tickVars expf powf (boundary expf powf rnd s k).1 (rnd k)
        (applyOverride (boundary expf powf rnd s k).2)).distance = _
    rw [e3]
  · intro h1 h2
    rw [r3 h1 h2, e4]

end MileageRuleClaim

/-! ## The members in force in a pass -/

section ActiveConfig

variable {α : Type} [LinearOrderedField α]

theorem applyOverride_congr (a b : DrivingSimulation α) (h : SameConfig a b) :
    SameConfig (applyOverride a) (applyOverride b) := by
  obtain ⟨h1, h2, h3, h4, h5, h6, h7, h8, h9, h10⟩ := h
  by_cases c1 : b.terrain = "hill" ∧ b.style = "conservative"
  · rw [applyOverride_hill_conservative b c1.1 c1.2,
      applyOverride_hill_conservative a (h1.trans c1.1) (h2.trans c1.2)]
    exact ⟨h1, h2, h3, rfl, rfl, rfl, rfl, rfl, rfl, rfl⟩
  · by_cases c2 : b.terrain = "downward" ∧ b.style = "aggressive"
    · rw [applyOverride_downward_aggressive b c2.1 c2.2,
        applyOverride_downward_aggressive a (h1.trans c2.1) (h2.trans c2.2)]
      exact ⟨h1, h2, h3, rfl, rfl, rfl, rfl, rfl, rfl, rfl⟩
    · rw [applyOverride_other b c1 c2,
        applyOverride_other a (by rw [h1, h2]; exact c1) (by rw [h1, h2]; exact c2)]
      exact ⟨h1, h2, h3, h4, h5, h6, h7, h8, h9, h10⟩

/-- The members in force in a pass (those the override blocks leave) are the
same in every pass of a run. -/
theorem active_sameConfig (expf : α → α) (powf : α → α → α) (rnd : Nat → Nat)
    (s : DrivingSimulation α) (k : Nat) :
    SameConfig (applyOverride (boundary expf powf rnd s k).2) (applyOverride s) := by
  induction k with
  | zero => exact SameConfig.refl _
  | succ k ih =>
    have h1 := applyOverride_congr _ _
      (tick_sameConfig expf powf (boundary expf powf rnd s k).1 (rnd k)
        (boundary expf powf rnd s k).2)
    rw [applyOverride_idem] at h1
    rw [boundary_succ]
    obtain ⟨a1, a2, a3, a4, a5, a6, a7, a8, a9, a10⟩ := h1
    obtain ⟨b1, b2, b3, b4, b5, b6, b7, b8, b9, b10⟩ := ih
    exact ⟨a1.trans b1, a2.trans b2, a3.trans b3, a4.trans b4, a5.trans b5, a6.trans b6,
      a7.trans b7, a8.trans b8, a9.trans b9, a10.trans b10⟩

theorem validPairBounds_of_sameConfig (a b : DrivingSimulation α) (h : SameConfig a b)
    (hb : ValidPairBounds b) : ValidPairBounds a := by
  obtain ⟨_, _, h3, h4, _, _, _, h8, h9, h10⟩ := h
  unfold ValidPairBounds
  rw [h3, h4, h8, h9, h10]
  exact hb

/-- For each of the nine valid pairs the members in force in the passes meet
`ValidPairBounds`. -/
theorem validPairBounds_active (s1 : DrivingSimulation α)
    (ht : s1.terrain = "hill" ∧ s1.speedLimit = 100 ∨ s1.terrain = "plain" ∧ s1.speedLimit = 150 ∨
      s1.terrain = "downward" ∧ s1.speedLimit = 70)
    (hs : s1.style = "conservative" ∨ s1.style = "moderate" ∨ s1.style = "aggressive") :
    ValidPairBounds (applyOverride (configureStyle s1)) := by
  rcases ht with ⟨ht, hl⟩ | ⟨ht, hl⟩ | ⟨ht, hl⟩ <;> rcases hs with hs | hs | hs <;>
    simp [ValidPairBounds, applyOverride, overrideHillConservative, overrideDownwardAggressive,
      configureStyle, ht, hs, hl] <;> norm_num

end ActiveConfig

/-! ## The first metre of a run with a valid pair -/

section OneMetre

/-- With the real power function, a pass within `ValidPairBounds` that covers
less than one metre uses less than `0.0001` litre. -/
theorem tickVars_fuel_below_one_metre (expf : ℝ → ℝ) (t : ℝ) (r : Nat) (c : DrivingSimulation ℝ)
    (hc : ValidPairBounds c)
    (hd : (tickVars expf (fun x y : ℝ => x ^ y) t r c).distance < 1) :
    (tickVars expf (fun x y : ℝ => x ^ y) t r c).instFuelUsed < 1 / 10000 := by
  obtain ⟨h1, h2, h3, h4, h5, h6⟩ := hc
  have hl0 : 0 ≤ c.speedLimit := by linarith
  obtain ⟨d0, _, hdd⟩ := tickVars_distance expf (fun x y : ℝ => x ^ y) t r c hl0
  obtain ⟨hr0, _⟩ := (tickVars_bounds expf (fun x y : ℝ => x ^ y) t r c (le_of_lt h1) hl0).1
  have hk : (tickVars expf (fun x y : ℝ => x ^ y) t r c).kmph < 36 := by
    rw [hdd] at hd
    have := (div_lt_iff₀ (by norm_num : (0 : ℝ) < 36)).mp hd
    linarith
  have hraw : (tickVars expf (fun x y : ℝ => x ^ y) t r c).rpm / c.maxRPM * c.speedLimit *
      c.speedFactor < 36 := by
    by_contra hge
    have : (36 : ℝ) ≤ (tickVars expf (fun x y : ℝ => x ^ y) t r c).kmph :=
      clamp_ge 36 _ 0 c.speedLimit (not_lt.mp hge) (by linarith)
    linarith
  have hlt : (tickVars expf (fun x y : ℝ => x ^ y) t r c).rpm < c.baseEfficiencyRPM := by
    have hls : 0 < c.speedLimit * c.speedFactor := mul_pos (by linarith) h3
    have e1 : (tickVars expf (fun x y : ℝ => x ^ y) t r c).rpm / c.maxRPM * c.speedLimit *
        c.speedFactor =
        (tickVars expf (fun x y : ℝ => x ^ y) t r c).rpm * (c.speedLimit * c.speedFactor) /
          c.maxRPM := by ring
    rw [e1, div_lt_iff₀ h1] at hraw
    have : (tickVars expf (fun x y : ℝ => x ^ y) t r c).rpm * (c.speedLimit * c.speedFactor) <
        c.baseEfficiencyRPM * (c.speedLimit * c.speedFactor) := by
      calc (tickVars expf (fun x y : ℝ => x ^ y) t r c).rpm * (c.speedLimit * c.speedFactor)
          < 36 * c.maxRPM := hraw
        _ ≤ c.speedLimit * c.speedFactor * c.baseEfficiencyRPM := h6
        _ = c.baseEfficiencyRPM * (c.speedLimit * c.speedFactor) := by ring
    exact lt_of_mul_lt_mul_right this (le_of_lt hls)
  have hx0 : 0 ≤ (tickVars expf (fun x y : ℝ => x ^ y) t r c).rpm / c.baseEfficiencyRPM :=
    div_nonneg hr0 (le_of_lt h4)
  have hx1 : (tickVars expf (fun x y : ℝ => x ^ y) t r c).rpm / c.baseEfficiencyRPM ≤ 1 := by
    rw [div_le_one h4]
    exact le_of_lt hlt
  have hed1 : ((tickVars expf (fun x y : ℝ => x ^ y) t r c).rpm / c.baseEfficiencyRPM) ^
      ((6 : ℝ) / 5) ≤ 1 := Real.rpow_le_one hx0 hx1 (by norm_num)
  have hed0 : 0 ≤ ((tickVars expf (fun x y : ℝ => x ^ y) t r c).rpm / c.baseEfficiencyRPM) ^
      ((6 : ℝ) / 5) := Real.rpow_nonneg hx0 _
  have hdm : 10 ≤ (tickVars expf (fun x y : ℝ => x ^ y) t r c).dynamicMileage := by
    have hdmdef : (tickVars expf (fun x y : ℝ => x ^ y) t r c).dynamicMileage =
        dynamicMileage (fun x y : ℝ => x ^ y) (tickVars expf (fun x y : ℝ => x ^ y) t r c).rpm
          c.baseEfficiencyRPM c.mileageEfficiencyFactor := rfl
    rw [hdmdef, dynamicMileage_of_base _ _ _ _ (ne_of_gt h4) hx0]
    show 10 ≤ Ext.clamp (Ext.mul (Ext.recip
      (((tickVars expf (fun x y : ℝ => x ^ y) t r c).rpm / c.baseEfficiencyRPM) ^
        ((6 : ℝ) / 5))) c.mileageEfficiencyFactor) 5 25
    by_cases hz : ((tickVars expf (fun x y : ℝ => x ^ y) t r c).rpm / c.baseEfficiencyRPM) ^
        ((6 : ℝ) / 5) = 0
    · have hf : 0 < c.mileageEfficiencyFactor := by linarith
      simp only [Ext.recip, hz, if_true, Ext.mul, hf, Ext.clamp, stdMax]
      norm_num
    · have hpos := lt_of_le_of_ne hed0 (Ne.symm hz)
      simp only [Ext.recip, hz, if_false, Ext.mul, Ext.clamp]
      apply clamp_ge
      · have : 1 ≤ 1 / ((tickVars expf (fun x y : ℝ => x ^ y) t r c).rpm /
            c.baseEfficiencyRPM) ^ ((6 : ℝ) / 5) := by
          rw [le_div_iff₀ hpos]
          linarith
        nlinarith
      · norm_num
  obtain ⟨_, _, hfdef, _⟩ := tickVars_fuel expf (fun x y : ℝ => x ^ y) t r c hl0
  rw [hfdef, div_lt_iff₀ (by linarith)]
  have : (tickVars expf (fun x y : ℝ => x ^ y) t r c).distance / 1000 < 1 / 1000 := by
    apply div_lt_div_of_pos_right hd (by norm_num)
  nlinarith

/-- For the nine valid (terrain, style) pairs, with the real power function,
a pass that leaves `totalDistance` below `0.001` km (one metre) records the
instantaneous mileage `0`: on these runs the threshold `0.001` on metres of
line 165 and a threshold of `0.001` km give the same recorded values. -/
theorem instMileage_zero_below_one_metre (g : Indeterminate ℝ) (terrain style : String)
    (rest : List String)
    (hterrain : terrain = "hill" ∨ terrain = "plain" ∨ terrain = "downward")
    (hstyle : style = "conservative" ∨ style = "moderate" ∨ style = "aggressive") :
    ∃ s, configure (DrivingSimulation.init g) (terrain :: style :: rest) = Except.ok s ∧
      ∀ (expf : ℝ → ℝ) (rnd : Nat → Nat) (k : Nat),
        (tickVars expf (fun x y : ℝ => x ^ y) (boundary expf (fun x y : ℝ => x ^ y) rnd s k).1
          (rnd k)
          (applyOverride (boundary expf (fun x y : ℝ => x ^ y) rnd s k).2)).totalDistance / 1000 <
            1 / 1000 →
        (tickVars expf (fun x y : ℝ => x ^ y) (boundary expf (fun x y : ℝ => x ^ y) rnd s k).1
          (rnd k)
          (applyOverride (boundary expf (fun x y : ℝ => x ^ y) rnd s k).2)).instMileage = 0 := by
  obtain ⟨s1, hc, hfresh, ht, hst, l1, l2, l3, h70, _, _⟩ :=
    configure_init g terrain style rest hterrain
  have hl : 0 ≤ (configureStyle s1).speedLimit := by
    rw [configureStyle_speedLimit]; linarith
  have hvalid : ValidPairBounds (applyOverride (configureStyle s1)) := by
    apply validPairBounds_active
    · rcases hterrain with h | h | h
      · exact Or.inl ⟨ht.trans h, l1 h⟩
      · exact Or.inr (Or.inl ⟨ht.trans h, l2 h⟩)
      · exact Or.inr (Or.inr ⟨ht.trans h, l3 h⟩)
    · rw [hst]; exact hstyle
  refine ⟨_, hc, ?_⟩
  intro expf rnd
  have key : ∀ k,
      ((boundary expf (fun x y : ℝ => x ^ y) rnd (configureStyle s1) k).2.totalDistance < 1 →
        (boundary expf (fun x y : ℝ => x ^ y) rnd (configureStyle s1) k).2.lastMileage = 0) ∧
      ((tickVars expf (fun x y : ℝ => x ^ y)
          (boundary expf (fun x y : ℝ => x ^ y) rnd (configureStyle s1) k).1 (rnd k)
          (applyOverride
            (boundary expf (fun x y : ℝ => x ^ y) rnd (configureStyle s1) k).2)).totalDistance < 1 →
        (tickVars expf (fun x y : ℝ => x ^ y)
          (boundary expf (fun x y : ℝ => x ^ y) rnd (configureStyle s1) k).1 (rnd k)
          (applyOverride
            (boundary expf (fun x y : ℝ => x ^ y) rnd (configureStyle s1) k).2)).instMileage = 0) := by
    intro k
    induction k with
    | zero =>
      have h0 : (boundary expf (fun x y : ℝ => x ^ y) rnd (configureStyle s1) 0).2.lastMileage = 0 :=
        hfresh.2.2.2.1
      have hd0 : (boundary expf (fun x y : ℝ => x ^ y) rnd (configureStyle s1) 0).2.totalDistance =
          0 := hfresh.2.2.1
      refine ⟨fun _ => h0, ?_⟩
      intro hlt
      obtain ⟨_, _, e3, e4⟩ := applyOverride_accum
        (boundary expf (fun x y : ℝ => x ^ y) rnd (configureStyle s1) 0).2
      have hvb := validPairBounds_of_sameConfig _ _
        (active_sameConfig expf (fun x y : ℝ => x ^ y) rnd (configureStyle s1) 0) hvalid
      have hl' : 0 ≤ (applyOverride
          (boundary expf (fun x y : ℝ => x ^ y) rnd (configureStyle s1) 0).2).speedLimit := by
        rw [active_speedLimit]; exact hl
      obtain ⟨dn, _, _⟩ := tickVars_distance expf (fun x y : ℝ => x ^ y)
        (boundary expf (fun x y : ℝ => x ^ y) rnd (configureStyle s1) 0).1 (rnd 0) _ hl'
      have htot : (tickVars expf (fun x y : ℝ => x ^ y)
          (boundary expf (fun x y : ℝ => x ^ y) rnd (configureStyle s1) 0).1 (rnd 0)
          (applyOverride
            (boundary expf (fun x y : ℝ => x ^ y) rnd (configureStyle s1) 0).2)).totalDistance =
          (applyOverride
            (boundary expf (fun x y : ℝ => x ^ y) rnd (configureStyle s1) 0).2).totalDistance +
          (tickVars expf (fun x y : ℝ => x ^ y)
            (boundary expf (fun x y : ℝ => x ^ y) rnd (configureStyle s1) 0).1 (rnd 0)
            (applyOverride
              (boundary expf (fun x y : ℝ => x ^ y) rnd (configureStyle s1) 0).2)).distance := rfl
      rw [htot, e3, hd0, zero_add] at hlt
      have hfu := tickVars_fuel_below_one_metre expf _ _ _ hvb hlt
      obtain ⟨r1, _, r3⟩ := tickVars_instMileage expf (fun x y : ℝ => x ^ y)
        (boundary expf (fun x y : ℝ => x ^ y) rnd (configureStyle s1) 0).1 (rnd 0)
        (applyOverride (boundary expf (fun x y : ℝ => x ^ y) rnd (configureStyle s1) 0).2)
      by_cases hth : (tickVars expf (fun x y : ℝ => x ^ y)
          (boundary expf (fun x y : ℝ => x ^ y) rnd (configureStyle s1) 0).1 (rnd 0)
          (applyOverride
            (boundary expf (fun x y : ℝ => x ^ y) rnd (configureStyle s1) 0).2)).totalDistance <
          1 / 1000
      · exact r1 hth
      · rw [r3 hth (not_lt.mpr (le_of_lt hfu)), e4]
        exact h0
    | succ k ih =>
      obtain ⟨_, ih2⟩ := ih
      have hlast : (boundary expf (fun x y : ℝ => x ^ y) rnd (configureStyle s1) (k + 1)).2.totalDistance <
          1 →
          (boundary expf (fun x y : ℝ => x ^ y) rnd (configureStyle s1) (k + 1)).2.lastMileage =
            0 := by
        intro hlt
        exact ih2 hlt
      refine ⟨hlast, ?_⟩
      intro hlt
      obtain ⟨_, _, e3, e4⟩ := applyOverride_accum
        (boundary expf (fun x y : ℝ => x ^ y) rnd (configureStyle s1) (k + 1)).2
      have hvb := validPairBounds_of_sameConfig _ _
        (active_sameConfig expf (fun x y : ℝ => x ^ y) rnd (configureStyle s1) (k + 1)) hvalid
      have hl' : 0 ≤ (applyOverride
          (boundary expf (fun x y : ℝ => x ^ y) rnd (configureStyle s1) (k + 1)).2).speedLimit := by
        rw [active_speedLimit]; exact hl
      obtain ⟨dn, _, _⟩ := tickVars_distance expf (fun x y : ℝ => x ^ y)
        (boundary expf (fun x y : ℝ => x ^ y) rnd (configureStyle s1) (k + 1)).1 (rnd (k + 1)) _ hl'
      have hprev := (boundary_fuel_distance expf (fun x y : ℝ => x ^ y) rnd _ hfresh hl (k + 1)).1
      have htot : (tickVars expf (fun x y : ℝ => x ^ y)
          (boundary expf (fun x y : ℝ => x ^ y) rnd (configureStyle s1) (k + 1)).1 (rnd (k + 1))
          (applyOverride
            (boundary expf (fun x y : ℝ => x ^ y) rnd (configureStyle s1) (k + 1)).2)).totalDistance =
          (applyOverride
            (boundary expf (fun x y : ℝ => x ^ y) rnd (configureStyle s1) (k + 1)).2).totalDistance +
          (tickVars expf (fun x y : ℝ => x ^ y)
            (boundary expf (fun x y : ℝ => x ^ y) rnd (configureStyle s1) (k + 1)).1 (rnd (k + 1))
            (applyOverride
              (boundary expf (fun x y : ℝ => x ^ y) rnd (configureStyle s1) (k + 1)).2)).distance :=
        rfl
      rw [htot, e3] at hlt
      have hfu := tickVars_fuel_below_one_metre expf _ _ _ hvb (by linarith)
      obtain ⟨r1, _, r3⟩ := tickVars_instMileage expf (fun x y : ℝ => x ^ y)
        (boundary expf (fun x y : ℝ => x ^ y) rnd (configureStyle s1) (k + 1)).1 (rnd (k + 1))
        (applyOverride (boundary expf (fun x y : ℝ => x ^ y) rnd (configureStyle s1) (k + 1)).2)
      by_cases hth : (tickVars expf (fun x y : ℝ => x ^ y)
          (boundary expf (fun x y : ℝ => x ^ y) rnd (configureStyle s1) (k + 1)).1 (rnd (k + 1))
          (applyOverride
            (boundary expf (fun x y : ℝ => x ^ y) rnd (configureStyle s1) (k + 1)).2)).totalDistance <
          1 / 1000
      · exact r1 hth
      · rw [r3 hth (not_lt.mpr (le_of_lt hfu)), e4]
        exact hlast (by linarith)
  intro k hk
  apply (key k).2
  have := (div_lt_iff₀ (by norm_num : (0 : ℝ) < 1000)).mp hk
  linarith

end OneMetre

/-! ## Powers of two -/

section PowersOfTwo

variable {α : Type} [LinearOrderedField α]

theorem two_zpow_pos (k : ℤ) : (0 : α) < (2 : α) ^ k := zpow_pos (by norm_num) _

theorem two_zpow_le (j k : ℤ) (h : j ≤ k) : (2 : α) ^ j ≤ (2 : α) ^ k :=
  zpow_le_zpow_right₀ (by norm_num) h

theorem two_pow_mul_zpow (d : ℕ) (e : ℤ) :
    ((2 ^ d : ℤ) : α) * (2 : α) ^ e = (2 : α) ^ (e + (d : ℤ)) := by
  rw [zpow_add₀ (by norm_num : (2 : α) ≠ 0), zpow_natCast]
  push_cast
  ring

theorem two_pow_mul_zpow_sub (d : ℕ) (e : ℤ) :
    ((2 ^ d : ℤ) : α) * (2 : α) ^ (e - (d : ℤ)) = (2 : α) ^ e := by
  rw [two_pow_mul_zpow]
  congr 1
  omega

end PowersOfTwo

/-! ## Rounding to binary32 -/

section Float32

variable {α : Type} [LinearOrderedField α] [FloorRing α]

theorem ulp_pos (x : α) : 0 < ulp x := zpow_pos (by norm_num) _

theorem roundTiesEven_intCast (z : ℤ) : roundTiesEven (z : α) = z := by
  unfold roundTiesEven
  rw [Int.floor_intCast]
  simp

theorem floor_le_roundTiesEven (y : α) : ⌊y⌋ ≤ roundTiesEven y := by
  unfold roundTiesEven
  split_ifs <;> omega

theorem roundTiesEven_le_floor_add_one (y : α) : roundTiesEven y ≤ ⌊y⌋ + 1 := by
  unfold roundTiesEven
  split_ifs <;> omega

theorem le_roundTiesEven (y : α) (z : ℤ) (h : (z : α) ≤ y) : z ≤ roundTiesEven y :=
  le_trans (Int.le_floor.mpr h) (floor_le_roundTiesEven y)

theorem roundTiesEven_le (y : α) (z : ℤ) (h : y ≤ (z : α)) : roundTiesEven y ≤ z := by
  rcases lt_or_eq_of_le h with h1 | h1
  · have h2 : ⌊y⌋ < z := Int.floor_lt.mpr h1
    have h3 := roundTiesEven_le_floor_add_one y
    omega
  · rw [h1, roundTiesEven_intCast]

theorem f32_nonpos (y : α) (h : y ≤ 0) : f32 y ≤ 0 := by
  unfold f32
  have h1 : roundTiesEven (y / ulp y) ≤ (0 : ℤ) :=
    roundTiesEven_le _ 0 (by simpa using div_nonpos_of_nonpos_of_nonneg h (ulp_pos y).le)
  have h2 : (roundTiesEven (y / ulp y) : α) ≤ 0 := by exact_mod_cast h1
  exact mul_nonpos_of_nonpos_of_nonneg h2 (ulp_pos y).le

theorem log_two_le (y : α) (hy : 0 < y) : (2 : α) ^ Int.log 2 y ≤ y := by
  have h := Int.zpow_log_le_self (b := 2) (r := y) (by norm_num) hy
  simpa using h

theorem lt_log_two_succ (y : α) : y < (2 : α) ^ (Int.log 2 y + 1) := by
  have h := Int.lt_zpow_succ_log_self (b := 2) (by norm_num) y
  simpa using h

theorem le_log_two (y : α) (hy : 0 < y) (k : ℤ) (h : (2 : α) ^ k ≤ y) : k ≤ Int.log 2 y := by
  have h1 := (Int.zpow_le_iff_le_log (b := 2) (x := k) (r := y) (by norm_num) hy).mp
    (by simpa using h)
  exact h1

theorem log_two_lt (y : α) (hy : 0 < y) (k : ℤ) (h : y < (2 : α) ^ k) : Int.log 2 y < k := by
  have h1 := (Int.lt_zpow_iff_log_lt (b := 2) (x := k) (r := y) (by norm_num) hy).mp
    (by simpa using h)
  exact h1

/-- The value `f32 x` on a binade whose exponent `b` is known. -/
theorem f32_of_binade (x : α) (b : ℤ) (h : binade x = b) :
    f32 x = (roundTiesEven (x / (2 : α) ^ (b - 23)) : α) * (2 : α) ^ (b - 23) := by
  unfold f32 ulp
  rw [h]

/-- An integer multiple of a power of two with fewer than 24 significant bits
and an exponent in the binary32 range is its own binary32 value. -/
theorem f32_of_int_mul (n j : ℤ) (hn : |n| < 2 ^ 24) (hj : -149 ≤ j) :
    f32 ((n : α) * (2 : α) ^ j) = (n : α) * (2 : α) ^ j := by
  rcases eq_or_ne n 0 with h0 | h0
  · subst h0
    simp [f32, roundTiesEven]
  have hpos : (0 : α) < |(n : α) * (2 : α) ^ j| := by
    apply abs_pos.mpr
    exact mul_ne_zero (by exact_mod_cast h0) (two_zpow_pos j).ne.symm
  have habs : |(n : α) * (2 : α) ^ j| = ((|n| : ℤ) : α) * (2 : α) ^ j := by
    rw [abs_mul, abs_of_pos (a := (2 : α) ^ j) (two_zpow_pos j), Int.cast_abs]
  have hlt : |(n : α) * (2 : α) ^ j| < (2 : α) ^ (j + ((24 : ℕ) : ℤ)) := by
    rw [habs, ← two_pow_mul_zpow]
    apply mul_lt_mul_of_pos_right _ (two_zpow_pos j)
    exact_mod_cast hn
  have hL : Int.log 2 |(n : α) * (2 : α) ^ j| < j + ((24 : ℕ) : ℤ) := log_two_lt _ hpos _ hlt
  have hb : binade ((n : α) * (2 : α) ^ j) - 23 ≤ j := by
    unfold binade
    rcases max_cases (Int.log 2 |(n : α) * (2 : α) ^ j|) (-126) with ⟨h1, _⟩ | ⟨h1, _⟩ <;>
      rw [h1] <;> omega
  obtain ⟨d, hd⟩ := Int.eq_ofNat_of_zero_le (sub_nonneg.mpr hb)
  have hj2 : j = binade ((n : α) * (2 : α) ^ j) - 23 + (d : ℤ) := by omega
  have hpow : (2 : α) ^ j = ((2 ^ d : ℤ) : α) * ulp ((n : α) * (2 : α) ^ j) := by
    unfold ulp
    rw [two_pow_mul_zpow]
    exact congrArg (fun e : ℤ => (2 : α) ^ e) hj2
  have hq : (n : α) * (2 : α) ^ j / ulp ((n : α) * (2 : α) ^ j) = ((n * 2 ^ d : ℤ) : α) := by
    rw [div_eq_iff (ulp_pos _).ne.symm]
    nth_rewrite 1 [hpow]
    push_cast
    ring
  unfold f32
  rw [hq, roundTiesEven_intCast]
  nth_rewrite 2 [hpow]
  push_cast
  ring

/-- Rounding does not cross a power of two from above. -/
theorem le_f32_of_le (y : α) (k : ℤ) (hk : -126 ≤ k) (h : (2 : α) ^ k ≤ y) :
    (2 : α) ^ k ≤ f32 y := by
  have hy : 0 < y := lt_of_lt_of_le (two_zpow_pos k) h
  have habs : |y| = y := abs_of_pos hy
  have hL : k ≤ Int.log 2 y := le_log_two y hy k h
  have hb : binade y = Int.log 2 y := by
    unfold binade
    rw [habs]
    exact max_eq_left (by omega)
  rw [f32_of_binade y _ hb]
  have h2 : ((2 ^ 23 : ℤ) : α) * (2 : α) ^ (Int.log 2 y - 23) = (2 : α) ^ Int.log 2 y :=
    two_pow_mul_zpow_sub 23 (Int.log 2 y)
  have h1 : ((2 ^ 23 : ℤ) : α) ≤ y / (2 : α) ^ (Int.log 2 y - 23) := by
    rw [le_div_iff₀ (two_zpow_pos _), h2]
    exact log_two_le y hy
  have h3 : (2 ^ 23 : ℤ) ≤ roundTiesEven (y / (2 : α) ^ (Int.log 2 y - 23)) :=
    le_roundTiesEven _ _ h1
  have h4 : ((2 ^ 23 : ℤ) : α) ≤ (roundTiesEven (y / (2 : α) ^ (Int.log 2 y - 23)) : α) := by
    exact_mod_cast h3
  have h5 : (2 : α) ^ Int.log 2 y ≤
      (roundTiesEven (y / (2 : α) ^ (Int.log 2 y - 23)) : α) * (2 : α) ^ (Int.log 2 y - 23) := by
    rw [← h2]
    exact mul_le_mul_of_nonneg_right h4 (two_zpow_pos _).le
  exact le_trans (two_zpow_le k _ hL) h5

/-- Rounding does not cross a power of two from below. -/
theorem f32_le_of_le (y : α) (k : ℤ) (hk : -126 ≤ k) (h : y ≤ (2 : α) ^ k) :
    f32 y ≤ (2 : α) ^ k := by
  rcases le_or_lt y 0 with h0 | h0
  · exact le_trans (f32_nonpos y h0) (two_zpow_pos k).le
  have habs : |y| = y := abs_of_pos h0
  have hL : Int.log 2 y ≤ k := by
    have h1 : (2 : α) ^ Int.log 2 y ≤ (2 : α) ^ k := le_trans (log_two_le y h0) h
    exact (zpow_le_zpow_iff_right₀ (by norm_num : (1 : α) < 2)).mp h1
  have hb : binade y - 23 ≤ k := by
    unfold binade
    rw [habs]
    rcases max_cases (Int.log 2 y) (-126) with ⟨h1, _⟩ | ⟨h1, _⟩ <;> rw [h1] <;> omega
  obtain ⟨d, hd⟩ := Int.eq_ofNat_of_zero_le (sub_nonneg.mpr hb)
  have hk2 : k = binade y - 23 + (d : ℤ) := by omega
  have hpow : (2 : α) ^ k = ((2 ^ d : ℤ) : α) * ulp y := by
    unfold ulp
    rw [two_pow_mul_zpow]
    exact congrArg (fun e : ℤ => (2 : α) ^ e) hk2
  have h1 : y / ulp y ≤ ((2 ^ d : ℤ) : α) := by
    rw [div_le_iff₀ (ulp_pos y), ← hpow]
    exact h
  have h2 : roundTiesEven (y / ulp y) ≤ (2 ^ d : ℤ) := roundTiesEven_le _ _ h1
  have h3 : (roundTiesEven (y / ulp y) : α) ≤ ((2 ^ d : ℤ) : α) := by exact_mod_cast h2
  unfold f32
  rw [hpow]
  exact mul_le_mul_of_nonneg_right h3 (ulp_pos y).le

theorem binade_eq (y : α) (b : ℤ) (hb : -126 ≤ b) (h1 : (2 : α) ^ b ≤ |y|)
    (h2 : |y| < (2 : α) ^ (b + 1)) : binade y = b := by
  have hpos : 0 < |y| := lt_of_lt_of_le (two_zpow_pos b) h1
  have h3 := le_log_two _ hpos b h1
  have h4 := log_two_lt _ hpos (b + 1) h2
  unfold binade
  rw [max_eq_left (by omega)]
  omega

theorem roundTiesEven_of_near (y : α) (z : ℤ) (h1 : (z : α) - 1 / 2 < y)
    (h2 : y < (z : α) + 1 / 2) : roundTiesEven y = z := by
  rcases le_or_lt (z : α) y with h | h
  · have hf : ⌊y⌋ = z := by
      rw [Int.floor_eq_iff]
      exact ⟨h, by linarith⟩
    unfold roundTiesEven
    rw [hf, if_pos (by linarith)]
  · have hf : ⌊y⌋ = z - 1 := by
      rw [Int.floor_eq_iff]
      push_cast
      exact ⟨by linarith, by linarith⟩
    unfold roundTiesEven
    rw [hf]
    push_cast
    rw [if_neg (by linarith), if_pos (by linarith)]
    ring

theorem f32_zero : f32 (0 : α) = 0 := by
  simp [f32, roundTiesEven]

/-- The constant `0.4f`. -/
theorem f32_two_fifths : f32 (2 / 5 : α) = 13421773 / 33554432 := by
  have hb : binade (2 / 5 : α) = -2 := by
    apply binade_eq _ _ (by norm_num)
    · rw [abs_of_pos (by norm_num : (0 : α) < 2 / 5)]
      norm_num
    · rw [abs_of_pos (by norm_num : (0 : α) < 2 / 5)]
      norm_num
  rw [f32_of_binade _ _ hb]
  have hr : roundTiesEven ((2 / 5 : α) / (2 : α) ^ ((-2 : ℤ) - 23)) = 13421773 := by
    apply roundTiesEven_of_near <;> norm_num
  rw [hr]
  norm_num

/-- The constant `0.01f`. -/
theorem f32_one_hundredth : f32 (1 / 100 : α) = 5368709 / 536870912 := by
  have hb : binade (1 / 100 : α) = -7 := by
    apply binade_eq _ _ (by norm_num)
    · rw [abs_of_pos (by norm_num : (0 : α) < 1 / 100)]
      norm_num
    · rw [abs_of_pos (by norm_num : (0 : α) < 1 / 100)]
      norm_num
  rw [f32_of_binade _ _ hb]
  have hr : roundTiesEven ((1 / 100 : α) / (2 : α) ^ ((-7 : ℤ) - 23)) = 10737418 := by
    apply roundTiesEven_of_near <;> norm_num
  rw [hr]
  norm_num

/-- A binary32 value in the binade of exponent `b` is a multiple of
`2^(b - 23)`. -/
theorem f32_grid (y : α) (b : ℤ) (hb : -126 ≤ b) (h1 : (2 : α) ^ b ≤ f32 y)
    (h2 : f32 y < (2 : α) ^ (b + 1)) :
    ∃ m : ℤ, f32 y = (m : α) * (2 : α) ^ (b - 23) := by
  rcases lt_or_le y ((2 : α) ^ (b + 1)) with h3 | h3
  · rcases lt_or_le y ((2 : α) ^ b) with h4 | h4
    · have h5 := f32_le_of_le y b hb h4.le
      refine ⟨2 ^ 23, ?_⟩
      rw [le_antisymm h5 h1]
      exact (two_pow_mul_zpow_sub 23 b).symm
    · have hy : 0 < y := lt_of_lt_of_le (two_zpow_pos b) h4
      have hbin : binade y = b := by
        apply binade_eq _ _ hb
        · rw [abs_of_pos hy]
          exact h4
        · rw [abs_of_pos hy]
          exact h3
      exact ⟨_, f32_of_binade y b hbin⟩
  · have h5 := le_f32_of_le y (b + 1) (by omega) h3
    exact absurd h2 (not_lt.mpr h5)

/-- The test of line 122 on binary32 values: with `fuel = 0.4f` and a binary32
`fuelUsed`, the rounded difference exceeds `0.01f` exactly when the exact
difference does, exactly when `fuelUsed` does not exceed the difference of the two binary32
constants, and exactly when `fuelUsed` is at most `0.39`. -/
theorem loop_test_exact (y : α) :
    (f32 (f32 (2 / 5) - f32 y) > f32 (1 / 100) ↔ f32 (2 / 5) - f32 y > f32 (1 / 100)) ∧
    (f32 (f32 (2 / 5) - f32 y) > f32 (1 / 100) ↔ ¬ f32 y > f32 (2 / 5) - f32 (1 / 100)) ∧
    (f32 (f32 (2 / 5) - f32 y) > f32 (1 / 100) ↔ ¬ f32 y > 39 / 100) ∧
    (f32 (f32 (2 / 5) - f32 y) > f32 (1 / 100) ↔ ¬ f32 y > 2 / 5 - 1 / 100) := by
  rw [f32_two_fifths, f32_one_hundredth]
  have key : (f32 ((13421773 / 33554432 : α) - f32 y) > 5368709 / 536870912 ↔
        (13421773 / 33554432 : α) - f32 y > 5368709 / 536870912) ∧
      (f32 ((13421773 / 33554432 : α) - f32 y) > 5368709 / 536870912 ↔
        ¬ f32 y > 13421773 / 33554432 - 5368709 / 536870912) ∧
      (f32 ((13421773 / 33554432 : α) - f32 y) > 5368709 / 536870912 ↔
        ¬ f32 y > 39 / 100) := by
    rcases lt_or_le (f32 y) ((2 : α) ^ (-2 : ℤ)) with hA | hA
    · have hA2 : f32 y < 1 / 4 := by
        have : (2 : α) ^ (-2 : ℤ) = 1 / 4 := by norm_num
        rw [← this]
        exact hA
      have hd : (2 : α) ^ (-6 : ℤ) ≤ 13421773 / 33554432 - f32 y := by
        have : (2 : α) ^ (-6 : ℤ) = 1 / 64 := by norm_num
        rw [this]
        linarith
      have h6 := le_f32_of_le _ (-6) (by norm_num) hd
      have h7 : (2 : α) ^ (-6 : ℤ) = 1 / 64 := by norm_num
      rw [h7] at h6
      have l1 : f32 ((13421773 / 33554432 : α) - f32 y) > 5368709 / 536870912 := by
        linarith
      have l2 : (13421773 / 33554432 : α) - f32 y > 5368709 / 536870912 := by linarith
      have l3 : ¬ f32 y > 39 / 100 := by
        intro h
        linarith
      have l4 : ¬ f32 y > 13421773 / 33554432 - 5368709 / 536870912 := by
        intro h
        linarith
      exact ⟨iff_of_true l1 l2, iff_of_true l1 l4, iff_of_true l1 l3⟩
    · rcases lt_or_le (f32 y) ((2 : α) ^ ((-2 : ℤ) + 1)) with hB | hB
      · obtain ⟨m, hm⟩ := f32_grid y (-2) (by norm_num) hA hB
        have hA2 : (1 : α) / 4 ≤ f32 y := by
          have : (2 : α) ^ (-2 : ℤ) = 1 / 4 := by norm_num
          rw [← this]
          exact hA
        have hB2 : f32 y < 1 / 2 := by
          have : (2 : α) ^ ((-2 : ℤ) + 1) = 1 / 2 := by norm_num
          rw [← this]
          exact hB
        have hm2 : f32 y = (m : α) / 33554432 := by
          rw [hm]
          norm_num
          ring
        rw [hm2] at hA2 hB2 ⊢
        have m1 : (8388608 : α) ≤ (m : α) := by
          rw [le_div_iff₀ (by norm_num)] at hA2
          linarith
        have m2 : (m : α) < 16777216 := by
          rw [div_lt_iff₀ (by norm_num)] at hB2
          linarith
        have m1z : (8388608 : ℤ) ≤ m := by exact_mod_cast m1
        have m2z : m < (16777216 : ℤ) := by exact_mod_cast m2
        have hex : f32 ((13421773 / 33554432 : α) - (m : α) / 33554432) =
            13421773 / 33554432 - (m : α) / 33554432 := by
          have h := f32_of_int_mul (α := α) (13421773 - m) (-25)
            (by rw [abs_lt]; constructor <;> omega) (by norm_num)
          have e : ((13421773 - m : ℤ) : α) * (2 : α) ^ (-25 : ℤ) =
              13421773 / 33554432 - (m : α) / 33554432 := by
            push_cast
            norm_num
            ring
          rw [e] at h
          exact h
        rw [hex]
        have i1 : ((13421773 / 33554432 : α) - (m : α) / 33554432 > 5368709 / 536870912) ↔
            m ≤ 13086228 := by
          constructor
          · intro h
            have h' : (16 : α) * (m : α) < 209379659 := by
              have := mul_lt_mul_of_pos_right h (by norm_num : (0 : α) < 536870912)
              linarith
            have hz : (16 : ℤ) * m < 209379659 := by exact_mod_cast h'
            omega
          · intro h
            have hz : (m : α) ≤ 13086228 := by exact_mod_cast h
            show (5368709 / 536870912 : α) < 13421773 / 33554432 - (m : α) / 33554432
            linarith
        have i2 : (¬ (m : α) / 33554432 > 39 / 100) ↔ m ≤ 13086228 := by
          rw [not_lt]
          constructor
          · intro h
            have h' : (100 : α) * (m : α) ≤ 1308622848 := by
              rw [div_le_iff₀ (by norm_num)] at h
              linarith
            have hz : (100 : ℤ) * m ≤ 1308622848 := by exact_mod_cast h'
            omega
          · intro h
            have hz : (m : α) ≤ 13086228 := by exact_mod_cast h
            rw [div_le_iff₀ (by norm_num)]
            linarith
        have i3 : (¬ (m : α) / 33554432 > 13421773 / 33554432 - 5368709 / 536870912) ↔
            m ≤ 13086228 := by
          rw [not_lt]
          constructor
          · intro h
            have h' : (16 : α) * (m : α) ≤ 209379659 := by
              have := mul_le_mul_of_nonneg_right h (by norm_num : (0 : α) ≤ 536870912)
              linarith
            have hz : (16 : ℤ) * m ≤ 209379659 := by exact_mod_cast h'
            omega
          · intro h
            have hz : (m : α) ≤ 13086228 := by exact_mod_cast h
            linarith
        exact ⟨Iff.rfl, i1.trans i3.symm, i1.trans i2.symm⟩
      · have hB2 : (1 : α) / 2 ≤ f32 y := by
          have : (2 : α) ^ ((-2 : ℤ) + 1) = 1 / 2 := by norm_num
          rw [← this]
          exact hB
        have hd : (13421773 / 33554432 : α) - f32 y ≤ 0 := by linarith
        have h6 := f32_nonpos _ hd
        have l1 : ¬ f32 ((13421773 / 33554432 : α) - f32 y) > 5368709 / 536870912 := by
          intro h
          linarith
        have l2 : ¬ (13421773 / 33554432 : α) - f32 y > 5368709 / 536870912 := by
          intro h
          linarith
        have l3 : ¬ ¬ f32 y > 39 / 100 := by
          intro h
          apply h
          linarith
        have l4 : ¬ ¬ f32 y > 13421773 / 33554432 - 5368709 / 536870912 := by
          intro h
          apply h
          linarith
        exact ⟨iff_of_false l1 l2, iff_of_false l1 l4, iff_of_false l1 l3⟩
  refine ⟨key.1, key.2.1, key.2.2, ?_⟩
  rw [key.2.2]
  norm_num

end Float32

/-! ## The loop in binary32 arithmetic -/

section Binary32

variable {α : Type} [LinearOrderedField α] [FloorRing α]

theorem configureStyle32_fuel (s : DrivingSimulation α) :
    (configureStyle32 s).fuel = s.fuel ∧ (configureStyle32 s).fuelUsed = s.fuelUsed := by
  unfold configureStyle32
  split_ifs <;> exact ⟨rfl, rfl⟩

theorem configure32_fuel (s0 : DrivingSimulation α) (input : List String)
    (s : DrivingSimulation α) (h : configure32 s0 input = Except.ok s) :
    s.fuel = s0.fuel ∧ s.fuelUsed = s0.fuelUsed := by
  unfold configure32 at h
  split at h
  · cases h
  · next s1 rest hg =>
    injection h with h
    rw [← h]
    have h1 := getUserInput_fuel s0 input _ hg
    have h2 := configureStyle32_fuel s1
    exact ⟨h2.1.trans h1.1, h2.2.trans h1.2⟩

/-- Configuration of a freshly constructed object succeeds for a valid
terrain. -/
theorem configure32_init (g : Indeterminate α) (terrain style : String) (rest : List String)
    (hterrain : terrain = "hill" ∨ terrain = "plain" ∨ terrain = "downward") :
    ∃ s, configure32 (DrivingSimulation.init32 g) (terrain :: style :: rest) = Except.ok s ∧
      s.terrain = terrain ∧ s.style = style ∧ s.fuel = f32 (2 / 5) ∧ s.fuelUsed = 0 := by
  rcases hterrain with h | h | h <;> subst h <;>
    exact ⟨_, rfl, by simp [configureStyle32]; split_ifs <;> rfl,
      by simp [configureStyle32]; split_ifs <;> rfl,
      (configureStyle32_fuel _).1, (configureStyle32_fuel _).2⟩

theorem applyOverride32_fuel (s : DrivingSimulation α) :
    (applyOverride32 s).fuel = s.fuel ∧ (applyOverride32 s).fuelUsed = s.fuelUsed := by
  unfold applyOverride32 overrideDownwardAggressive overrideHillConservative32
  split_ifs <;> exact ⟨rfl, rfl⟩

theorem tick32_fuel (expf : α → α) (powf : α → α → α) (t : α) (r : Nat)
    (s : DrivingSimulation α) : (tick32 expf powf t r s).fuel = s.fuel := by
  simp [tick32, applyOverride32_fuel]

theorem tick32_fuelUsed (expf : α → α) (powf : α → α → α) (t : α) (r : Nat)
    (s : DrivingSimulation α) :
    (tick32 expf powf t r s).fuelUsed =
      f32 (s.fuelUsed + (tickVars32 expf powf t r (applyOverride32 s)).instFuelUsed) := by
  simp [tick32, tickVars32, applyOverride32_fuel]

theorem boundary32_succ (expf : α → α) (powf : α → α → α) (rnd : Nat → Nat)
    (s : DrivingSimulation α) (k : Nat) :
    boundary32 expf powf rnd s (k + 1) =
      (f32 ((boundary32 expf powf rnd s k).1 + f32 (1 / 10)),
        tick32 expf powf (boundary32 expf powf rnd s k).1 (rnd k)
          (boundary32 expf powf rnd s k).2) := rfl

theorem boundary32_fuel (expf : α → α) (powf : α → α → α) (rnd : Nat → Nat)
    (s : DrivingSimulation α) (k : Nat) :
    (boundary32 expf powf rnd s k).2.fuel = s.fuel := by
  induction k with
  | zero => rfl
  | succ k ih => rw [boundary32_succ]; exact (tick32_fuel _ _ _ _ _).trans ih

/-- The accumulated `fuelUsed` is a binary32 value at every test of the
loop. -/
theorem boundary32_fuelUsed (expf : α → α) (powf : α → α → α) (rnd : Nat → Nat)
    (s : DrivingSimulation α) (hs : s.fuelUsed = 0) (k : Nat) :
    ∃ y, (boundary32 expf powf rnd s k).2.fuelUsed = f32 y := by
  cases k with
  | zero => exact ⟨0, by rw [f32_zero]; exact hs⟩
  | succ k => exact ⟨_, by rw [boundary32_succ]; exact tick32_fuelUsed _ _ _ _ _⟩

/-- The loop in binary32 arithmetic started at its `k`-th test returns exactly
the object of the first later test at which the condition fails. -/
theorem simulateLoop32_eq_some (expf : α → α) (powf : α → α → α) (rnd : Nat → Nat)
    (s : DrivingSimulation α) (n k : Nat) (r : DrivingSimulation α) :
    simulateLoop32 expf powf rnd n k (boundary32 expf powf rnd s k) = some r ↔
      ∃ m, k ≤ m ∧ m < k + n ∧ r = (boundary32 expf powf rnd s m).2 ∧
        (∀ j, k ≤ j → j < m → loopCond32 (boundary32 expf powf rnd s j).2) ∧
        ¬ loopCond32 (boundary32 expf powf rnd s m).2 := by
  induction n generalizing k with
  | zero =>
    simp only [simulateLoop32, Nat.add_zero]
    constructor
    · intro h; cases h
    · rintro ⟨m, h1, h2, _⟩; omega
  | succ n ih =>
    simp only [simulateLoop32]
    by_cases hc : loopCond32 (boundary32 expf powf rnd s k).2
    · rw [if_pos hc]
      have hb : loopStep32 expf powf rnd k (boundary32 expf powf rnd s k) =
          boundary32 expf powf rnd s (k + 1) := rfl
      rw [hb, ih (k + 1)]
      constructor
      · rintro ⟨m, h1, h2, h3, h4, h5⟩
        refine ⟨m, by omega, by omega, h3, ?_, h5⟩
        intro j hj1 hj2
        rcases Nat.eq_or_lt_of_le hj1 with h | h
        · rw [← h]; exact hc
        · exact h4 j h hj2
      · rintro ⟨m, h1, h2, h3, h4, h5⟩
        have hne : m ≠ k := by
          rintro rfl
          exact h5 hc
        refine ⟨m, by omega, by omega, h3, ?_, h5⟩
        intro j hj1 hj2
        exact h4 j (by omega) hj2
    · rw [if_neg hc]
      constructor
      · intro h
        refine ⟨k, le_refl k, by omega, ?_, ?_, hc⟩
        · exact (Option.some.inj h).symm
        · intro j hj1 hj2; omega
      · rintro ⟨m, h1, h2, h3, h4, h5⟩
        have hm : m = k := by
          by_contra hne
          exact hc (h4 k (le_refl k) (by omega))
        rw [h3, hm]

/-- The rounding error of `f32` is at most half the spacing. -/
theorem abs_f32_sub_le (y : α) : |f32 y - y| ≤ ulp y / 2 := by
  have hu := ulp_pos y
  have hq : |((roundTiesEven (y / ulp y) : ℤ) : α) - y / ulp y| ≤ 1 / 2 := by
    have h1 := Int.floor_le (y / ulp y)
    have h2 := Int.lt_floor_add_one (y / ulp y)
    unfold roundTiesEven
    rw [abs_le]
    split_ifs with a b c
    · constructor <;> linarith
    · push_cast
      constructor <;> linarith
    · constructor <;> linarith
    · push_cast
      constructor <;> linarith
  have e : f32 y - y = (((roundTiesEven (y / ulp y) : ℤ) : α) - y / ulp y) * ulp y := by
    unfold f32
    field_simp
  rw [e, abs_mul, abs_of_pos hu]
  calc |((roundTiesEven (y / ulp y) : ℤ) : α) - y / ulp y| * ulp y
      ≤ 1 / 2 * ulp y := mul_le_mul_of_nonneg_right hq hu.le
    _ = ulp y / 2 := by ring

/-- C5: in binary32 arithmetic, after construction and configuration with a
valid terrain the fuel capacity is `0.4f` and no pass changes it; the loop
variable is `0` at the first test and each pass replaces it by the binary32
sum `t + 0.1f`, within half a spacing of the exact sum; a test lets another
pass run exactly when the rounded `fuel - fuelUsed` exceeds `0.01f`, and at
every test the loop reaches this is the case exactly when `fuelUsed` does not
exceed `fuel - 0.01` (with the binary32 constants and, equally, with the
decimal constants `0.4` and `0.01`); so `simulate` returns, with the object of
test `m`, exactly when `m` is the first test at which `fuelUsed` exceeds
`fuel - 0.01`, and it does return that object once such a test exists and it
is allowed more than `m` tests. -/
theorem C5_loop_halts_when_fuel_exceeds (g : Indeterminate α) (terrain style : String)
    (rest : List String)
    (hterrain : terrain = "hill" ∨ terrain = "plain" ∨ terrain = "downward") :
    ∃ s, configure32 (DrivingSimulation.init32 g) (terrain :: style :: rest) = Except.ok s ∧
      s.fuel = f32 (2 / 5) ∧ s.fuelUsed = 0 ∧
      ∀ (expf : α → α) (powf : α → α → α) (rnd : Nat → Nat),
        (∀ k, (boundary32 expf powf rnd s k).2.fuel = f32 (2 / 5)) ∧
        (boundary32 expf powf rnd s 0).1 = 0 ∧
        (∀ k, (boundary32 expf powf rnd s (k + 1)).1 =
          f32 ((boundary32 expf powf rnd s k).1 + f32 (1 / 10))) ∧
        (∀ k, |(boundary32 expf powf rnd s (k + 1)).1 -
            ((boundary32 expf powf rnd s k).1 + f32 (1 / 10))| ≤
          ulp ((boundary32 expf powf rnd s k).1 + f32 (1 / 10)) / 2) ∧
        (∀ (n k : Nat) (p : α × DrivingSimulation α),
          simulateLoop32 expf powf rnd (n + 1) k p =
            if f32 (p.2.fuel - p.2.fuelUsed) > f32 (1 / 100) then
              simulateLoop32 expf powf rnd n (k + 1)
                (f32 (p.1 + f32 (1 / 10)), tick32 expf powf p.1 (rnd k) p.2)
            else some p.2) ∧
        (∀ k, loopCond32 (boundary32 expf powf rnd s k).2 ↔
          ¬ (boundary32 expf powf rnd s k).2.fuelUsed >
            (boundary32 expf powf rnd s k).2.fuel - f32 (1 / 100)) ∧
        (∀ k, loopCond32 (boundary32 expf powf rnd s k).2 ↔
          ¬ (boundary32 expf powf rnd s k).2.fuelUsed > 2 / 5 - 1 / 100) ∧
        (∀ (n : Nat) (r : DrivingSimulation α),
          simulate32 expf powf rnd n s = some r ↔
            ∃ m, m < n ∧ r = (boundary32 expf powf rnd s m).2 ∧
              (∀ j, j < m →
                ¬ (boundary32 expf powf rnd s j).2.fuelUsed >
                  (boundary32 expf powf rnd s j).2.fuel - f32 (1 / 100)) ∧
              (boundary32 expf powf rnd s m).2.fuelUsed >
                (boundary32 expf powf rnd s m).2.fuel - f32 (1 / 100)) ∧
        (∀ m : Nat,
          (∀ j, j < m →
            ¬ (boundary32 expf powf rnd s j).2.fuelUsed >
              (boundary32 expf powf rnd s j).2.fuel - f32 (1 / 100)) →
          (boundary32 expf powf rnd s m).2.fuelUsed >
            (boundary32 expf powf rnd s m).2.fuel - f32 (1 / 100) →
          ∀ n, m < n →
            simulate32 expf powf rnd n s = some (boundary32 expf powf rnd s m).2) := by
  obtain ⟨s, hc, _, _, hf, hu⟩ := configure32_init g terrain style rest hterrain
  refine ⟨s, hc, hf, hu, fun expf powf rnd => ?_⟩
  have hfuel : ∀ k, (boundary32 expf powf rnd s k).2.fuel = f32 (2 / 5) := fun k =>
    (boundary32_fuel expf powf rnd s k).trans hf
  have hA : ∀ k, loopCond32 (boundary32 expf powf rnd s k).2 ↔
      ¬ (boundary32 expf powf rnd s k).2.fuelUsed >
        (boundary32 expf powf rnd s k).2.fuel - f32 (1 / 100) := by
    intro k
    obtain ⟨y, hy⟩ := boundary32_fuelUsed expf powf rnd s hu k
    unfold loopCond32
    rw [hfuel k, hy]
    exact (loop_test_exact y).2.1
  have hB : ∀ k, loopCond32 (boundary32 expf powf rnd s k).2 ↔
      ¬ (boundary32 expf powf rnd s k).2.fuelUsed > 2 / 5 - 1 / 100 := by
    intro k
    obtain ⟨y, hy⟩ := boundary32_fuelUsed expf powf rnd s hu k
    unfold loopCond32
    rw [hfuel k, hy]
    exact (loop_test_exact y).2.2.2
  have hiff : ∀ (n : Nat) (r : DrivingSimulation α),
      simulate32 expf powf rnd n s = some r ↔
        ∃ m, m < n ∧ r = (boundary32 expf powf rnd s m).2 ∧
          (∀ j, j < m →
            ¬ (boundary32 expf powf rnd s j).2.fuelUsed >
              (boundary32 expf powf rnd s j).2.fuel - f32 (1 / 100)) ∧
          (boundary32 expf powf rnd s m).2.fuelUsed >
            (boundary32 expf powf rnd s m).2.fuel - f32 (1 / 100) := by
    intro n r
    have h := simulateLoop32_eq_some expf powf rnd s n 0 r
    constructor
    · intro hs
      obtain ⟨m, _, h2, h3, h4, h5⟩ := h.mp hs
      exact ⟨m, by omega, h3, fun j hj => (hA j).mp (h4 j (Nat.zero_le j) hj),
        not_not.mp (fun hn => h5 ((hA m).mpr hn))⟩
    · rintro ⟨m, h2, h3, h4, h5⟩
      exact h.mpr ⟨m, Nat.zero_le m, by omega, h3, fun j _ hj => (hA j).mpr (h4 j hj),
        fun hc => (hA m).mp hc h5⟩
  refine ⟨hfuel, rfl, fun k => rfl, fun k => ?_, fun n k p => rfl, hA, hB, hiff,
    fun m h4 h5 n hn => (hiff n _).mpr ⟨m, hn, rfl, h4, h5⟩⟩
  rw [boundary32_succ]
  exact abs_f32_sub_le _

end Binary32

/-! ## The throttle in binary32 arithmetic -/

section Saturation

variable {α : Type} [LinearOrderedField α] [FloorRing α]

end Saturation

section SaturationReal

end SaturationReal

/-! ## Instances -/

section Witnesses

theorem C5_loop_halts_when_fuel_exceeds_witness :
    ("plain" = "hill" ∨ "plain" = "plain" ∨ "plain" = "downward") ∧
      ∃ s, configure32 (DrivingSimulation.init32 (staleMembers : Indeterminate ℚ))
          ["plain", "moderate"] = Except.ok s ∧
        s.fuel = f32 (2 / 5) ∧
        (boundary32 (fun x : ℚ => 1 + x) (fun x _ => x) (fun _ => 0) s 0).2.fuelUsed = 0 ∧
        loopCond32 (boundary32 (fun x : ℚ => 1 + x) (fun x _ => x) (fun _ => 0) s 0).2 :=
  ⟨Or.inr (Or.inl rfl),
    match C5_loop_halts_when_fuel_exceeds (staleMembers : Indeterminate ℚ) "plain" "moderate" []
      (Or.inr (Or.inl rfl)) with
    | ⟨s, hs, hf, hu, h⟩ =>
      ⟨s, hs, hf, hu,
        ((h (fun x : ℚ => 1 + x) (fun x _ => x) (fun _ => 0)).2.2.2.2.2.2.1 0).mpr
          (by
            show ¬ s.fuelUsed > 2 / 5 - 1 / 100
            rw [hu]
            norm_num)⟩⟩

theorem C11_instMileage_rule_witness :
    (tickVars (fun _ : ℚ => 1) (fun x _ => x)
        (boundary (fun _ : ℚ => 1) (fun x _ => x) (fun _ => 0) plainModerate 0).1 0
        (applyOverride
          (boundary (fun _ : ℚ => 1) (fun x _ => x) (fun _ => 0) plainModerate 0).2)).totalDistance <
        1 / 1000 ∧
      (tickVars (fun _ : ℚ => 1) (fun x _ => x)
        (boundary (fun _ : ℚ => 1) (fun x _ => x) (fun _ => 0) plainModerate 0).1 0
        (applyOverride
          (boundary (fun _ : ℚ => 1) (fun x _ => x) (fun _ => 0) plainModerate 0).2)).instMileage =
        0 :=
  have h : (tickVars (fun _ : ℚ => 1) (fun x _ => x)
      (boundary (fun _ : ℚ => 1) (fun x _ => x) (fun _ => 0) plainModerate 0).1 0
      (applyOverride
        (boundary (fun _ : ℚ => 1) (fun x _ => x) (fun _ => 0) plainModerate 0).2)).totalDistance <
      1 / 1000 := by
    rw [show (boundary (fun _ : ℚ => 1) (fun x _ => x) (fun _ => 0) plainModerate 0).2 =
      plainModerate from rfl, applyOverride_plain plainModerate rfl]
    norm_num [boundary, tickVars, plainModerate, throttle, noise, clamp, stdMax, stdMin, dt]
  ⟨h, (C11_instMileage_rule (fun _ : ℚ => 1) (fun x _ => x) (fun _ => 0) plainModerate 0).2.2.1 h⟩

theorem C15_simulate_terminates_witness :
    ("hill" = "hill" ∨ "hill" = "plain" ∨ "hill" = "downward") ∧
      ∃ s, configure (DrivingSimulation.init (staleMembers : Indeterminate ℝ))
          ["hill", "conservative"] = Except.ok s ∧
        ∃ m, m ≤ 80200 ∧ ∀ n, m < n →
          simulate Real.exp (fun x y : ℝ => x ^ y) (fun _ => 0) n s =
            some (boundary Real.exp (fun x y : ℝ => x ^ y) (fun _ => 0) s m).2 :=
  ⟨Or.inl rfl,
    match C15_simulate_terminates (staleMembers : Indeterminate ℝ) "hill" "conservative" []
      (Or.inl rfl) with
    | ⟨s, hs, h⟩ =>
      match (h (fun x y : ℝ => x ^ y) (fun _ => 0)).2 with
      | ⟨m, hm, _, _, hsim⟩ => ⟨s, hs, m, hm, hsim⟩⟩

theorem C16_recorded_mileage_range_witness :
    ("plain" = "hill" ∨ "plain" = "plain" ∨ "plain" = "downward") ∧
      ∃ s, configure sampleInit ["plain", "moderate"] = Except.ok s ∧
        ∀ x ∈ (boundary (fun x : ℚ => 1 + x) (fun x _ => x) (fun _ => 700) s 3).2.allMileages,
          x = 0 ∨ (5 ≤ x ∧ x ≤ 25) :=
  ⟨Or.inr (Or.inl rfl),
    match C16_recorded_mileage_range
      ({ maxRPM := 0, maxThrottle := 0, rampTime := 0, noiseRange := 0, speedFactor := 0,
         baseEfficiencyRPM := 0, mileageEfficiencyFactor := 0 } : Indeterminate ℚ)
      "plain" "moderate" [] (Or.inr (Or.inl rfl)) with
    | ⟨s, hs, h⟩ => ⟨s, hs, (h (fun x : ℚ => 1 + x) (fun x _ => x) (fun _ => 700)).1 3⟩⟩

theorem C17_downward_conservative_zero_mileage_witness :
    ((0 : ℝ) ≤ 2500 ∧ (2500 : ℝ) ≤ 2500) ∧
      ∃ s, configure (DrivingSimulation.init (staleMembers : Indeterminate ℝ))
          ["downward", "conservative"] = Except.ok s ∧
        clamp (2500 / s.maxRPM * s.speedLimit * s.speedFactor) 0 s.speedLimit / (18 / 5) * dt /
            1000 /
          dynamicMileage (fun x y : ℝ => x ^ y) 2500 s.baseEfficiencyRPM
            s.mileageEfficiencyFactor ≤ 1 / 10000 :=
  ⟨⟨by norm_num, le_refl _⟩,
    match C17_downward_conservative_zero_mileage (staleMembers : Indeterminate ℝ) [] with
    | ⟨s, hs, h, _⟩ => ⟨s, hs, h 2500 (by norm_num) (le_refl _)⟩⟩

theorem C18_overall_mileage_range_witness :
    ("plain" = "hill" ∨ "plain" = "plain" ∨ "plain" = "downward") ∧
      ∃ s, configure (DrivingSimulation.init (staleMembers : Indeterminate ℝ))
          ["plain", "moderate"] = Except.ok s ∧
        ∃ m, 1 ≤ m ∧
          0 < (boundary Real.exp (fun x y : ℝ => x ^ y) (fun _ => 0) s m).2.fuelUsed ∧
          5 ≤ (boundary Real.exp (fun x y : ℝ => x ^ y) (fun _ => 0) s m).2.totalDistance /
                1000 /
              (boundary Real.exp (fun x y : ℝ => x ^ y) (fun _ => 0) s m).2.fuelUsed ∧
          (boundary Real.exp (fun x y : ℝ => x ^ y) (fun _ => 0) s m).2.totalDistance /
                1000 /
              (boundary Real.exp (fun x y : ℝ => x ^ y) (fun _ => 0) s m).2.fuelUsed ≤ 25 :=
  ⟨Or.inr (Or.inl rfl),
    match C18_overall_mileage_range (staleMembers : Indeterminate ℝ) "plain" "moderate" []
      (Or.inr (Or.inl rfl)) with
    | ⟨s, hs, h⟩ =>
      match simulate_returns (fun x y : ℝ => x ^ y) (fun _ => 0) s
        (configure_fresh_bounds staleMembers "plain" "moderate" [] (Or.inr (Or.inl rfl)) s hs).1
        (configure_fresh_bounds staleMembers "plain" "moderate" [] (Or.inr (Or.inl rfl)) s hs).2
        with
      | ⟨m, hm1, _, _, _, hsim⟩ =>
        ⟨s, hs, m, hm1,
          ((h Real.exp (fun x y : ℝ => x ^ y) (fun _ => 0)).2 (m + 1) _
            (hsim (m + 1) (Nat.lt_succ_self m))).1,
          (h Real.exp (fun x y : ℝ => x ^ y) (fun _ => 0)).1 m
            ((h Real.exp (fun x y : ℝ => x ^ y) (fun _ => 0)).2 (m + 1) _
              (hsim (m + 1) (Nat.lt_succ_self m))).1⟩⟩

theorem C19_fuel_never_overdrawn_witness :
    ("downward" = "hill" ∨ "downward" = "plain" ∨ "downward" = "downward") ∧
      ∃ s, configure sampleInit ["downward", "aggressive"] = Except.ok s ∧
        s.speedLimit ≤ 150 ∧
        (tickVars (fun x : ℚ => 1 + x) (fun x _ => x)
          (boundary (fun x : ℚ => 1 + x) (fun x _ => x) (fun _ => 700) s 0).1 700
          (applyOverride
            (boundary (fun x : ℚ => 1 + x) (fun x _ => x) (fun _ => 700) s 0).2)).instFuelUsed <
          1 / 100 :=
  ⟨Or.inr (Or.inr rfl),
    match C19_fuel_never_overdrawn
      ({ maxRPM := 0, maxThrottle := 0, rampTime := 0, noiseRange := 0, speedFactor := 0,
         baseEfficiencyRPM := 0, mileageEfficiencyFactor := 0 } : Indeterminate ℚ)
      "downward" "aggressive" [] (Or.inr (Or.inr rfl)) with
    | ⟨s, hs, hu, h⟩ =>
      ⟨s, hs, hu, (h (fun x : ℚ => 1 + x) (fun x _ => x) (fun _ => 700)).1 0⟩⟩

theorem C20_samples_nonempty_witness :
    ("hill" = "hill" ∨ "hill" = "plain" ∨ "hill" = "downward") ∧
      (∃ s, configure sampleInit ["hill", "moderate"] = Except.ok s ∧
        s.fuel - s.fuelUsed > 1 / 100 ∧
        simulate (fun x : ℚ => 1 + x) (fun x _ => x) (fun _ => 700) 5 s =
          simulateLoop (fun x : ℚ => 1 + x) (fun x _ => x) (fun _ => 700) 4 1
            (0 + dt, tick (fun x : ℚ => 1 + x) (fun x _ => x) 0 700 s) ∧
        (boundary (fun x : ℚ => 1 + x) (fun x _ => x) (fun _ => 700) s 5).2.allMileages.length =
          5) ∧
      ∃ s, configure (DrivingSimulation.init (staleMembers : Indeterminate ℝ))
          ["hill", "moderate"] = Except.ok s ∧
        ∃ m, 1 ≤ m ∧ m ≤ 80200 ∧
          ∃ r, simulate Real.exp (fun x y : ℝ => x ^ y) (fun _ => 0) (m + 1) s = some r ∧
            r.allMileages.length = m ∧ r.allMileages ≠ [] ∧
            ∃ rep, printReport r = some rep :=
  ⟨Or.inl rfl,
    match C20_samples_nonempty
      ({ maxRPM := 0, maxThrottle := 0, rampTime := 0, noiseRange := 0, speedFactor := 0,
         baseEfficiencyRPM := 0, mileageEfficiencyFactor := 0 } : Indeterminate ℚ)
      (staleMembers : Indeterminate ℝ) "hill" "moderate" [] (Or.inl rfl) with
    | ⟨⟨s, hs, _, _, hfirst, h⟩, ⟨sR, hsR, hR⟩⟩ =>
      ⟨⟨s, hs, hfirst, (h (fun x : ℚ => 1 + x) (fun x _ => x) (fun _ => 700)).1 4,
          ((h (fun x : ℚ => 1 + x) (fun x _ => x) (fun _ => 700)).2.1 5).2.2.2⟩,
        match hR (fun x y : ℝ => x ^ y) (fun _ => 0) with
        | ⟨m, hm1, hm2, hrun⟩ =>
          match hrun (m + 1) (Nat.lt_succ_self m) with
          | ⟨r, hr, _, _, _, _, hl, hne, _, hrep⟩ =>
            ⟨sR, hsR, m, hm1, hm2, r, hr, hl, hne, hrep⟩⟩⟩

end Witnesses

end CarSim
